import Mathlib

/-!
# Demand paging of the teaching kernel (src/A/kernel)

A shallow embedding of `demand.c`, `swap.c` and of `flags2perm` and `kexec` of
`exec.c`.

* `struct proc` is the record `Proc`, holding the fields the paging code reads
  or writes; the page table it points to is a map from page numbers to
  page-table entries.
* The kernel state outside the process (frame allocator, physical memory) is
  the record `Kernel`.
* `uint64` values are natural numbers; arithmetic that can wrap is reduced
  modulo `2 ^ 64` (`add64`, `sub64`).  `int` counters are integers.
* The diagnostic `printf` lines are not part of the state; the exit taken by
  the fault handler is recorded in `Outcome.exit`, one tag per `return`.
* The process pointer `p` is a `Proc` value, so the test `p == 0` of the
  handler is always false; the test `p->pagetable == 0` is kept.

The headers `riscv.h`, `memlayout.h`, `param.h`, `proc.h` and the kernel
files `vm.c`, `kalloc.c`, `fs.c`, `proc.c` are not part of the sources at hand.
Their macros and functions used by the paging code are either parameters
(`MAXVA`, `MAX_SWAP_PAGES`, `MAX_SEGMENTS`, `USERSTACK`) or small models, each
marked as such.
-/

namespace Paging

/-! ## Architecture constants and macros (`riscv.h`) -/

/-- Modelled from the spec: `PGSIZE` of `riscv.h` (not under src/), the page
size in bytes.  The user tests use `PAGE_SIZE 4096` for one page and the spec
scenario uses pages of `0x1000` bytes. -/
def PGSIZE : Nat := 4096

/-- Modelled from the spec: `PTE_V` of `riscv.h`, the "valid" bit of a
page-table entry (RISC-V bit 0). -/
def PTE_V : Nat := 1

/-- Modelled from the spec: `PTE_R` of `riscv.h`, the "readable" bit
(RISC-V bit 1). -/
def PTE_R : Nat := 2

/-- Modelled from the spec: `PTE_W` of `riscv.h`, the "writable" bit
(RISC-V bit 2). -/
def PTE_W : Nat := 4

/-- Modelled from the spec: `PTE_X` of `riscv.h`, the "executable" bit
(RISC-V bit 3). -/
def PTE_X : Nat := 8

/-- Modelled from the spec: `PTE_U` of `riscv.h`, the "user-accessible" bit
(RISC-V bit 4). -/
def PTE_U : Nat := 16

/-- Modelled from the spec: `PGROUNDDOWN(a)` of `riscv.h`, rounding an
address down to a page boundary (`a & ~(PGSIZE-1)` on `uint64`). -/
def PGROUNDDOWN (a : Nat) : Nat := a / PGSIZE * PGSIZE

/-- Modelled from the spec: `PA2PTE(pa)` of `riscv.h`, the frame identifier
field of a page-table entry: `(pa >> 12) << 10`. -/
def PA2PTE (pa : Nat) : Nat := (pa >>> 12) <<< 10

/-- Modelled from the spec: `PTE2PA(pte)` of `riscv.h`, the physical address
of the frame a page-table entry names: `(pte >> 10) << 12`. -/
def PTE2PA (pte : Nat) : Nat := (pte >>> 10) <<< 12

/-- Modelled from the spec: `PTE_FLAGS(pte)` of `riscv.h`, the ten permission
and status bits of a page-table entry: `pte & 0x3FF`. -/
def PTE_FLAGS (pte : Nat) : Nat := pte &&& 0x3FF

/-- Addition of two `uint64` values. -/
def add64 (a b : Nat) : Nat := (a + b) % 2 ^ 64

/-- Subtraction of two `uint64` values. -/
def sub64 (a b : Nat) : Nat := (a + 2 ^ 64 - b % 2 ^ 64) % 2 ^ 64

/-- Conversion of a `uint64` to `int`, as in the cast `(int)(va / PGSIZE)`:
the low 32 bits read as a two's complement number. -/
def toInt32 (x : Nat) : Int :=
  if x % 2 ^ 32 < 2 ^ 31 then ((x % 2 ^ 32 : Nat) : Int)
  else ((x % 2 ^ 32 : Nat) : Int) - 2 ^ 32

/-! ## Data model (`proc.h`) -/

/-- The record `struct segment`: one loadable region of the program image. -/
structure Segment where
  va_start : Nat
  va_end : Nat
  file_offset : Nat
  file_size : Nat
  mem_size : Nat
  flags : Nat
  deriving DecidableEq, Repr, Inhabited

/-- A page table: the page-table entry stored for a page number, `none`
where `walk` finds no entry. -/
abbrev PageTable := Nat → Option Nat

/-- Physical memory: the byte stored at a physical address. -/
abbrev Mem := Nat → Nat

/-- The fields of `struct inode` read through `readi`: the size of the file in
bytes and the byte stored at each offset. -/
structure Inode where
  size : Nat
  data : Nat → Nat

/-- The fields of `struct proc` used by the paging code.  `segments` is the
array `segments[MAX_SEGMENTS]` (an index beyond the list reads the all-zero
segment, which holds no address), `swap_slots` the array
`swap_slots[MAX_SWAP_PAGES]`; `swap_file` and `pagetable` are pointers that may
be null; `exec_inode` is the pointer to the inode of the executable, or
null; `killed` is the flag `setkilled` sets. -/
structure Proc where
  pagetable : Option PageTable
  sz : Nat
  heap_start : Nat
  segments : List Segment
  num_segments : Nat
  num_resident : Int
  num_swapped : Int
  next_seq : Int
  swap_file : Bool
  swap_slots : Nat → Nat
  exec_inode : Option Inode
  killed : Bool

/-- The kernel state outside the process: the free list of the frame
allocator, the number of `kalloc` calls made so far (a ghost counter), the
physical memory, and whether `mappages` can obtain the page-table pages it
needs. -/
structure Kernel where
  freelist : List Nat
  kalloc_calls : Nat
  mem : Mem
  mappages_ok : Bool

/-- The value of `cause` in the fault handler: the string literals
`"text"`, `"data"`, `"heap"`, `"stack"`, `"invalid"`, which the handler tells
apart with `strncmp`. -/
inductive Cause where
  | text
  | data
  | heap
  | stack
  | invalid
  deriving DecidableEq, Repr

/-- The `return` statements of `demand_page_fault`, in source order. -/
inductive Exit where
  | null_guard
  | kill_invalid
  | dirty
  | already_mapped
  | no_victim
  | invalid_victim
  | swapout_failed
  | no_segment
  | load_failed
  | unknown_cause
  | mapping_failed
  | resident
  deriving DecidableEq, Repr

/-- What a call of the fault handler leaves behind: the returned `uint64`, the
`return` statement taken, and the process and kernel state. -/
structure Outcome where
  ret : Nat
  exit : Exit
  p : Proc
  k : Kernel

/-! ## Kernel services used by the paging code -/

/-- Modelled from the spec: `walk(pagetable, va, 0)` of `vm.c` (not under
src/), the lookup of the page-table entry of the page holding `va`. -/
def walk (pt : PageTable) (va : Nat) : Option Nat := pt (va / PGSIZE)

/-- The test `pte && (*pte & PTE_V)` on the result of `walk`. -/
def pte_valid (pte : Option Nat) : Bool :=
  match pte with
  | none => false
  | some e => e &&& PTE_V != 0

/-- Modelled from the spec: `mappages(pagetable, va, PGSIZE, pa, perm)` of
`vm.c` (not under src/): "install the page-table mapping", storing
`PA2PTE(pa) | perm | PTE_V` in the entry of the page. -/
def mappages (pt : PageTable) (va pa perm : Nat) : PageTable :=
  Function.update pt (va / PGSIZE) (some (PA2PTE pa ||| perm ||| PTE_V))

/-- Modelled from the spec: `uvmunmap(pagetable, va, 1, 0)` of `vm.c` (not
under src/): "unmap" one page, clearing its entry without freeing the frame. -/
def uvmunmap (pt : PageTable) (va : Nat) : PageTable :=
  Function.update pt (va / PGSIZE) (some 0)

/-- Modelled from the spec: `kalloc()` of `kalloc.c` (not under src/):
"request a free physical frame"; `none` is the null pointer returned when no
frame is free. -/
def kalloc (k : Kernel) : Option Nat × Kernel :=
  match k.freelist with
  | [] => (none, { k with kalloc_calls := k.kalloc_calls + 1 })
  | f :: fs => (some f, { k with freelist := fs, kalloc_calls := k.kalloc_calls + 1 })

/-- Modelled from the spec: `kfree(pa)` of `kalloc.c` (not under src/): the
frame is "released" to the allocator. -/
def kfree (k : Kernel) (pa : Nat) : Kernel :=
  { k with freelist := pa :: k.freelist }

/-- The library call `memset(dst, c, n)` on physical memory. -/
def memset (m : Mem) (dst c n : Nat) : Mem :=
  fun a => if dst ≤ a ∧ a < dst + n then c else m a

/-- Modelled from the spec: `readi(ip, 0, dst, off, n)` of `fs.c` (not under
src/): "copy bytes from the executable image at the corresponding file
offset".  Copies the bytes of the file from `off` on, at most `n` and at most
up to the end of the file, and returns how many were copied. -/
def readi (ip : Inode) (m : Mem) (dst off n : Nat) : Mem × Nat :=
  let cnt := min n (ip.size - off)
  (fun a => if dst ≤ a ∧ a < dst + cnt then ip.data (off + (a - dst)) else m a, cnt)

/-- Modelled from the spec: `setkilled(p)` of `proc.c` (not under src/):
"terminate the faulting process" by setting its killed flag. -/
def setkilled (p : Proc) : Proc := { p with killed := true }

/-! ## `swap.c` -/

/-- The function `swap_init`. -/
def swap_init (MAX_SWAP_PAGES : Nat) (p : Proc) : Int × Proc :=
  if p.swap_file then (0, p)
  else
    (0, { p with
            num_swapped := 0
            swap_slots := fun i => if i < MAX_SWAP_PAGES then 0 else p.swap_slots i
            swap_file := true })

/-- The function `swap_slot_is_used`. -/
def swap_slot_is_used (MAX_SWAP_PAGES : Nat) (p : Proc) (slot : Int) : Nat :=
  if slot < 0 ∨ slot ≥ (MAX_SWAP_PAGES : Int) then 0
  else p.swap_slots slot.toNat

/-- The function `swap_slot_set_used`. -/
def swap_slot_set_used (MAX_SWAP_PAGES : Nat) (p : Proc) (slot : Int) : Proc :=
  if slot ≥ 0 ∧ slot < (MAX_SWAP_PAGES : Int) then
    { p with swap_slots := Function.update p.swap_slots slot.toNat 1 }
  else p

/-- The loop of `swap_alloc_slot`, from `slot` on, with `fuel` iterations
left before `slot` reaches `MAX_SWAP_PAGES`. -/
def swap_alloc_slot_loop (MAX_SWAP_PAGES : Nat) (p : Proc) : Nat → Nat → Int × Proc
  | 0, _ => (-1, p)
  | fuel + 1, slot =>
    if swap_slot_is_used MAX_SWAP_PAGES p (slot : Int) = 0 then
      ((slot : Int), swap_slot_set_used MAX_SWAP_PAGES p (slot : Int))
    else swap_alloc_slot_loop MAX_SWAP_PAGES p fuel (slot + 1)

/-- The function `swap_alloc_slot`. -/
def swap_alloc_slot (MAX_SWAP_PAGES : Nat) (p : Proc) : Int × Proc :=
  swap_alloc_slot_loop MAX_SWAP_PAGES p MAX_SWAP_PAGES 0

/-- The function `swap_out_page`; `va` and `pa` are only logged. -/
def swap_out_page (MAX_SWAP_PAGES : Nat) (p : Proc) (_va _pa : Nat) : Int × Proc :=
  let i := if p.swap_file then ((0 : Int), p) else swap_init MAX_SWAP_PAGES p
  if i.1 < 0 then (-1, i.2)
  else
    let r := swap_alloc_slot MAX_SWAP_PAGES i.2
    if r.1 < 0 then (-1, r.2)
    else (r.1, { r.2 with num_swapped := r.2.num_swapped + 1 })

/-- The function `swap_slot_set_free`. -/
def swap_slot_set_free (MAX_SWAP_PAGES : Nat) (p : Proc) (slot : Int) : Proc :=
  if slot ≥ 0 ∧ slot < (MAX_SWAP_PAGES : Int) then
    { p with swap_slots := Function.update p.swap_slots slot.toNat 0 }
  else p

/-- The function `swap_in_page`: the returned `int`, the process and the
kernel state (the memory) it leaves; `va` is only logged. -/
def swap_in_page (MAX_SWAP_PAGES : Nat) (k : Kernel) (p : Proc) (_va pa : Nat) (slot : Int) :
    Int × Proc × Kernel :=
  if p.swap_file = false ∨ slot < 0 ∨ slot ≥ (MAX_SWAP_PAGES : Int) then (-1, p, k)
  else if swap_slot_is_used MAX_SWAP_PAGES p slot = 0 then (-1, p, k)
  else
    let k1 := { k with mem := memset k.mem pa 0 PGSIZE }
    let p1 := swap_slot_set_free MAX_SWAP_PAGES p slot
    (0, { p1 with num_swapped := p1.num_swapped - 1 }, k1)

/-- The function `swap_cleanup`; the count of used slots is only logged. -/
def swap_cleanup (MAX_SWAP_PAGES : Nat) (p : Proc) : Proc :=
  let p1 :=
    if p.swap_file then
      { p with
          swap_file := false
          swap_slots := fun i => if i < MAX_SWAP_PAGES then 0 else p.swap_slots i }
    else p
  { p1 with num_swapped := 0 }

/-! ## `exec.c` -/

/-- The function `flags2perm`. -/
def flags2perm (flags : Nat) : Nat :=
  let perm := PTE_R
  let perm := if flags &&& 0x1 ≠ 0 then perm ||| PTE_X else perm
  let perm := if flags &&& 0x2 ≠ 0 then perm ||| PTE_W else perm
  perm

/-- Modelled from the spec: `PGROUNDUP(sz)` of `riscv.h` (not under src/),
rounding a `uint64` up to a page boundary:
`(sz + PGSIZE - 1) & ~(PGSIZE - 1)`. -/
def PGROUNDUP (sz : Nat) : Nat := add64 sz (PGSIZE - 1) / PGSIZE * PGSIZE

/-- Modelled from the spec: `ELF_MAGIC` of `elf.h` (not under src/), the
"valid format marker" of an executable image: the bytes 0x7F, E, L, F read as
a little-endian word. -/
def ELF_MAGIC : Nat := 0x464C457F

/-- Modelled from the spec: `ELF_PROG_LOAD` of `elf.h` (not under src/), the
type of a "loadable segment header". -/
def ELF_PROG_LOAD : Nat := 1

/-- The fields of `struct elfhdr` that `kexec` uses; the program headers are
held by `ElfFile.ph`. -/
structure ElfHdr where
  magic : Nat
  entry : Nat

/-- The fields of `struct proghdr` that `kexec` uses. -/
structure ProgHdr where
  type : Nat
  flags : Nat
  off : Nat
  vaddr : Nat
  filesz : Nat
  memsz : Nat
  deriving DecidableEq, Repr

/-- The executable that `namei(path)` finds, as `kexec` reads it: its inode,
the ELF header (`none` when `readi` delivers fewer bytes than the header has),
and the `elf.phnum` program headers in file order (`none` for one that
`readi` does not deliver in full). -/
structure ElfFile where
  ip : Inode
  elf : Option ElfHdr
  ph : List (Option ProgHdr)

/-- The results of the kernel services that `kexec` calls besides the file
reads: the page table `proc_pagetable` creates (`none` for a null result), the
frame `uvmalloc` maps for the argument page (`none` when it fails), and the
outcome of copying the argument vector to the new stack, `argc` and the final
stack pointer (`none` when one of its checks jumps to `bad`). -/
structure ExecEnv where
  proc_pagetable : Option PageTable
  uvmalloc : Option Nat
  args : Option (Nat × Nat)

/-- The assignment `a[i] = s` to an array held as a list: entries the list
does not reach read as the all-zero segment, so writing beyond its end pads
it. -/
def array_set : List Segment → Nat → Segment → List Segment
  | [], 0, s => [s]
  | [], i + 1, s => default :: array_set [] i s
  | _ :: l, 0, s => s :: l
  | a :: l, i + 1, s => a :: array_set l i s

/-- The state the header loop of `kexec` leaves: whether it jumped to `bad`,
the array `p->segments` as written so far, and the locals `num_segments` and
`sz`. -/
structure LoopState where
  bad : Bool
  segments : List Segment
  num_segments : Nat
  sz : Nat

/-- The Segment record `kexec` writes for a program header. -/
def segment_of (ph : ProgHdr) : Segment :=
  { va_start := ph.vaddr
    va_end := add64 ph.vaddr ph.memsz
    file_offset := ph.off
    file_size := ph.filesz
    mem_size := ph.memsz
    flags := ph.flags }

/-- The header loop of `kexec` over the program headers still to read, with
the array `p->segments` and the locals `num_segments` and `sz`. -/
def kexec_loop (MAX_SEGMENTS : Nat) :
    List (Option ProgHdr) → List Segment → Nat → Nat → LoopState
  | [], segs, n, sz => { bad := false, segments := segs, num_segments := n, sz := sz }
  | none :: _, segs, n, sz => { bad := true, segments := segs, num_segments := n, sz := sz }
  | some ph :: rest, segs, n, sz =>
    if ph.type ≠ ELF_PROG_LOAD then kexec_loop MAX_SEGMENTS rest segs n sz
    else if ph.memsz < ph.filesz then
      { bad := true, segments := segs, num_segments := n, sz := sz }
    else if add64 ph.vaddr ph.memsz < ph.vaddr then
      { bad := true, segments := segs, num_segments := n, sz := sz }
    else if ph.vaddr % PGSIZE ≠ 0 then
      { bad := true, segments := segs, num_segments := n, sz := sz }
    else
      kexec_loop MAX_SEGMENTS rest
        (if n < MAX_SEGMENTS then array_set segs n (segment_of ph) else segs)
        (if n < MAX_SEGMENTS then n + 1 else n)
        (if add64 ph.vaddr ph.memsz > sz then add64 ph.vaddr ph.memsz else sz)

/-- The function `kexec`: the returned `int` and the process it leaves.
`file` is the result of `namei(path)` (`none` for a null pointer).  The new
page table holds the one argument page; the frames that `uvmalloc` takes and
`proc_freepagetable` releases are not tracked, nor are the trap frame and the
process name. -/
def kexec (MAX_SEGMENTS USERSTACK : Nat) (file : Option ElfFile) (env : ExecEnv) (p : Proc) :
    Int × Proc :=
  match file with
  | none => (-1, p)
  | some f =>
    match f.elf with
    | none => (-1, p)
    | some elf =>
      if elf.magic ≠ ELF_MAGIC then (-1, p)
      else
        match env.proc_pagetable with
        | none => (-1, p)
        | some pagetable =>
          let l := kexec_loop MAX_SEGMENTS f.ph p.segments 0 0
          if l.bad then (-1, { p with segments := l.segments })
          else
            let p1 := { p with
                          segments := l.segments
                          num_segments := l.num_segments
                          num_resident := 0
                          next_seq := 0
                          num_swapped := 0
                          swap_file := false
                          exec_inode := some f.ip
                          heap_start := PGROUNDUP l.sz }
            let sz := PGROUNDUP l.sz
            let arg_start := sz
            match env.uvmalloc with
            | none => (-1, p1)
            | some frame =>
              let pagetable := mappages pagetable arg_start frame (PTE_U ||| PTE_W ||| PTE_R)
              let sz := add64 arg_start ((USERSTACK + 1) * PGSIZE)
              let p2 := { p1 with sz := sz }
              match env.args with
              | none => (-1, p2)
              | some (argc, _) =>
                ((argc : Int), { p2 with pagetable := some pagetable, sz := sz })

/-! ## `demand.c` -/

/-- The loop of `find_segment`, from index `i` on, with `fuel` iterations
left before `i` reaches `num_segments`. -/
def find_segment_loop (p : Proc) (va : Nat) : Nat → Nat → Option Segment
  | 0, _ => none
  | fuel + 1, i =>
    let s := p.segments.getD i default
    if va ≥ s.va_start ∧ va < s.va_end then some s
    else find_segment_loop p va fuel (i + 1)

/-- The function `find_segment`; `none` is the null pointer. -/
def find_segment (p : Proc) (va : Nat) : Option Segment :=
  find_segment_loop p va p.num_segments 0

/-- The function `get_fault_cause`. -/
def get_fault_cause (MAXVA : Nat) (p : Proc) (va : Nat) (_is_write is_exec : Bool) : Cause :=
  if va ≥ MAXVA then Cause.invalid
  else
    match find_segment p va with
    | some seg => if seg.flags &&& 0x1 ≠ 0 then Cause.text else Cause.data
    | none =>
      if p.num_segments = 0 ∧ va = 0x0 ∧ is_exec = true then Cause.text
      else if p.num_segments = 0 ∧ va ≥ 0x1000 ∧ va < 0x2000 then Cause.data
      else
        let stack_start := p.heap_start
        if va ≥ stack_start ∧ va < p.sz then Cause.stack
        else Cause.invalid

/-- The function `get_page_seq` of `demand.c`. -/
def get_page_seq (_p : Proc) (va : Nat) : Int := toInt32 (va / PGSIZE)

/-- The loop of `find_victim_page` at address `va` with the current
`victim_va` and `min_seq`.  `fuel` bounds the number of loop tests; `none`
means the loop is still running when the fuel is used up. -/
def find_victim_loop (p : Proc) (pt : PageTable) : Nat → Nat → Nat → Int → Option Nat
  | 0, _, _, _ => none
  | fuel + 1, va, victim_va, min_seq =>
    if va < p.sz then
      if pte_valid (walk pt va) ∧ get_page_seq p va < min_seq then
        find_victim_loop p pt fuel (add64 va PGSIZE) va (get_page_seq p va)
      else
        find_victim_loop p pt fuel (add64 va PGSIZE) victim_va min_seq
    else some victim_va

/-- The function `find_victim_page`.  The loop makes `sz / PGSIZE + 2` tests
at most unless `va += PGSIZE` wraps around, in which case it never ends;
`none` stands for a call that does not return (also the one through a null
page table). -/
def find_victim_page (p : Proc) : Option Nat :=
  match p.pagetable with
  | none => none
  | some pt => find_victim_loop p pt (p.sz / PGSIZE + 2) 0 0 999999

/-- The function `load_segment_page`: the returned `int` and the kernel state
(the memory) it leaves. -/
def load_segment_page (k : Kernel) (p : Proc) (va mem : Nat) (seg : Option Segment) :
    Int × Kernel :=
  match p.exec_inode, seg with
  | some file, some seg =>
    if mem = 0 then (-1, k)
    else
      let seg_offset := sub64 va seg.va_start
      let file_offset := add64 seg.file_offset seg_offset
      let m1 := memset k.mem mem 0 PGSIZE
      if seg_offset < seg.file_size then
        let bytes_to_read := seg.file_size - seg_offset
        let bytes_to_read := if bytes_to_read > PGSIZE then PGSIZE else bytes_to_read
        let r := readi file m1 mem file_offset bytes_to_read
        if r.2 ≠ bytes_to_read then (-1, { k with mem := r.1 })
        else (0, { k with mem := r.1 })
      else (0, { k with mem := m1 })
  | _, _ => (-1, k)

/-- The part of `demand_page_fault` from "Initialize page content" on: fill the
frame `mem` according to `cause`, install the mapping of page `va`, count
the allocation and return `original_va`. -/
def demand_page_fault_fill (k : Kernel) (p : Proc) (cause : Cause)
    (original_va va mem : Nat) : Outcome :=
  let perm := PTE_U ||| PTE_V
  let filled : Except Outcome (Nat × Kernel) :=
    if cause = Cause.text ∨ cause = Cause.data then
      match find_segment p va, p.exec_inode with
      | some seg, some _ =>
        let r := load_segment_page k p va mem (some seg)
        if r.1 < 0 then
          Except.error { ret := 0, exit := Exit.load_failed, p := p, k := kfree r.2 mem }
        else Except.ok (perm ||| flags2perm seg.flags, r.2)
      | _, _ => Except.error { ret := 0, exit := Exit.no_segment, p := p, k := kfree k mem }
    else if cause = Cause.heap ∨ cause = Cause.stack then
      Except.ok (perm ||| (PTE_R ||| PTE_W), { k with mem := memset k.mem mem 0 PGSIZE })
    else Except.error { ret := 0, exit := Exit.unknown_cause, p := p, k := kfree k mem }
  match filled with
  | Except.error o => o
  | Except.ok (perm, k1) =>
    if k1.mappages_ok = false then
      { ret := 0, exit := Exit.mapping_failed, p := p, k := kfree k1 mem }
    else
      { ret := original_va, exit := Exit.resident,
        p := { p with
                 pagetable := p.pagetable.map (fun pt => mappages pt va mem perm)
                 next_seq := p.next_seq + 1 },
        k := k1 }

/-- The part of `demand_page_fault` from "Try to allocate physical page" on:
take a free frame, or evict a victim page and reuse its frame, then fill and
map.  `none` stands for a call that does not return. -/
def demand_page_fault_alloc (MAX_SWAP_PAGES : Nat) (k : Kernel) (p : Proc) (cause : Cause)
    (original_va va : Nat) : Option Outcome :=
  let a := kalloc k
  match a.1 with
  | some mem => some (demand_page_fault_fill a.2 p cause original_va va mem)
  | none =>
    match find_victim_page p with
    | none => none
    | some victim_va =>
      if victim_va = 0 then
        some { ret := 0, exit := Exit.no_victim, p := p, k := a.2 }
      else
        match p.pagetable.bind (fun pt => walk pt victim_va) with
        | none => some { ret := 0, exit := Exit.invalid_victim, p := p, k := a.2 }
        | some victim_pte =>
          if victim_pte &&& PTE_V = 0 then
            some { ret := 0, exit := Exit.invalid_victim, p := p, k := a.2 }
          else
            let victim_pa := PTE2PA victim_pte
            let s := swap_out_page MAX_SWAP_PAGES p victim_va victim_pa
            if s.1 < 0 then
              some { ret := 0, exit := Exit.swapout_failed, p := s.2, k := a.2 }
            else
              let p2 := { s.2 with
                            pagetable := s.2.pagetable.map (fun pt => uvmunmap pt victim_va) }
              some (demand_page_fault_fill a.2 p2 cause original_va va victim_pa)

/-- The function `demand_page_fault`.  `none` stands for a call that does not
return (the victim scan never ends). -/
def demand_page_fault (MAXVA MAX_SWAP_PAGES : Nat) (k : Kernel) (p : Proc) (va : Nat)
    (is_write is_exec : Bool) : Option Outcome :=
  match p.pagetable with
  | none => some { ret := 0, exit := Exit.null_guard, p := p, k := k }
  | some pt =>
    let original_va := va
    let va := PGROUNDDOWN va
    let cause := get_fault_cause MAXVA p va is_write is_exec
    if cause = Cause.invalid then
      some { ret := 0, exit := Exit.kill_invalid, p := setkilled p, k := k }
    else
      match walk pt va with
      | some pte =>
        if pte &&& PTE_V ≠ 0 then
          if is_write = true ∧ pte &&& PTE_W = 0 then
            some { ret := original_va, exit := Exit.dirty,
                   p := { p with
                            pagetable := some (Function.update pt (va / PGSIZE)
                              (some (pte ||| PTE_W))) },
                   k := k }
          else some { ret := original_va, exit := Exit.already_mapped, p := p, k := k }
        else demand_page_fault_alloc MAX_SWAP_PAGES k p cause original_va va
      | none => demand_page_fault_alloc MAX_SWAP_PAGES k p cause original_va va

/-- The field `num_resident_pages` of the snapshot built by `sys_memstat`
(`sysproc.c`): `stat.num_resident_pages = p->num_resident`. -/
def memstat_num_resident_pages (p : Proc) : Int := p.num_resident

/-- The argument `pagetable` of `demand_page_fault_with_pagetable`: the
pointer `p->pagetable` itself, or a pointer to another page table, given by
the content of that table (`none` for a null pointer). -/
inductive TableRef where
  | proc_table
  | other (pt : Option PageTable)

/-- The page table a `pagetable` argument points to. -/
def table_get (p : Proc) : TableRef → Option PageTable
  | TableRef.proc_table => p.pagetable
  | TableRef.other pt => pt

/-- A store through a `pagetable` argument: it changes the page table of the
process when the argument is `p->pagetable`, and the other table if not. -/
def table_update (p : Proc) (t : TableRef) (f : PageTable → PageTable) : Proc × TableRef :=
  match t with
  | TableRef.proc_table => ({ p with pagetable := p.pagetable.map f }, TableRef.proc_table)
  | TableRef.other pt => (p, TableRef.other (pt.map f))

/-- The part of `demand_page_fault_with_pagetable` from "Initialize page
content" on; it maps the page in the table passed and returns the rounded
`va`. -/
def demand_page_fault_with_pagetable_fill (k : Kernel) (p : Proc) (t : TableRef)
    (cause : Cause) (va mem : Nat) : Outcome × TableRef :=
  let perm := PTE_U ||| PTE_V
  let filled : Except Outcome (Nat × Kernel) :=
    if cause = Cause.text ∨ cause = Cause.data then
      match find_segment p va, p.exec_inode with
      | some seg, some _ =>
        let r := load_segment_page k p va mem (some seg)
        if r.1 < 0 then
          Except.error { ret := 0, exit := Exit.load_failed, p := p, k := kfree r.2 mem }
        else Except.ok (perm ||| flags2perm seg.flags, r.2)
      | _, _ => Except.error { ret := 0, exit := Exit.no_segment, p := p, k := kfree k mem }
    else if cause = Cause.heap ∨ cause = Cause.stack then
      Except.ok (perm ||| (PTE_R ||| PTE_W), { k with mem := memset k.mem mem 0 PGSIZE })
    else Except.error { ret := 0, exit := Exit.unknown_cause, p := p, k := kfree k mem }
  match filled with
  | Except.error o => (o, t)
  | Except.ok (perm, k1) =>
    if k1.mappages_ok = false then
      ({ ret := 0, exit := Exit.mapping_failed, p := p, k := kfree k1 mem }, t)
    else
      let u := table_update p t (fun pt => mappages pt va mem perm)
      ({ ret := va, exit := Exit.resident,
         p := { u.1 with next_seq := u.1.next_seq + 1 }, k := k1 }, u.2)

/-- The part of `demand_page_fault_with_pagetable` from "Try to allocate
physical page" on; the victim is sought in and unmapped from `p->pagetable`. -/
def demand_page_fault_with_pagetable_alloc (MAX_SWAP_PAGES : Nat) (k : Kernel) (p : Proc)
    (t : TableRef) (cause : Cause) (va : Nat) : Option (Outcome × TableRef) :=
  let a := kalloc k
  match a.1 with
  | some mem => some (demand_page_fault_with_pagetable_fill a.2 p t cause va mem)
  | none =>
    match find_victim_page p with
    | none => none
    | some victim_va =>
      if victim_va = 0 then
        some ({ ret := 0, exit := Exit.no_victim, p := p, k := a.2 }, t)
      else
        match p.pagetable.bind (fun pt => walk pt victim_va) with
        | none => some ({ ret := 0, exit := Exit.invalid_victim, p := p, k := a.2 }, t)
        | some victim_pte =>
          if victim_pte &&& PTE_V = 0 then
            some ({ ret := 0, exit := Exit.invalid_victim, p := p, k := a.2 }, t)
          else
            let victim_pa := PTE2PA victim_pte
            let s := swap_out_page MAX_SWAP_PAGES p victim_va victim_pa
            if s.1 < 0 then
              some ({ ret := 0, exit := Exit.swapout_failed, p := s.2, k := a.2 }, t)
            else
              let p2 := { s.2 with
                            pagetable := s.2.pagetable.map (fun pt => uvmunmap pt victim_va) }
              some (demand_page_fault_with_pagetable_fill a.2 p2 t cause va victim_pa)

/-- The function `demand_page_fault_with_pagetable`: the outcome and the
table the `pagetable` argument points to afterwards.  `none` stands for a call
that does not return. -/
def demand_page_fault_with_pagetable (MAXVA MAX_SWAP_PAGES : Nat) (k : Kernel) (p : Proc)
    (t : TableRef) (va : Nat) (is_write is_exec : Bool) : Option (Outcome × TableRef) :=
  match table_get p t with
  | none => some ({ ret := 0, exit := Exit.null_guard, p := p, k := k }, t)
  | some pt =>
    let va := PGROUNDDOWN va
    let cause := get_fault_cause MAXVA p va is_write is_exec
    if cause = Cause.invalid then
      some ({ ret := 0, exit := Exit.kill_invalid, p := setkilled p, k := k }, t)
    else
      match walk pt va with
      | some pte =>
        if pte &&& PTE_V ≠ 0 then
          if is_write = true ∧ pte &&& PTE_W = 0 then
            let u := table_update p t
              (fun pt => Function.update pt (va / PGSIZE) (some (pte ||| PTE_W)))
            some ({ ret := va, exit := Exit.dirty, p := u.1, k := k }, u.2)
          else some ({ ret := va, exit := Exit.already_mapped, p := p, k := k }, t)
        else demand_page_fault_with_pagetable_alloc MAX_SWAP_PAGES k p t cause va
      | none => demand_page_fault_with_pagetable_alloc MAX_SWAP_PAGES k p t cause va

/-! ## `sysproc.c` -/

/-- The function `sys_sbrk`: the returned `uint64` (`2 ^ 64 - 1` for -1), the
process and the kernel state.  `n` and `t` are the two `int` arguments;
`SBRK_EAGER` (`vm.h`) and `growproc` (`proc.c`) are not under src/ and are
parameters. -/
def sys_sbrk (SBRK_EAGER : Int) (growproc : Kernel → Proc → Int → Int × Proc × Kernel)
    (k : Kernel) (p : Proc) (n t : Int) : Nat × Proc × Kernel :=
  let addr := p.sz
  if t = SBRK_EAGER ∨ n < 0 then
    let g := growproc k p n
    if g.1 < 0 then (2 ^ 64 - 1, g.2.1, g.2.2)
    else (addr, g.2.1, g.2.2)
  else
    if add64 addr (n % 2 ^ 64).toNat < addr then (2 ^ 64 - 1, p, k)
    else (addr, { p with sz := add64 p.sz (n % 2 ^ 64).toNat }, k)

/-- Modelled from the spec: the page states `UNMAPPED` and `RESIDENT` of
`memstat.h` (not under src/), the "resident/unmapped state" of a page. -/
inductive PageState where
  | UNMAPPED
  | RESIDENT
  deriving DecidableEq, Repr

/-- Modelled from the spec: `struct page_stat` of `memstat.h` (not under
src/), the per-page part of the snapshot: "virtual address, resident/unmapped
state, and placeholder fields for dirty/sequence/swap-slot". -/
structure page_stat where
  va : Nat
  state : PageState
  is_dirty : Int
  seq : Int
  swap_slot : Int
  deriving DecidableEq, Repr

/-- Modelled from the spec: `struct proc_mem_stat` of `memstat.h` (not under
src/), without the process identifier: the counters, the "total page count in
`[0, size)`, capped at a fixed reporting limit", a natural number, and the
entries of the array `pages` that `sys_memstat` fills, in order. -/
structure proc_mem_stat where
  num_resident_pages : Int
  num_swapped_pages : Int
  next_fifo_seq : Int
  num_pages_total : Nat
  pages : List page_stat

/-- The function `get_page_state` of `sysproc.c`. -/
def get_page_state (p : Proc) (va : Nat) : PageState :=
  let va := PGROUNDDOWN va
  if pte_valid (p.pagetable.bind (fun pt => walk pt va)) = true then PageState.RESIDENT
  else if va ≥ p.heap_start ∧ va < p.sz then PageState.UNMAPPED
  else PageState.UNMAPPED

/-- The function `get_page_swap_slot` of `sysproc.c`. -/
def get_page_swap_slot (_p : Proc) (_va : Nat) : Int := -1

/-- The static function `get_page_seq` of `sysproc.c` (not the one of
`demand.c`). -/
def get_page_seq_sysproc (_p : Proc) (_va : Nat) : Int := -1

/-- The function `get_page_dirty` of `sysproc.c`. -/
def get_page_dirty (_p : Proc) (_va : Nat) : Int := 0

/-- The loop of `sys_memstat` that fills `stat.pages`, at address `va` with
`fuel` entries left before `page_count` reaches `MAX_PAGES_INFO`. -/
def sys_memstat_loop (p : Proc) (end_addr : Nat) : Nat → Nat → List page_stat
  | 0, _ => []
  | fuel + 1, va =>
    if va < end_addr then
      { va := va
        state := get_page_state p va
        is_dirty := get_page_dirty p va
        seq := get_page_seq_sysproc p va
        swap_slot := get_page_swap_slot p va } ::
        sys_memstat_loop p end_addr fuel (add64 va PGSIZE)
    else []

/-- The function `sys_memstat`: the returned `uint64` (`2 ^ 64 - 1` for -1),
the process, and the snapshot `stat` handed to `copyout`.  `MAX_PAGES_INFO`
(`memstat.h`) is a parameter; `copyout_ok` tells whether `copyout` (`vm.c`,
not under src/) succeeds; the bytes it writes to user memory are not
tracked. -/
def sys_memstat (MAX_PAGES_INFO : Nat) (copyout_ok : Bool) (p : Proc) :
    Nat × Proc × proc_mem_stat :=
  let start_addr := 0
  let end_addr := p.sz
  let total := (end_addr - start_addr) / PGSIZE
  let stat : proc_mem_stat :=
    { num_resident_pages := p.num_resident
      num_swapped_pages := p.num_swapped
      next_fifo_seq := p.next_seq
      num_pages_total := if total > MAX_PAGES_INFO then MAX_PAGES_INFO else total
      pages := sys_memstat_loop p end_addr MAX_PAGES_INFO start_addr }
  if copyout_ok = false then (2 ^ 64 - 1, p, stat) else (0, p, stat)

/-! ## Example states -/

/-- The value `1L << 38` of `MAXVA` in RISC-V Sv39 kernels of this family. -/
def MAXVA_sv39 : Nat := 2 ^ 38

/-- An empty page table. -/
def pt_empty : PageTable := fun _ => none

/-- A kernel with the two free frames `0x80001000` and `0x80002000`. -/
def k_two : Kernel :=
  { freelist := [0x80001000, 0x80002000], kalloc_calls := 0, mem := fun _ => 7,
    mappages_ok := true }

/-- An executable image of `0x3000` bytes. -/
def image : Inode := { size := 0x3000, data := fun i => (7 * i + 3) % 256 }

/-- The process of the first example: no recorded segment, an empty page
table, and the region `[0, 0x3000)` above `heap_start = 0`. -/
def p_noseg : Proc :=
  { pagetable := some pt_empty
    sz := 0x3000
    heap_start := 0
    segments := []
    num_segments := 0
    num_resident := 0
    num_swapped := 0
    next_seq := 0
    swap_file := false
    swap_slots := fun _ => 0
    exec_inode := none
    killed := false }

/-- A process with two recorded segments that overlap on `[0x1000, 0x2000)`:
a data segment `[0, 0x2000)` and an executable segment `[0x1000, 0x2000)`. -/
def p_overlap : Proc :=
  { pagetable := some pt_empty
    sz := 0x5000
    heap_start := 0x2000
    segments := [⟨0, 0x2000, 0, 0x2000, 0x2000, 6⟩, ⟨0x1000, 0x2000, 0x2000, 0x1000, 0x1000, 5⟩]
    num_segments := 2
    num_resident := 0
    num_swapped := 0
    next_seq := 0
    swap_file := false
    swap_slots := fun _ => 0
    exec_inode := some image
    killed := false }

/-- A process image as the loader leaves it: a text segment `[0, 0x1000)`
backed by `0x200` file bytes, a data segment `[0x1000, 0x2000)` fully backed by
the file, and the zero-fill region `[0x2000, 0x5000)`. -/
def p_two : Proc :=
  { pagetable := some pt_empty
    sz := 0x5000
    heap_start := 0x2000
    segments := [⟨0, 0x1000, 0x100, 0x200, 0x1000, 5⟩, ⟨0x1000, 0x2000, 0x1000, 0x1000, 0x1000, 6⟩]
    num_segments := 2
    num_resident := 0
    num_swapped := 0
    next_seq := 0
    swap_file := false
    swap_slots := fun _ => 0
    exec_inode := some image
    killed := false }

/-- The segment stored at index `i` of the array `p->segments`. -/
def seg_at (p : Proc) (i : Nat) : Segment := p.segments.getD i default

/-- The address `va` lies in the half-open range of the segment. -/
def in_segment (s : Segment) (va : Nat) : Prop := s.va_start ≤ va ∧ va < s.va_end

instance (s : Segment) (va : Nat) : Decidable (in_segment s va) := by
  unfold in_segment; infer_instance

/-- The process `q` differs from `p` at most in the three swap fields
`swap_slots`, `swap_file` and `num_swapped`. -/
def swap_frame (p q : Proc) : Prop :=
  q = { p with swap_slots := q.swap_slots, swap_file := q.swap_file,
               num_swapped := q.num_swapped }

/-- The image `p_two` grown by lazy heap growth to two pages beyond
`MAXVA_sv39`. -/
def p_big : Proc := { p_two with sz := MAXVA_sv39 + 0x2000 }

/-- The image `p_two` with its page at `0x3000` resident in frame
`0x80003000`, readable and user-accessible but not writable. -/
def p_mapped : Proc :=
  { p_two with
      pagetable := some (Function.update pt_empty 3 (some (PA2PTE 0x80003000 ||| 0x13))) }

/-- The text segment `[0, 0x1000)` of `p_two`, backed by `0x200` file bytes
at file offset `0x100`. -/
def seg_text : Segment := ⟨0, 0x1000, 0x100, 0x200, 0x1000, 5⟩

/-- The outcome of a call that returns, by its proof of returning. -/
def returned (r : Option Outcome) (h : r.isSome = true) : Outcome := r.get h

/-- The image `p_two` after an instruction fetch at address 0, with the two
free frames of `k_two`: the first touch of the scenario "frames capped at 2,
pages 0, 1, 2 touched in address order". -/
def touch_0 : Outcome :=
  returned (demand_page_fault MAXVA_sv39 8 k_two p_two 0 false true) (by decide)

/-- The second touch of the scenario: a write to address `0x1000`, which
takes the last free frame. -/
def touch_01 : Outcome :=
  returned (demand_page_fault MAXVA_sv39 8 touch_0.k touch_0.p 0x1000 true false) (by decide)

/-- The image `p_two` after a write to the heap page `0x3000`. -/
def heap_3 : Outcome :=
  returned (demand_page_fault MAXVA_sv39 8 k_two p_two 0x3000 true false) (by decide)

/-- The image `p_two` after writes to the heap pages `0x3000` and `0x4000`,
which take both free frames of `k_two`. -/
def heap_34 : Outcome :=
  returned (demand_page_fault MAXVA_sv39 8 heap_3.k heap_3.p 0x4000 true false) (by decide)

/-- The state after a further write to the heap page `0x2000`, for which no
frame is free: the page `0x3000` is evicted to swap slot 0 and its frame
reused. -/
def heap_342 : Outcome :=
  returned (demand_page_fault MAXVA_sv39 8 heap_34.k heap_34.p 0x2000 true false) (by decide)

/-- The kernel of `heap_342` after a frame `0x80005000` has become free. -/
def k_freed : Kernel := { heap_342.k with freelist := [0x80005000] }

/-- A process as `kexec` leaves it after an image that had a page in swap
slot 0: the pool is marked uninitialized but the bit of slot 0 is still
set. -/
def p_stale : Proc := { p_two with swap_slots := fun i => if i = 0 then 1 else 0 }

/-- A process whose pool is marked uninitialized while `num_swapped` is 3. -/
def p_count3 : Proc := { p_two with num_swapped := 3 }

/-- The image `p_two` with an initialized pool holding pages in the slots 0
and 2. -/
def p_slots02 : Proc :=
  { p_two with
      swap_file := true
      swap_slots := fun i => if i = 0 ∨ i = 2 then 1 else 0
      num_swapped := 2 }

/-- What the header loop of `kexec` checks before it records a Segment:
`file_size <= mem_size`, `va_start` a multiple of the page size, and
`va_end = va_start + mem_size` without wrap-around. -/
def seg_ok (s : Segment) : Prop :=
  s.file_size ≤ s.mem_size ∧ s.va_start % PGSIZE = 0 ∧
  s.va_end = s.va_start + s.mem_size ∧ s.va_start ≤ s.va_end

instance (s : Segment) : Decidable (seg_ok s) := by
  unfold seg_ok; infer_instance

/-- The `uint64` fields `vaddr` and `memsz` of a program header that was read
are below `2 ^ 64`. -/
def hdr_typed (x : Option ProgHdr) : Prop :=
  match x with
  | none => True
  | some h => h.vaddr < 2 ^ 64 ∧ h.memsz < 2 ^ 64

instance (x : Option ProgHdr) : Decidable (hdr_typed x) := by
  unfold hdr_typed; split <;> infer_instance

/-- A loadable program header violates one of the three checks of the header
loop. -/
def hdr_violates (h : ProgHdr) : Prop :=
  h.memsz < h.filesz ∨ 2 ^ 64 ≤ h.vaddr + h.memsz ∨ h.vaddr % PGSIZE ≠ 0

instance (h : ProgHdr) : Decidable (hdr_violates h) := by
  unfold hdr_violates; infer_instance

/-- The program header was read in full and, if it is loadable, passes the
three checks of the header loop. -/
def hdr_valid (x : Option ProgHdr) : Prop :=
  match x with
  | none => False
  | some h =>
    h.type = ELF_PROG_LOAD →
      ¬ h.memsz < h.filesz ∧ ¬ add64 h.vaddr h.memsz < h.vaddr ∧ h.vaddr % PGSIZE = 0

instance (x : Option ProgHdr) : Decidable (hdr_valid x) := by
  unfold hdr_valid; split <;> infer_instance

/-- The loadable program headers among those read, in file order. -/
def loadable : List (Option ProgHdr) → List ProgHdr
  | [] => []
  | none :: rest => loadable rest
  | some h :: rest => if h.type = ELF_PROG_LOAD then h :: loadable rest else loadable rest

/-- An executable with the two loadable headers of the image `p_two` and a
header of another type between them. -/
def elf_two : ElfFile :=
  { ip := image
    elf := some { magic := ELF_MAGIC, entry := 0 }
    ph := [some ⟨1, 5, 0x100, 0, 0x200, 0x1000⟩, some ⟨6, 4, 0x40, 0x40, 0x100, 0x100⟩,
           some ⟨1, 6, 0x1000, 0x1000, 0x1000, 0x1000⟩] }

/-- An executable with three loadable headers. -/
def elf_three : ElfFile :=
  { ip := image
    elf := some { magic := ELF_MAGIC, entry := 0 }
    ph := [some ⟨1, 5, 0x100, 0, 0x200, 0x1000⟩, some ⟨1, 6, 0x1000, 0x1000, 0x1000, 0x1000⟩,
           some ⟨1, 6, 0x2000, 0x2000, 0x800, 0x1000⟩] }

/-- Kernel services that all succeed: a fresh page table, the frame
`0x80009000` for the argument page, and an argument vector with `argc = 1`. -/
def env_ok : ExecEnv :=
  { proc_pagetable := some pt_empty, uvmalloc := some 0x80009000, args := some (1, 0x3FF0) }

/-- The outcome with its returned value rounded down to a page boundary. -/
def round_ret (o : Outcome) : Outcome := { o with ret := PGROUNDDOWN o.ret }

/-- The fault was resolved: the handler left through the exit after the new
mapping, the dirty upgrade or the harmless re-check. -/
def resolved (o : Outcome) : Prop :=
  o.exit = Exit.resident ∨ o.exit = Exit.dirty ∨ o.exit = Exit.already_mapped

instance (o : Outcome) : Decidable (resolved o) := by
  unfold resolved; infer_instance

/-- The handler failed while it held a physical frame: the exits "no segment
found or no executable handle", "content load failure", "unknown cause" and
"mapping failure". -/
def failed_with_frame (o : Outcome) : Prop :=
  o.exit = Exit.no_segment ∨ o.exit = Exit.load_failed ∨ o.exit = Exit.unknown_cause ∨
    o.exit = Exit.mapping_failed

instance (o : Outcome) : Decidable (failed_with_frame o) := by
  unfold failed_with_frame; infer_instance

/-- A fault of `p_two` at the heap page `0x3000` while the kernel has two free
frames but cannot build the mapping (`mappages` fails). -/
def fault_nomap : Outcome :=
  returned (demand_page_fault MAXVA_sv39 8 { k_two with mappages_ok := false } p_two
    0x3000 true false) (by decide)

/-- The number of slots among the first `n` of the bitmap that are marked
used (non-zero), as the loop of `swap_cleanup` counts them. -/
def count_used (slots : Nat → Nat) : Nat → Nat
  | 0 => 0
  | n + 1 => count_used slots n + (if slots n ≠ 0 then 1 else 0)

/-- The swap accounting invariant: while the pool is initialized `num_swapped`
is the number of used slots, and `num_swapped` is not negative. -/
def swap_accounting (MAX_SWAP_PAGES : Nat) (p : Proc) : Prop :=
  (p.swap_file = true → p.num_swapped = (count_used p.swap_slots MAX_SWAP_PAGES : Int)) ∧
    0 ≤ p.num_swapped

/-- Another executable image, of `0x4000` bytes. -/
def image_next : Inode := { size := 0x4000, data := fun i => (3 * i + 1) % 256 }

/-- An executable with three well-formed loadable headers, for the ranges
`[0, 0x2000)`, `[0x2000, 0x3000)` and `[0x3000, 0x4000)`. -/
def elf_next : ElfFile :=
  { ip := image_next
    elf := some { magic := ELF_MAGIC, entry := 0 }
    ph := [some ⟨1, 5, 0x100, 0, 0x300, 0x2000⟩, some ⟨1, 6, 0x2000, 0x2000, 0x1000, 0x1000⟩,
           some ⟨1, 6, 0x3000, 0x3000, 0x800, 0x1000⟩] }

/-- An executable whose first loadable header is well formed and whose second
one has the unaligned address `0x2800`. -/
def elf_bad : ElfFile :=
  { ip := image_next
    elf := some { magic := ELF_MAGIC, entry := 0 }
    ph := [some ⟨1, 5, 0x100, 0, 0x300, 0x2000⟩, some ⟨1, 6, 0x2000, 0x2800, 0x1000, 0x1000⟩] }

/-- An executable with one loadable header for the one byte at the
page-aligned address `2 ^ 64 - 4096`. -/
def elf_high : ElfFile :=
  { ip := image
    elf := some { magic := ELF_MAGIC, entry := 0 }
    ph := [some ⟨1, 6, 0, 0xFFFFFFFFFFFFF000, 1, 1⟩] }

/-- An executable with two well-formed loadable headers, for the ranges
`[0x1000, 0x3000)` and `[0x2000, 0x3000)`. -/
def elf_overlap : ElfFile :=
  { ip := image
    elf := some { magic := ELF_MAGIC, entry := 0 }
    ph := [some ⟨1, 6, 0, 0x1000, 0x1000, 0x2000⟩, some ⟨1, 5, 0x2000, 0x2000, 0x1000, 0x1000⟩] }

/-- The end `vaddr + memsz` of a loadable program header leaves a page of
headroom below `2 ^ 64`, so rounding it up to a page boundary does not wrap. -/
def hdr_fits (x : Option ProgHdr) : Prop :=
  match x with
  | none => True
  | some h => h.type = ELF_PROG_LOAD → h.vaddr + h.memsz ≤ 2 ^ 64 - PGSIZE

instance (x : Option ProgHdr) : Decidable (hdr_fits x) := by
  unfold hdr_fits; split <;> infer_instance

/-- The state `touch_0` (the page at 0 of the text segment resident, mapped
by the instruction fetch) after a write to address `0x10` of that page. -/
def write_text : Outcome :=
  returned (demand_page_fault MAXVA_sv39 8 touch_0.k touch_0.p 0x10 true false) (by decide)

/-! # Theorems -/

/-! ## `find_segment` and `get_fault_cause` -/

theorem find_segment_loop_none (p : Proc) (va : Nat) :
    ∀ (fuel i : Nat), (∀ j, i ≤ j → j < i + fuel → ¬ in_segment (seg_at p j) va) →
      find_segment_loop p va fuel i = none := by
  intro fuel
  induction fuel with
  | zero => intro i _; rfl
  | succ n ih =>
    intro i h
    have h0 : ¬ in_segment (seg_at p i) va := h i (le_refl i) (by omega)
    have hrest : find_segment_loop p va n (i + 1) = none :=
      ih (i + 1) (fun j hj1 hj2 => h j (by omega) (by omega))
    simp only [find_segment_loop]
    rw [if_neg (by simpa [in_segment, seg_at] using h0)]
    exact hrest

theorem find_segment_loop_first (p : Proc) (va : Nat) :
    ∀ (fuel i j : Nat), i ≤ j → j < i + fuel → in_segment (seg_at p j) va →
      (∀ l, i ≤ l → l < j → ¬ in_segment (seg_at p l) va) →
      find_segment_loop p va fuel i = some (seg_at p j) := by
  intro fuel
  induction fuel with
  | zero => intro i j h1 h2; omega
  | succ n ih =>
    intro i j h1 h2 hin hfirst
    simp only [find_segment_loop]
    by_cases hij : i = j
    · subst hij
      rw [if_pos (by simpa [in_segment, seg_at] using hin)]
      rfl
    · have h0 : ¬ in_segment (seg_at p i) va := hfirst i (le_refl i) (by omega)
      rw [if_neg (by simpa [in_segment, seg_at] using h0)]
      exact ih (i + 1) j (by omega) (by omega) hin
        (fun l hl1 hl2 => hfirst l (by omega) hl2)

theorem find_segment_none (p : Proc) (va : Nat)
    (h : ∀ i, i < p.num_segments → ¬ in_segment (seg_at p i) va) :
    find_segment p va = none :=
  find_segment_loop_none p va p.num_segments 0 (fun j _ hj => h j (by omega))

theorem find_segment_first (p : Proc) (va i : Nat) (hi : i < p.num_segments)
    (hin : in_segment (seg_at p i) va)
    (hfirst : ∀ l, l < i → ¬ in_segment (seg_at p l) va) :
    find_segment p va = some (seg_at p i) :=
  find_segment_loop_first p va p.num_segments 0 i (Nat.zero_le i) (by omega) hin
    (fun l _ hl => hfirst l hl)

theorem PGROUNDDOWN_le (a : Nat) : PGROUNDDOWN a ≤ a := by
  unfold PGROUNDDOWN
  exact Nat.div_mul_le_self a PGSIZE

theorem PGROUNDDOWN_ge_of_aligned (m a : Nat) (hm : m % PGSIZE = 0) (h : m ≤ a) :
    m ≤ PGROUNDDOWN a := by
  unfold PGROUNDDOWN PGSIZE at *
  omega

theorem get_fault_cause_of_no_segment (MAXVA : Nat) (p : Proc) (va : Nat)
    (is_write is_exec : Bool) (hva : va < MAXVA) (hno : find_segment p va = none) :
    get_fault_cause MAXVA p va is_write is_exec =
      if p.num_segments = 0 ∧ va = 0 ∧ is_exec = true then Cause.text
      else if p.num_segments = 0 ∧ 0x1000 ≤ va ∧ va < 0x2000 then Cause.data
      else if p.heap_start ≤ va ∧ va < p.sz then Cause.stack
      else Cause.invalid := by
  unfold get_fault_cause
  rw [if_neg (by omega), hno]

theorem get_fault_cause_of_segment (MAXVA : Nat) (p : Proc) (va : Nat)
    (is_write is_exec : Bool) (seg : Segment) (hseg : find_segment p va = some seg) :
    get_fault_cause MAXVA p va is_write is_exec = Cause.invalid ∨
    get_fault_cause MAXVA p va is_write is_exec = Cause.text ∨
    get_fault_cause MAXVA p va is_write is_exec = Cause.data := by
  unfold get_fault_cause
  rw [hseg]
  by_cases hva : va ≥ MAXVA
  · exact Or.inl (if_pos hva)
  · rw [if_neg hva]
    by_cases hx : seg.flags &&& 0x1 ≠ 0
    · exact Or.inr (Or.inl (if_pos hx))
    · exact Or.inr (Or.inr (if_neg hx))

/-- Claim C1, as the code has it.  For an address `va` below `MAXVA`
(page-aligned) that lies inside no recorded segment, `get_fault_cause` returns
"text" when no segment is recorded at all, `va` is 0 and the access is an
instruction fetch; "data" when no segment is recorded at all and `va` lies in
`[0x1000, 0x2000)`; and otherwise "stack" (the zero-fill class) if
`heap_start <= va < sz` and "invalid" if not, whatever `is_write` is. -/
theorem C1_get_fault_cause_outside_segments (MAXVA : Nat) (p : Proc) (va : Nat)
    (is_write is_exec : Bool) (_hal : va % PGSIZE = 0) (hva : va < MAXVA)
    (hno : ∀ i, i < p.num_segments → ¬ in_segment (seg_at p i) va) :
    get_fault_cause MAXVA p va is_write is_exec =
      if p.num_segments = 0 ∧ va = 0 ∧ is_exec = true then Cause.text
      else if p.num_segments = 0 ∧ 0x1000 ≤ va ∧ va < 0x2000 then Cause.data
      else if p.heap_start ≤ va ∧ va < p.sz then Cause.stack
      else Cause.invalid :=
  get_fault_cause_of_no_segment MAXVA p va is_write is_exec hva (find_segment_none p va hno)

/-- The amended claim C1 at a process with two recorded segments and the
address `0x3000` of its zero-fill region. -/
theorem C1_get_fault_cause_outside_segments_witness :
    get_fault_cause MAXVA_sv39 p_two 0x3000 true false =
      if p_two.num_segments = 0 ∧ 0x3000 = 0 ∧ false = true then Cause.text
      else if p_two.num_segments = 0 ∧ 0x1000 ≤ 0x3000 ∧ 0x3000 < 0x2000 then Cause.data
      else if p_two.heap_start ≤ 0x3000 ∧ 0x3000 < p_two.sz then Cause.stack
      else Cause.invalid :=
  C1_get_fault_cause_outside_segments MAXVA_sv39 p_two 0x3000 true false (by decide)
    (by decide) (by decide)

/-- Claim C1 fails as stated: with no segment recorded, the page-aligned
address `0x1000` is below `MAXVA`, inside no recorded segment and inside
`[heap_start, sz)`, yet `get_fault_cause` returns "data", not the zero-fill
class. -/
theorem C1_counterexample :
    0x1000 % PGSIZE = 0 ∧ 0x1000 < MAXVA_sv39 ∧
    (∀ i, i < p_noseg.num_segments → ¬ in_segment (seg_at p_noseg i) 0x1000) ∧
    p_noseg.heap_start ≤ 0x1000 ∧ 0x1000 < p_noseg.sz ∧
    get_fault_cause MAXVA_sv39 p_noseg 0x1000 false false = Cause.data ∧
    get_fault_cause MAXVA_sv39 p_noseg 0x1000 false false ≠ Cause.stack := by
  refine ⟨by decide, by decide, ?_, by decide, by decide, by decide, by decide⟩
  intro i hi
  exact absurd hi (Nat.not_lt_zero i)

/-- Claim C2, as the code has it.  For an address `va` below `MAXVA` that
falls inside recorded segments, `get_fault_cause` returns "text" if the
executable flag (bit 0x1) of the first of them (the one of lowest index, which
`find_segment` returns) is set and "data" otherwise, independent of
`is_write`, `is_exec`, `heap_start` and `sz`. -/
theorem C2_get_fault_cause_in_segment (MAXVA : Nat) (p : Proc) (va i : Nat)
    (is_write is_exec : Bool) (hva : va < MAXVA) (hi : i < p.num_segments)
    (hin : in_segment (seg_at p i) va)
    (hfirst : ∀ l, l < i → ¬ in_segment (seg_at p l) va) :
    get_fault_cause MAXVA p va is_write is_exec =
      if (seg_at p i).flags &&& 0x1 ≠ 0 then Cause.text else Cause.data := by
  unfold get_fault_cause
  rw [if_neg (by omega), find_segment_first p va i hi hin hfirst]

/-- The amended claim C2 at the second segment of a two-segment image. -/
theorem C2_get_fault_cause_in_segment_witness :
    get_fault_cause MAXVA_sv39 p_two 0x1800 true false =
      if (seg_at p_two 1).flags &&& 0x1 ≠ 0 then Cause.text else Cause.data :=
  C2_get_fault_cause_in_segment MAXVA_sv39 p_two 0x1800 1 true false (by decide) (by decide)
    (by decide) (by decide)

/-- Claim C2 fails as stated: the address `0x1000` falls inside the recorded
segment of index 1, whose executable flag is set, yet `get_fault_cause`
returns "data", because the segment of index 0 holds the address as well and
is found first. -/
theorem C2_counterexample :
    0x1000 < MAXVA_sv39 ∧ 1 < p_overlap.num_segments ∧
    in_segment (seg_at p_overlap 1) 0x1000 ∧
    (seg_at p_overlap 1).flags &&& 0x1 ≠ 0 ∧
    get_fault_cause MAXVA_sv39 p_overlap 0x1000 false true = Cause.data ∧
    get_fault_cause MAXVA_sv39 p_overlap 0x1000 false true ≠ Cause.text := by
  decide

/-! ## `demand_page_fault`: the kill path -/

theorem demand_page_fault_invalid (MAXVA MAX_SWAP_PAGES : Nat) (k : Kernel) (p : Proc)
    (pt : PageTable) (va : Nat) (is_write is_exec : Bool) (hpt : p.pagetable = some pt)
    (hc : get_fault_cause MAXVA p (PGROUNDDOWN va) is_write is_exec = Cause.invalid) :
    demand_page_fault MAXVA MAX_SWAP_PAGES k p va is_write is_exec =
      some { ret := 0, exit := Exit.kill_invalid, p := setkilled p, k := k } := by
  unfold demand_page_fault
  rw [hpt]
  simp only [hc, if_true]

/-- Claim C3.  For a process with a non-null page table and a faulting address
`va >= MAXVA` (page-aligned or not, any access kind), `demand_page_fault`
returns, marks the process killed, returns 0 and leaves `num_resident`
unchanged; rounding `va` down to a page boundary does not bring it below
`MAXVA`, which is a multiple of the page size. -/
theorem C3_fault_at_or_above_MAXVA_kills (MAXVA MAX_SWAP_PAGES : Nat) (k : Kernel)
    (p : Proc) (pt : PageTable) (va : Nat) (is_write is_exec : Bool)
    (hpt : p.pagetable = some pt) (hal : MAXVA % PGSIZE = 0) (hva : MAXVA ≤ va) :
    MAXVA ≤ PGROUNDDOWN va ∧
    ∃ o, demand_page_fault MAXVA MAX_SWAP_PAGES k p va is_write is_exec = some o ∧
      o.p.killed = true ∧ o.ret = 0 ∧ o.p.num_resident = p.num_resident := by
  have hr : MAXVA ≤ PGROUNDDOWN va := PGROUNDDOWN_ge_of_aligned MAXVA va hal hva
  have hc : get_fault_cause MAXVA p (PGROUNDDOWN va) is_write is_exec = Cause.invalid := by
    unfold get_fault_cause
    rw [if_pos hr]
  exact ⟨hr, _, demand_page_fault_invalid MAXVA MAX_SWAP_PAGES k p pt va is_write is_exec hpt hc,
    rfl, rfl, rfl⟩

/-- Claim C3 at the address `0xFFFFFFFFFFFF` written by the user test in FULL
mode. -/
theorem C3_fault_at_or_above_MAXVA_kills_witness :
    MAXVA_sv39 ≤ PGROUNDDOWN 0xFFFFFFFFFFFF ∧
    ∃ o, demand_page_fault MAXVA_sv39 8 k_two p_two 0xFFFFFFFFFFFF true false = some o ∧
      o.p.killed = true ∧ o.ret = 0 ∧ o.p.num_resident = p_two.num_resident :=
  C3_fault_at_or_above_MAXVA_kills MAXVA_sv39 8 k_two p_two pt_empty 0xFFFFFFFFFFFF true false
    rfl (by decide) (by decide)

/-- Claim C4.  For a fault whose page-rounded address is classified Invalid,
`demand_page_fault` returns, sets the killed flag of the process, returns 0,
requests no physical frame (the kernel state, with the allocator and its call
counter, is unchanged), and leaves the page table, the swap slot bitmap and
the counters `num_resident`, `num_swapped` and `next_seq` unchanged. -/
theorem C4_invalid_fault_kills_without_effect (MAXVA MAX_SWAP_PAGES : Nat) (k : Kernel)
    (p : Proc) (pt : PageTable) (va : Nat) (is_write is_exec : Bool)
    (hpt : p.pagetable = some pt)
    (hc : get_fault_cause MAXVA p (PGROUNDDOWN va) is_write is_exec = Cause.invalid) :
    ∃ o, demand_page_fault MAXVA MAX_SWAP_PAGES k p va is_write is_exec = some o ∧
      o.p.killed = true ∧ o.ret = 0 ∧
      o.k.kalloc_calls = k.kalloc_calls ∧ o.k.freelist = k.freelist ∧ o.k = k ∧
      o.p.pagetable = p.pagetable ∧ o.p.swap_slots = p.swap_slots ∧
      o.p.swap_file = p.swap_file ∧
      o.p.num_resident = p.num_resident ∧ o.p.num_swapped = p.num_swapped ∧
      o.p.next_seq = p.next_seq :=
  ⟨_, demand_page_fault_invalid MAXVA MAX_SWAP_PAGES k p pt va is_write is_exec hpt hc,
    rfl, rfl, rfl, rfl, rfl, rfl, rfl, rfl, rfl, rfl, rfl⟩

/-- Claim C4 at a fault on the unmapped hole `0x6000` above the process
size. -/
theorem C4_invalid_fault_kills_without_effect_witness :
    ∃ o, demand_page_fault MAXVA_sv39 8 k_two p_two 0x6010 false false = some o ∧
      o.p.killed = true ∧ o.ret = 0 ∧
      o.k.kalloc_calls = k_two.kalloc_calls ∧ o.k.freelist = k_two.freelist ∧ o.k = k_two ∧
      o.p.pagetable = p_two.pagetable ∧ o.p.swap_slots = p_two.swap_slots ∧
      o.p.swap_file = p_two.swap_file ∧
      o.p.num_resident = p_two.num_resident ∧ o.p.num_swapped = p_two.num_swapped ∧
      o.p.next_seq = p_two.next_seq :=
  C4_invalid_fault_kills_without_effect MAXVA_sv39 8 k_two p_two pt_empty 0x6010 false false
    rfl (by decide)

/-! ## Page-table entry bits -/

theorem PTE_FLAGS_install (pa perm : Nat) (h : perm < 1024) :
    PTE_FLAGS (PA2PTE pa ||| perm ||| PTE_V) = perm ||| PTE_V := by
  unfold PTE_FLAGS PA2PTE PTE_V
  have h1023 : (0x3FF : Nat) = 2 ^ 10 - 1 := by norm_num
  rw [h1023]
  apply Nat.eq_of_testBit_eq
  intro i
  simp only [Nat.testBit_and, Nat.testBit_or, Nat.testBit_shiftLeft, Nat.testBit_two_pow_sub_one]
  by_cases hi : i < 10
  · have : ¬ (i ≥ 10) := by omega
    simp [hi, this]
  · have hp : perm.testBit i = false :=
      Nat.testBit_lt_two_pow (lt_of_lt_of_le h (by
        calc (1024 : Nat) = 2 ^ 10 := by norm_num
          _ ≤ 2 ^ i := Nat.pow_le_pow_right (by norm_num) (by omega)))
    have h1 : (1 : Nat).testBit i = false :=
      Nat.testBit_lt_two_pow (lt_of_lt_of_le (by norm_num : (1 : Nat) < 2 ^ 10)
        (Nat.pow_le_pow_right (by norm_num) (by omega)))
    simp [hi, hp, h1]

theorem PTE2PA_or_W (e : Nat) : PTE2PA (e ||| PTE_W) = PTE2PA e := by
  unfold PTE2PA PTE_W
  congr 1
  apply Nat.eq_of_testBit_eq
  intro i
  have h4 : (4 : Nat) = 2 ^ 2 := by norm_num
  rw [Nat.testBit_shiftRight, Nat.testBit_shiftRight, Nat.testBit_or, h4, Nat.testBit_two_pow]
  have : ¬ (2 = 10 + i) := by omega
  simp [this]

theorem testBit_or_W (e i : Nat) (hi : i ≠ 2) : (e ||| PTE_W).testBit i = e.testBit i := by
  unfold PTE_W
  have h4 : (4 : Nat) = 2 ^ 2 := by norm_num
  rw [Nat.testBit_or, h4, Nat.testBit_two_pow]
  have : ¬ (2 = i) := fun h => hi h.symm
  simp [this]

theorem and_W_ne_zero_iff (e : Nat) : e &&& PTE_W ≠ 0 ↔ e.testBit 2 = true := by
  unfold PTE_W
  have h4 : (4 : Nat) = 2 ^ 2 := by norm_num
  rw [h4, Nat.and_two_pow]
  cases e.testBit 2 <;> simp

/-! ## Frame lemmas for `swap.c` -/

theorem swap_frame_refl (p : Proc) : swap_frame p p := rfl

theorem swap_frame_trans {p q r : Proc} (h1 : swap_frame p q) (h2 : swap_frame q r) :
    swap_frame p r := by
  unfold swap_frame at *
  rw [h2, h1]

theorem swap_frame_fields {p q : Proc} (h : swap_frame p q) :
    q.pagetable = p.pagetable ∧ q.sz = p.sz ∧ q.heap_start = p.heap_start ∧
    q.segments = p.segments ∧ q.num_segments = p.num_segments ∧
    q.num_resident = p.num_resident ∧ q.next_seq = p.next_seq ∧
    q.exec_inode = p.exec_inode ∧ q.killed = p.killed := by
  unfold swap_frame at h
  rw [h]
  exact ⟨rfl, rfl, rfl, rfl, rfl, rfl, rfl, rfl, rfl⟩

theorem swap_slot_set_used_frame (M : Nat) (p : Proc) (s : Int) :
    swap_frame p (swap_slot_set_used M p s) := by
  unfold swap_slot_set_used
  split <;> rfl

theorem swap_alloc_slot_loop_frame (M : Nat) (p : Proc) :
    ∀ fuel slot, swap_frame p (swap_alloc_slot_loop M p fuel slot).2 := by
  intro fuel
  induction fuel with
  | zero => intro slot; rfl
  | succ n ih =>
    intro slot
    simp only [swap_alloc_slot_loop]
    split
    · exact swap_slot_set_used_frame M p _
    · exact ih (slot + 1)

theorem swap_init_frame (M : Nat) (p : Proc) : swap_frame p (swap_init M p).2 := by
  unfold swap_init
  split <;> rfl

theorem swap_out_page_frame (M : Nat) (p : Proc) (va pa : Nat) :
    swap_frame p (swap_out_page M p va pa).2 := by
  have hi : swap_frame p (if p.swap_file then ((0 : Int), p) else swap_init M p).2 := by
    split
    · rfl
    · exact swap_init_frame M p
  unfold swap_out_page
  simp only []
  generalize (if p.swap_file = true then ((0 : Int), p) else swap_init M p) = i at hi ⊢
  split
  · exact hi
  · split
    · exact swap_frame_trans hi (swap_alloc_slot_loop_frame M _ _ _)
    · exact swap_frame_trans hi (swap_frame_trans (swap_alloc_slot_loop_frame M _ _ _) rfl)


theorem find_segment_loop_congr (p q : Proc) (va : Nat) (h : q.segments = p.segments) :
    ∀ fuel i, find_segment_loop q va fuel i = find_segment_loop p va fuel i := by
  intro fuel
  induction fuel with
  | zero => intro i; rfl
  | succ n ih =>
    intro i
    simp only [find_segment_loop, h, ih]

theorem find_segment_congr (p q : Proc) (va : Nat) (h : q.segments = p.segments)
    (hn : q.num_segments = p.num_segments) : find_segment q va = find_segment p va := by
  unfold find_segment
  rw [hn]
  exact find_segment_loop_congr p q va h _ _

/-- The exits of the fill-and-map part. -/
theorem demand_page_fault_fill_exit (k : Kernel) (p : Proc) (cause : Cause)
    (ova va mem : Nat) :
    ((demand_page_fault_fill k p cause ova va mem).exit = Exit.resident ∧
      (demand_page_fault_fill k p cause ova va mem).ret = ova ∧
      (demand_page_fault_fill k p cause ova va mem).p.next_seq = p.next_seq + 1 ∧
      (demand_page_fault_fill k p cause ova va mem).p.num_resident = p.num_resident) ∨
    ((demand_page_fault_fill k p cause ova va mem).ret = 0 ∧
      (demand_page_fault_fill k p cause ova va mem).p = p ∧
      ((demand_page_fault_fill k p cause ova va mem).exit = Exit.no_segment ∨
       (demand_page_fault_fill k p cause ova va mem).exit = Exit.load_failed ∨
       (demand_page_fault_fill k p cause ova va mem).exit = Exit.unknown_cause ∨
       (demand_page_fault_fill k p cause ova va mem).exit = Exit.mapping_failed)) := by
  unfold demand_page_fault_fill
  simp only []
  split
  · rename_i o heq
    split at heq
    · split at heq
      · split at heq
        · cases heq; simp
        · cases heq
      · cases heq; simp
    · split at heq
      · cases heq
      · cases heq; simp
  · rename_i perm k1 heq
    split
    · simp
    · simp


/-- The state a resolved fill-and-map leaves, with the permission bits and
the memory it installed. -/
theorem demand_page_fault_fill_resident (k : Kernel) (p : Proc) (cause : Cause)
    (ova va mem : Nat)
    (h : (demand_page_fault_fill k p cause ova va mem).exit = Exit.resident) :
    ∃ perm k1,
      demand_page_fault_fill k p cause ova va mem =
        { ret := ova, exit := Exit.resident,
          p := { p with
                   pagetable := p.pagetable.map (fun pt => mappages pt va mem perm)
                   next_seq := p.next_seq + 1 },
          k := k1 } ∧
      ((∃ seg, find_segment p va = some seg ∧ (cause = Cause.text ∨ cause = Cause.data) ∧
          perm = PTE_U ||| PTE_V ||| flags2perm seg.flags ∧
          k1 = (load_segment_page k p va mem (some seg)).2 ∧
          ¬ (load_segment_page k p va mem (some seg)).1 < 0) ∨
       ((cause = Cause.heap ∨ cause = Cause.stack) ∧
          perm = PTE_U ||| PTE_V ||| (PTE_R ||| PTE_W) ∧
          k1 = { k with mem := memset k.mem mem 0 PGSIZE })) := by
  unfold demand_page_fault_fill at h ⊢
  simp only [] at h ⊢
  split at h
  · rename_i o heq
    split at heq
    · split at heq
      · split at heq
        · cases heq; simp at h
        · cases heq
      · cases heq; simp at h
    · split at heq
      · cases heq
      · cases heq; simp at h
  · rename_i perm k1 heq
    split at h
    · simp at h
    · rename_i hm
      rw [if_neg hm]
      refine ⟨perm, k1, rfl, ?_⟩
      split at heq
      · rename_i hc
        split at heq
        · rename_i seg file hseg hfile
          split at heq
          · cases heq
          · rename_i hl
            cases heq
            exact Or.inl ⟨seg, hseg, hc, rfl, rfl, hl⟩
        · cases heq
      · split at heq
        · rename_i hc
          cases heq
          exact Or.inr ⟨hc, rfl, rfl⟩
        · cases heq

/-- The ways the allocation part returns: a failed eviction, a fill of a
fresh frame, or a fill of the frame of an evicted victim. -/
theorem demand_page_fault_alloc_inv (MAX_SWAP_PAGES : Nat) (k : Kernel) (p : Proc)
    (cause : Cause) (ova va : Nat) (o : Outcome)
    (h : demand_page_fault_alloc MAX_SWAP_PAGES k p cause ova va = some o) :
    (o.ret = 0 ∧ (o.exit = Exit.no_victim ∨ o.exit = Exit.invalid_victim ∨
        o.exit = Exit.swapout_failed)) ∨
    (∃ mem, (kalloc k).1 = some mem ∧
        o = demand_page_fault_fill (kalloc k).2 p cause ova va mem) ∨
    (∃ victim_va victim_pte, (kalloc k).1 = none ∧ find_victim_page p = some victim_va ∧
        o = demand_page_fault_fill (kalloc k).2
          { (swap_out_page MAX_SWAP_PAGES p victim_va (PTE2PA victim_pte)).2 with
              pagetable :=
                (swap_out_page MAX_SWAP_PAGES p victim_va (PTE2PA victim_pte)).2.pagetable.map
                  (fun pt => uvmunmap pt victim_va) }
          cause ova va (PTE2PA victim_pte)) := by
  unfold demand_page_fault_alloc at h
  simp only [] at h
  split at h
  · rename_i mem hk
    cases h
    exact Or.inr (Or.inl ⟨mem, hk, rfl⟩)
  · rename_i hk
    split at h
    · cases h
    · rename_i victim_va hv
      split at h
      · cases h; simp
      · split at h
        · cases h; simp
        · rename_i victim_pte hw
          split at h
          · cases h; simp
          · split at h
            · cases h; simp
            · cases h
              exact Or.inr (Or.inr ⟨victim_va, victim_pte, hk, hv, rfl⟩)

/-- The ways `demand_page_fault` returns. -/
theorem demand_page_fault_inv (MAXVA MAX_SWAP_PAGES : Nat) (k : Kernel) (p : Proc)
    (va : Nat) (is_write is_exec : Bool) (o : Outcome)
    (h : demand_page_fault MAXVA MAX_SWAP_PAGES k p va is_write is_exec = some o) :
    (o.ret = 0 ∧ o.p = p ∧ o.exit = Exit.null_guard) ∨
    (o.ret = 0 ∧ o.exit = Exit.kill_invalid) ∨
    (o.ret = va ∧ o.exit = Exit.dirty) ∨
    (o.ret = va ∧ o.p = p ∧ o.exit = Exit.already_mapped) ∨
    (∃ pt, p.pagetable = some pt ∧
      demand_page_fault_alloc MAX_SWAP_PAGES k p
        (get_fault_cause MAXVA p (PGROUNDDOWN va) is_write is_exec) va (PGROUNDDOWN va)
        = some o) := by
  unfold demand_page_fault at h
  split at h
  · cases h; simp
  · rename_i pt hpt
    simp only [] at h
    split at h
    · cases h; simp
    · split at h
      · split at h
        · split at h
          · cases h; simp
          · cases h; simp
        · exact Or.inr (Or.inr (Or.inr (Or.inr ⟨pt, hpt, h⟩)))
      · exact Or.inr (Or.inr (Or.inr (Or.inr ⟨pt, hpt, h⟩)))

/-! ## `demand_page_fault`: resolved faults -/

theorem and_bit_of_flags (e m : Nat) (hm : 0x3FF &&& m = m) :
    e &&& m = PTE_FLAGS e &&& m := by
  unfold PTE_FLAGS
  rw [Nat.and_assoc, hm]

theorem demand_page_fault_alloc_resident (MAX_SWAP_PAGES : Nat) (k : Kernel) (p : Proc)
    (cause : Cause) (ova va : Nat) (o : Outcome)
    (h : demand_page_fault_alloc MAX_SWAP_PAGES k p cause ova va = some o)
    (he : o.exit = Exit.resident) :
    o.ret = ova ∧ o.p.next_seq = p.next_seq + 1 ∧ o.p.num_resident = p.num_resident := by
  rcases demand_page_fault_alloc_inv MAX_SWAP_PAGES k p cause ova va o h with
    ⟨_, hx⟩ | ⟨mem, _, rfl⟩ | ⟨vv, vp, _, _, rfl⟩
  · rcases hx with hx | hx | hx <;> rw [hx] at he <;> cases he
  · rcases demand_page_fault_fill_exit (kalloc k).2 p cause ova va mem with
      ⟨_, h1, h2, h3⟩ | ⟨_, _, hx⟩
    · exact ⟨h1, h2, h3⟩
    · rcases hx with hx | hx | hx | hx <;> rw [hx] at he <;> cases he
  · have hf := swap_out_page_frame MAX_SWAP_PAGES p vv (PTE2PA vp)
    rcases demand_page_fault_fill_exit (kalloc k).2 _ cause ova va (PTE2PA vp) with
      ⟨_, h1, h2, h3⟩ | ⟨_, _, hx⟩
    · refine ⟨h1, ?_, ?_⟩
      · rw [h2]
        exact congrArg (fun n => n + 1) (swap_frame_fields hf).2.2.2.2.2.2.1
      · rw [h3]
        exact (swap_frame_fields hf).2.2.2.2.2.1
    · rcases hx with hx | hx | hx | hx <;> rw [hx] at he <;> cases he

theorem demand_page_fault_alloc_exit (MAX_SWAP_PAGES : Nat) (k : Kernel) (p : Proc)
    (cause : Cause) (ova va : Nat) (o : Outcome)
    (h : demand_page_fault_alloc MAX_SWAP_PAGES k p cause ova va = some o) :
    o.exit ≠ Exit.dirty ∧ o.exit ≠ Exit.already_mapped := by
  rcases demand_page_fault_alloc_inv MAX_SWAP_PAGES k p cause ova va o h with
    ⟨_, hx⟩ | ⟨mem, _, rfl⟩ | ⟨vv, vp, _, _, rfl⟩
  · rcases hx with hx | hx | hx <;> rw [hx] <;> exact ⟨by decide, by decide⟩
  · rcases demand_page_fault_fill_exit (kalloc k).2 p cause ova va mem with
      ⟨hx, _⟩ | ⟨_, _, hx⟩
    · rw [hx]; exact ⟨by decide, by decide⟩
    · rcases hx with hx | hx | hx | hx <;> rw [hx] <;> exact ⟨by decide, by decide⟩
  · rcases demand_page_fault_fill_exit (kalloc k).2 _ cause ova va (PTE2PA vp) with
      ⟨hx, _⟩ | ⟨_, _, hx⟩
    · rw [hx]; exact ⟨by decide, by decide⟩
    · rcases hx with hx | hx | hx | hx <;> rw [hx] <;> exact ⟨by decide, by decide⟩

/-- Claim C9, as the code has it.  A fault that `demand_page_fault` resolves by
installing a new mapping (the Commit step, the exit after `mappages`)
increments the allocation sequence number `next_seq` by exactly one and leaves
the resident counter `num_resident` unchanged, so that the resident count
reported by the memory-statistics call stays what it was. -/
theorem C9_commit_counts_sequence_only (MAXVA MAX_SWAP_PAGES : Nat) (k : Kernel) (p : Proc)
    (va : Nat) (is_write is_exec : Bool) (o : Outcome)
    (h : demand_page_fault MAXVA MAX_SWAP_PAGES k p va is_write is_exec = some o)
    (he : o.exit = Exit.resident) :
    o.p.next_seq = p.next_seq + 1 ∧ o.p.num_resident = p.num_resident ∧
    memstat_num_resident_pages o.p = memstat_num_resident_pages p := by
  rcases demand_page_fault_inv MAXVA MAX_SWAP_PAGES k p va is_write is_exec o h with
    ⟨_, _, hx⟩ | ⟨_, hx⟩ | ⟨_, hx⟩ | ⟨_, _, hx⟩ | ⟨pt, _, ha⟩
  · rw [hx] at he; cases he
  · rw [hx] at he; cases he
  · rw [hx] at he; cases he
  · rw [hx] at he; cases he
  · have := demand_page_fault_alloc_resident MAX_SWAP_PAGES k p _ va _ o ha he
    exact ⟨this.2.1, this.2.2, this.2.2⟩

/-- The amended claim C9 at the first write to the heap page `0x3000`. -/
theorem C9_commit_counts_sequence_only_witness :
    (returned (demand_page_fault MAXVA_sv39 8 k_two p_two 0x3050 true false)
        (by decide)).p.next_seq = p_two.next_seq + 1 ∧
    (returned (demand_page_fault MAXVA_sv39 8 k_two p_two 0x3050 true false)
        (by decide)).p.num_resident = p_two.num_resident ∧
    memstat_num_resident_pages (returned
        (demand_page_fault MAXVA_sv39 8 k_two p_two 0x3050 true false) (by decide)).p =
      memstat_num_resident_pages p_two :=
  C9_commit_counts_sequence_only MAXVA_sv39 8 k_two p_two 0x3050 true false _
    (Option.some_get _).symm (by decide)

/-- Claim C9 fails as stated: the first write to the heap page `0x3000`
installs a new mapping (the page table holds a valid entry afterwards and
`next_seq` went from 0 to 1), yet `num_resident` is still 0 and not 1. -/
theorem C9_counterexample :
    (demand_page_fault MAXVA_sv39 8 k_two p_two 0x3050 true false).map
        (fun o => (o.exit, o.ret, o.p.next_seq, o.p.num_resident,
          pte_valid (o.p.pagetable.bind (fun pt => walk pt 0x3000)))) =
      some (Exit.resident, 0x3050, 1, 0, true) ∧
    p_two.next_seq = 0 ∧ p_two.num_resident = 0 ∧
    pte_valid (p_two.pagetable.bind (fun pt => walk pt 0x3000)) = false := by
  decide

/-- Claim C10.  For a fault that `demand_page_fault` resolves (new mapping,
dirty upgrade or harmless re-check), the value returned is the original
faulting address as passed in; it is not the page-rounded address unless the
faulting address is page-aligned. -/
theorem C10_resolved_fault_returns_original_va (MAXVA MAX_SWAP_PAGES : Nat) (k : Kernel)
    (p : Proc) (va : Nat) (is_write is_exec : Bool) (o : Outcome)
    (h : demand_page_fault MAXVA MAX_SWAP_PAGES k p va is_write is_exec = some o)
    (he : o.exit = Exit.resident ∨ o.exit = Exit.dirty ∨ o.exit = Exit.already_mapped) :
    o.ret = va ∧ (va % PGSIZE ≠ 0 → o.ret ≠ PGROUNDDOWN va) := by
  have hret : o.ret = va := by
    rcases demand_page_fault_inv MAXVA MAX_SWAP_PAGES k p va is_write is_exec o h with
      ⟨_, _, hx⟩ | ⟨_, hx⟩ | ⟨hr, _⟩ | ⟨hr, _, _⟩ | ⟨pt, _, ha⟩
    · rw [hx] at he; rcases he with he | he | he <;> cases he
    · rw [hx] at he; rcases he with he | he | he <;> cases he
    · exact hr
    · exact hr
    · have hne := demand_page_fault_alloc_exit MAX_SWAP_PAGES k p _ va _ o ha
      rcases he with he | he | he
      · exact (demand_page_fault_alloc_resident MAX_SWAP_PAGES k p _ va _ o ha he).1
      · exact absurd he hne.1
      · exact absurd he hne.2
  refine ⟨hret, fun hal => ?_⟩
  rw [hret]
  unfold PGROUNDDOWN PGSIZE at *
  omega

/-- Claim C10 at the first write to the heap page `0x3000`, through the
unaligned address `0x3050`. -/
theorem C10_resolved_fault_returns_original_va_witness :
    (returned (demand_page_fault MAXVA_sv39 8 k_two p_two 0x3050 true false)
        (by decide)).ret = 0x3050 ∧
    (0x3050 % PGSIZE ≠ 0 →
      (returned (demand_page_fault MAXVA_sv39 8 k_two p_two 0x3050 true false)
        (by decide)).ret ≠ PGROUNDDOWN 0x3050) :=
  C10_resolved_fault_returns_original_va MAXVA_sv39 8 k_two p_two 0x3050 true false _
    (Option.some_get _).symm (Or.inl (by decide))

theorem demand_page_fault_unmapped (MAXVA MAX_SWAP_PAGES : Nat) (k : Kernel) (p : Proc)
    (pt : PageTable) (va : Nat) (is_write is_exec : Bool) (hpt : p.pagetable = some pt)
    (hc : get_fault_cause MAXVA p (PGROUNDDOWN va) is_write is_exec ≠ Cause.invalid)
    (hun : pte_valid (walk pt (PGROUNDDOWN va)) = false) :
    demand_page_fault MAXVA MAX_SWAP_PAGES k p va is_write is_exec =
      demand_page_fault_alloc MAX_SWAP_PAGES k p
        (get_fault_cause MAXVA p (PGROUNDDOWN va) is_write is_exec) va (PGROUNDDOWN va) := by
  unfold demand_page_fault
  rw [hpt]
  simp only [if_neg hc]
  unfold pte_valid at hun
  split
  · rename_i pte hw
    rw [hw] at hun
    have : pte &&& PTE_V = 0 := by simpa using hun
    rw [if_neg (by simp [this])]
  · rfl

theorem demand_page_fault_alloc_fresh (MAX_SWAP_PAGES : Nat) (k : Kernel) (p : Proc)
    (cause : Cause) (ova va f : Nat) (fs : List Nat) (hfree : k.freelist = f :: fs) :
    demand_page_fault_alloc MAX_SWAP_PAGES k p cause ova va =
      some (demand_page_fault_fill
        { k with freelist := fs, kalloc_calls := k.kalloc_calls + 1 } p cause ova va f) := by
  unfold demand_page_fault_alloc kalloc
  rw [hfree]

theorem demand_page_fault_fill_zero (k : Kernel) (p : Proc) (ova va mem : Nat)
    (hmap : k.mappages_ok = true) :
    demand_page_fault_fill k p Cause.stack ova va mem =
      { ret := ova, exit := Exit.resident,
        p := { p with
                 pagetable := p.pagetable.map
                   (fun pt => mappages pt va mem (PTE_U ||| PTE_V ||| (PTE_R ||| PTE_W)))
                 next_seq := p.next_seq + 1 },
        k := { k with mem := memset k.mem mem 0 PGSIZE } } := by
  unfold demand_page_fault_fill
  simp [hmap]

theorem walk_mappages (pt : PageTable) (va pa perm : Nat) :
    walk (mappages pt va pa perm) va = some (PA2PTE pa ||| perm ||| PTE_V) := by
  unfold walk mappages
  exact Function.update_same _ _ _

/-- Claim C5, as the code has it.  For an address `va` below `MAXVA` inside
`[heap_start, sz)` whose page starts at or above `heap_start`, lies inside no
recorded segment and, when no segment is recorded at all, outside
`[0x1000, 0x2000)`, and whose page is not yet mapped: when a free physical
frame `f` is available and the mapping install succeeds, a read or write fault
handled by `demand_page_fault` succeeds (it returns `va`) and leaves that page
resident in frame `f` (valid, user-accessible), with all `PGSIZE` bytes of the
frame zero, readable and writable, and not executable. -/
theorem C5_zero_fill_fault_resolves (MAXVA MAX_SWAP_PAGES : Nat) (k : Kernel) (p : Proc)
    (pt : PageTable) (va : Nat) (is_write : Bool) (f : Nat) (fs : List Nat)
    (hpt : p.pagetable = some pt) (hva : va < MAXVA)
    (hheap : p.heap_start ≤ PGROUNDDOWN va) (hsz : va < p.sz)
    (hno : ∀ i, i < p.num_segments → ¬ in_segment (seg_at p i) (PGROUNDDOWN va))
    (hwk : ¬ (p.num_segments = 0 ∧ 0x1000 ≤ PGROUNDDOWN va ∧ PGROUNDDOWN va < 0x2000))
    (hun : pte_valid (walk pt (PGROUNDDOWN va)) = false)
    (hfree : k.freelist = f :: fs) (hmap : k.mappages_ok = true) :
    ∃ o pt1 e, demand_page_fault MAXVA MAX_SWAP_PAGES k p va is_write false = some o ∧
      o.ret = va ∧ o.exit = Exit.resident ∧
      o.p.pagetable = some pt1 ∧ walk pt1 (PGROUNDDOWN va) = some e ∧
      e = PA2PTE f ||| (PTE_U ||| PTE_V ||| (PTE_R ||| PTE_W)) ||| PTE_V ∧
      PTE_FLAGS e = PTE_V ||| PTE_U ||| PTE_R ||| PTE_W ∧
      e &&& PTE_V ≠ 0 ∧ e &&& PTE_U ≠ 0 ∧ e &&& PTE_R ≠ 0 ∧ e &&& PTE_W ≠ 0 ∧
      e &&& PTE_X = 0 ∧
      (∀ i, i < PGSIZE → o.k.mem (f + i) = 0) := by
  have hlt : PGROUNDDOWN va < MAXVA := lt_of_le_of_lt (PGROUNDDOWN_le va) hva
  have hlt2 : PGROUNDDOWN va < p.sz := lt_of_le_of_lt (PGROUNDDOWN_le va) hsz
  have hc : get_fault_cause MAXVA p (PGROUNDDOWN va) is_write false = Cause.stack := by
    rw [get_fault_cause_of_no_segment MAXVA p _ is_write false hlt
      (find_segment_none p _ hno)]
    rw [if_neg (by simp), if_neg hwk, if_pos ⟨hheap, hlt2⟩]
  have hflags : PTE_FLAGS (PA2PTE f ||| (PTE_U ||| PTE_V ||| (PTE_R ||| PTE_W)) ||| PTE_V)
      = PTE_V ||| PTE_U ||| PTE_R ||| PTE_W := by
    rw [PTE_FLAGS_install f _ (by decide)]
    decide
  have hbit : ∀ m, 0x3FF &&& m = m →
      (PA2PTE f ||| (PTE_U ||| PTE_V ||| (PTE_R ||| PTE_W)) ||| PTE_V) &&& m
        = (PTE_V ||| PTE_U ||| PTE_R ||| PTE_W) &&& m := by
    intro m hm
    rw [and_bit_of_flags _ m hm, hflags]
  have hz := demand_page_fault_fill_zero
    { k with freelist := fs, kalloc_calls := k.kalloc_calls + 1 } p va (PGROUNDDOWN va) f hmap
  refine ⟨demand_page_fault_fill { k with freelist := fs, kalloc_calls := k.kalloc_calls + 1 }
      p Cause.stack va (PGROUNDDOWN va) f,
    mappages pt (PGROUNDDOWN va) f (PTE_U ||| PTE_V ||| (PTE_R ||| PTE_W)), _, ?_, ?_, ?_, ?_,
    walk_mappages _ _ _ _, rfl, hflags, ?_, ?_, ?_, ?_, ?_, ?_⟩
  · rw [demand_page_fault_unmapped MAXVA MAX_SWAP_PAGES k p pt va is_write false hpt
        (by rw [hc]; decide) hun, hc,
      demand_page_fault_alloc_fresh MAX_SWAP_PAGES k p _ va _ f fs hfree]
  · rw [hz]
  · rw [hz]
  · rw [hz]
    simp only [hpt, Option.map_some']
  · rw [hbit PTE_V (by decide)]; decide
  · rw [hbit PTE_U (by decide)]; decide
  · rw [hbit PTE_R (by decide)]; decide
  · rw [hbit PTE_W (by decide)]; decide
  · rw [hbit PTE_X (by decide)]; decide
  · intro i hi
    rw [hz]
    simp only [memset]
    rw [if_pos ⟨Nat.le_add_right f i, Nat.add_lt_add_left hi f⟩]

/-- The amended claim C5 at the first write to the heap page `0x3000` of a
two-segment image, with the free frame `0x80001000`. -/
theorem C5_zero_fill_fault_resolves_witness :
    ∃ o pt1 e, demand_page_fault MAXVA_sv39 8 k_two p_two 0x3050 true false = some o ∧
      o.ret = 0x3050 ∧ o.exit = Exit.resident ∧
      o.p.pagetable = some pt1 ∧ walk pt1 (PGROUNDDOWN 0x3050) = some e ∧
      e = PA2PTE 0x80001000 ||| (PTE_U ||| PTE_V ||| (PTE_R ||| PTE_W)) ||| PTE_V ∧
      PTE_FLAGS e = PTE_V ||| PTE_U ||| PTE_R ||| PTE_W ∧
      e &&& PTE_V ≠ 0 ∧ e &&& PTE_U ≠ 0 ∧ e &&& PTE_R ≠ 0 ∧ e &&& PTE_W ≠ 0 ∧
      e &&& PTE_X = 0 ∧
      (∀ i, i < PGSIZE → o.k.mem (0x80001000 + i) = 0) :=
  C5_zero_fill_fault_resolves MAXVA_sv39 8 k_two p_two pt_empty 0x3050 true 0x80001000
    [0x80002000] rfl (by decide) (by decide) (by decide) (by decide) (by decide) (by decide)
    rfl rfl

/-- Claim C5 fails as stated, in two ways.  First, the address `MAXVA` of a
process grown beyond it lies inside `[heap_start, sz)` and its page is not
mapped, a frame is free and the mapping install would succeed, yet the write
fault kills the process and returns 0, leaving the page unmapped.  Second,
with no segment recorded, the address `0x1000` of `[heap_start, sz)` is
classified "data"; the write fault finds no segment, returns 0 and leaves the
page unmapped. -/
theorem C5_counterexample :
    (p_big.heap_start ≤ MAXVA_sv39 ∧ MAXVA_sv39 < p_big.sz ∧
      pte_valid (p_big.pagetable.bind (fun pt => walk pt MAXVA_sv39)) = false ∧
      k_two.freelist = [0x80001000, 0x80002000] ∧ k_two.mappages_ok = true ∧
      (demand_page_fault MAXVA_sv39 8 k_two p_big MAXVA_sv39 true false).map
          (fun o => (o.ret, o.exit, o.p.killed,
            pte_valid (o.p.pagetable.bind (fun pt => walk pt MAXVA_sv39)))) =
        some (0, Exit.kill_invalid, true, false)) ∧
    (p_noseg.heap_start ≤ 0x1000 ∧ 0x1000 < p_noseg.sz ∧
      pte_valid (p_noseg.pagetable.bind (fun pt => walk pt 0x1000)) = false ∧
      (demand_page_fault MAXVA_sv39 8 k_two p_noseg 0x1000 true false).map
          (fun o => (o.ret, o.exit, o.p.killed,
            pte_valid (o.p.pagetable.bind (fun pt => walk pt 0x1000)))) =
        some (0, Exit.no_segment, false, false)) := by
  decide

theorem flags2perm_install (pa fl : Nat) :
    PTE_FLAGS (PA2PTE pa ||| (PTE_U ||| PTE_V ||| flags2perm fl) ||| PTE_V) =
      PTE_V ||| PTE_U ||| PTE_R ||| (if fl &&& 0x1 ≠ 0 then PTE_X else 0) |||
        (if fl &&& 0x2 ≠ 0 then PTE_W else 0) := by
  unfold flags2perm
  by_cases h1 : fl &&& 0x1 ≠ 0 <;> by_cases h2 : fl &&& 0x2 ≠ 0
  · rw [if_pos h1, if_pos h2]
    simp only []
    rw [if_pos h1, if_pos h2, PTE_FLAGS_install _ _ (by decide)]
    decide
  · rw [if_pos h1, if_neg h2]
    simp only []
    rw [if_pos h1, if_neg h2, PTE_FLAGS_install _ _ (by decide)]
    decide
  · rw [if_neg h1, if_pos h2]
    simp only []
    rw [if_neg h1, if_pos h2, PTE_FLAGS_install _ _ (by decide)]
    decide
  · rw [if_neg h1, if_neg h2]
    simp only []
    rw [if_neg h1, if_neg h2, PTE_FLAGS_install _ _ (by decide)]
    decide

theorem segment_entry_bits (pa fl : Nat) :
    (PA2PTE pa ||| (PTE_U ||| PTE_V ||| flags2perm fl) ||| PTE_V) &&& PTE_V ≠ 0 ∧
    (PA2PTE pa ||| (PTE_U ||| PTE_V ||| flags2perm fl) ||| PTE_V) &&& PTE_U ≠ 0 ∧
    (PA2PTE pa ||| (PTE_U ||| PTE_V ||| flags2perm fl) ||| PTE_V) &&& PTE_R ≠ 0 ∧
    ((PA2PTE pa ||| (PTE_U ||| PTE_V ||| flags2perm fl) ||| PTE_V) &&& PTE_X ≠ 0 ↔
      fl &&& 0x1 ≠ 0) ∧
    ((PA2PTE pa ||| (PTE_U ||| PTE_V ||| flags2perm fl) ||| PTE_V) &&& PTE_W ≠ 0 ↔
      fl &&& 0x2 ≠ 0) := by
  have hflags := flags2perm_install pa fl
  have hbit : ∀ m, 0x3FF &&& m = m →
      (PA2PTE pa ||| (PTE_U ||| PTE_V ||| flags2perm fl) ||| PTE_V) &&& m =
        (PTE_V ||| PTE_U ||| PTE_R ||| (if fl &&& 0x1 ≠ 0 then PTE_X else 0) |||
          (if fl &&& 0x2 ≠ 0 then PTE_W else 0)) &&& m := by
    intro m hm
    rw [and_bit_of_flags _ m hm, hflags]
  rw [hbit PTE_V (by decide), hbit PTE_U (by decide), hbit PTE_R (by decide),
    hbit PTE_X (by decide), hbit PTE_W (by decide)]
  by_cases h1 : fl &&& 0x1 ≠ 0 <;> by_cases h2 : fl &&& 0x2 ≠ 0
  · rw [if_pos h1, if_pos h2]
    exact ⟨by decide, by decide, by decide, iff_of_true (by decide) h1,
      iff_of_true (by decide) h2⟩
  · rw [if_pos h1, if_neg h2]
    exact ⟨by decide, by decide, by decide, iff_of_true (by decide) h1,
      iff_of_false (by decide) h2⟩
  · rw [if_neg h1, if_pos h2]
    exact ⟨by decide, by decide, by decide, iff_of_false (by decide) h1,
      iff_of_true (by decide) h2⟩
  · rw [if_neg h1, if_neg h2]
    exact ⟨by decide, by decide, by decide, iff_of_false (by decide) h1,
      iff_of_false (by decide) h2⟩

theorem demand_page_fault_fill_segment (k : Kernel) (p : Proc) (cause : Cause)
    (ova va mem : Nat) (pt : PageTable) (seg : Segment) (hpt : p.pagetable = some pt)
    (hseg : find_segment p va = some seg)
    (hcause : cause ≠ Cause.heap ∧ cause ≠ Cause.stack)
    (he : (demand_page_fault_fill k p cause ova va mem).exit = Exit.resident) :
    (demand_page_fault_fill k p cause ova va mem).p.pagetable =
      some (mappages pt va mem (PTE_U ||| PTE_V ||| flags2perm seg.flags)) := by
  obtain ⟨perm, k1, heq, hcase⟩ := demand_page_fault_fill_resident k p cause ova va mem he
  rw [heq]
  rcases hcase with ⟨seg1, hseg1, _, hperm, _, _⟩ | ⟨hc, _, _⟩
  · rw [hseg] at hseg1
    cases hseg1
    simp only [hpt, Option.map_some', hperm]
  · rcases hc with hc | hc
    · exact absurd hc hcause.1
    · exact absurd hc hcause.2

/-- Claim C6.  For a fault that `demand_page_fault` resolves by installing a
mapping for a page inside a segment (the segment `find_segment` returns for
the page), the permission bits of the installed entry are exactly valid +
user-accessible + readable, plus executable iff the segment's flag bit 0x1 is
set, plus writable iff the segment's flag bit 0x2 is set; hence a page of a
segment with the executable flag set is mapped executable and is writable
only if the segment's write flag is set as well. -/
theorem C6_segment_fault_permissions (MAXVA MAX_SWAP_PAGES : Nat) (k : Kernel) (p : Proc)
    (va : Nat) (is_write is_exec : Bool) (o : Outcome) (seg : Segment)
    (h : demand_page_fault MAXVA MAX_SWAP_PAGES k p va is_write is_exec = some o)
    (he : o.exit = Exit.resident)
    (hseg : find_segment p (PGROUNDDOWN va) = some seg) :
    ∃ pt1 e, o.p.pagetable = some pt1 ∧ walk pt1 (PGROUNDDOWN va) = some e ∧
      PTE_FLAGS e = PTE_V ||| PTE_U ||| PTE_R |||
        (if seg.flags &&& 0x1 ≠ 0 then PTE_X else 0) |||
        (if seg.flags &&& 0x2 ≠ 0 then PTE_W else 0) ∧
      e &&& PTE_V ≠ 0 ∧ e &&& PTE_U ≠ 0 ∧ e &&& PTE_R ≠ 0 ∧
      (e &&& PTE_X ≠ 0 ↔ seg.flags &&& 0x1 ≠ 0) ∧
      (e &&& PTE_W ≠ 0 ↔ seg.flags &&& 0x2 ≠ 0) ∧
      (seg.flags &&& 0x1 ≠ 0 →
        e &&& PTE_X ≠ 0 ∧ (seg.flags &&& 0x2 = 0 → e &&& PTE_W = 0)) := by
  have hcause : get_fault_cause MAXVA p (PGROUNDDOWN va) is_write is_exec ≠ Cause.heap ∧
      get_fault_cause MAXVA p (PGROUNDDOWN va) is_write is_exec ≠ Cause.stack := by
    rcases get_fault_cause_of_segment MAXVA p (PGROUNDDOWN va) is_write is_exec seg hseg with
      hc | hc | hc <;> rw [hc] <;> exact ⟨by decide, by decide⟩
  have key : ∃ pt2 mem, o.p.pagetable =
      some (mappages pt2 (PGROUNDDOWN va) mem (PTE_U ||| PTE_V ||| flags2perm seg.flags)) := by
    rcases demand_page_fault_inv MAXVA MAX_SWAP_PAGES k p va is_write is_exec o h with
      ⟨_, _, hx⟩ | ⟨_, hx⟩ | ⟨_, hx⟩ | ⟨_, _, hx⟩ | ⟨pt, hpt, ha⟩
    · rw [hx] at he; cases he
    · rw [hx] at he; cases he
    · rw [hx] at he; cases he
    · rw [hx] at he; cases he
    · rcases demand_page_fault_alloc_inv MAX_SWAP_PAGES k p _ va _ o ha with
        ⟨_, hx⟩ | ⟨mem, _, rfl⟩ | ⟨vv, vp, _, _, rfl⟩
      · rcases hx with hx | hx | hx <;> rw [hx] at he <;> cases he
      · exact ⟨pt, mem, demand_page_fault_fill_segment _ p _ va _ mem pt seg hpt hseg hcause he⟩
      · have hf := swap_frame_fields (swap_out_page_frame MAX_SWAP_PAGES p vv (PTE2PA vp))
        refine ⟨uvmunmap pt vv, PTE2PA vp,
          demand_page_fault_fill_segment _ _ _ va _ (PTE2PA vp) (uvmunmap pt vv) seg ?_ ?_
            hcause he⟩
        · simp only [hf.1, hpt, Option.map_some']
        · rw [← hseg]
          exact find_segment_congr p _ _ hf.2.2.2.1 hf.2.2.2.2.1
  obtain ⟨pt2, mem, hpt2⟩ := key
  have hb := segment_entry_bits mem seg.flags
  exact ⟨_, _, hpt2, walk_mappages _ _ _ _, flags2perm_install mem seg.flags, hb.1, hb.2.1,
    hb.2.2.1, hb.2.2.2.1, hb.2.2.2.2,
    fun hx => ⟨hb.2.2.2.1.mpr hx, fun h0 => by
      by_contra hw
      exact (hb.2.2.2.2.mp hw) h0⟩⟩

/-- Claim C6 at the instruction fetch at `0x50` in the text segment
`[0, 0x1000)` of a two-segment image. -/
theorem C6_segment_fault_permissions_witness :
    ∃ pt1 e, (returned (demand_page_fault MAXVA_sv39 8 k_two p_two 0x50 false true)
        (by decide)).p.pagetable = some pt1 ∧
      walk pt1 (PGROUNDDOWN 0x50) = some e ∧
      PTE_FLAGS e = PTE_V ||| PTE_U ||| PTE_R |||
        (if seg_text.flags &&& 0x1 ≠ 0 then PTE_X else 0) |||
        (if seg_text.flags &&& 0x2 ≠ 0 then PTE_W else 0) ∧
      e &&& PTE_V ≠ 0 ∧ e &&& PTE_U ≠ 0 ∧ e &&& PTE_R ≠ 0 ∧
      (e &&& PTE_X ≠ 0 ↔ seg_text.flags &&& 0x1 ≠ 0) ∧
      (e &&& PTE_W ≠ 0 ↔ seg_text.flags &&& 0x2 ≠ 0) ∧
      (seg_text.flags &&& 0x1 ≠ 0 →
        e &&& PTE_X ≠ 0 ∧ (seg_text.flags &&& 0x2 = 0 → e &&& PTE_W = 0)) :=
  C6_segment_fault_permissions MAXVA_sv39 8 k_two p_two 0x50 false true _ seg_text
    (Option.some_get _).symm (by decide) (by decide)

/-- Claim C6, counterexample.  The page at 0 of `p_two` lies in the text
segment, whose flags have the executable bit and not the write bit, and is
resident after the instruction fetch `touch_0` with the bits valid, user,
readable and executable.  The write fault at `0x10` on it is resolved inside
that segment (the dirty upgrade, returning `0x10`) and leaves the entry with
the writable bit set, although the segment's write flag is clear. -/
theorem C6_counterexample :
    (find_segment touch_0.p (PGROUNDDOWN 0x10) = some seg_text ∧
      seg_text.flags &&& 0x1 ≠ 0 ∧ seg_text.flags &&& 0x2 = 0) ∧
    (touch_0.exit = Exit.resident ∧
      (touch_0.p.pagetable.bind (fun pt => walk pt (PGROUNDDOWN 0x10))).map PTE_FLAGS =
        some (PTE_V ||| PTE_U ||| PTE_R ||| PTE_X)) ∧
    (demand_page_fault MAXVA_sv39 8 touch_0.k touch_0.p 0x10 true false = some write_text ∧
      resolved write_text ∧ write_text.exit = Exit.dirty ∧ write_text.ret = 0x10) ∧
    ((write_text.p.pagetable.bind (fun pt => walk pt (PGROUNDDOWN 0x10))).map PTE_FLAGS =
        some (PTE_V ||| PTE_U ||| PTE_R ||| PTE_X ||| PTE_W) ∧
      (write_text.p.pagetable.bind (fun pt => walk pt (PGROUNDDOWN 0x10))).map
        (fun e => decide (e &&& PTE_W ≠ 0)) = some true) := by
  refine ⟨⟨?_, ?_, ?_⟩, ⟨?_, ?_⟩, ⟨?_, ?_, ?_, ?_⟩, ?_, ?_⟩
  · decide
  · decide
  · decide
  · decide
  · decide
  · unfold write_text returned
    exact (Option.some_get _).symm
  · decide
  · decide
  · decide
  · decide
  · decide

theorem and_W_or_W (e : Nat) : (e ||| PTE_W) &&& PTE_W ≠ 0 := by
  rw [and_W_ne_zero_iff]
  unfold PTE_W
  have h4 : (4 : Nat) = 2 ^ 2 := by norm_num
  rw [Nat.testBit_or, h4, Nat.testBit_two_pow]
  simp

/-- Claim C8.  For a fault on a legal page (one not classified Invalid) whose
page-table entry `e` is already valid, `demand_page_fault` succeeds (it
returns `va`) without requesting a frame (the kernel state, with the allocator
and its call counter, is unchanged) and without changing `num_resident` or
`num_swapped`; the process changes at most in the page table, the page table
at most in that entry, and the entry at most in its writable bit, which
becomes set if and only if it was set or the access is a write; the frame
identifier of the entry is unchanged. -/
theorem C8_fault_on_resident_page (MAXVA MAX_SWAP_PAGES : Nat) (k : Kernel) (p : Proc)
    (pt : PageTable) (va : Nat) (is_write is_exec : Bool) (e : Nat)
    (hpt : p.pagetable = some pt)
    (hc : get_fault_cause MAXVA p (PGROUNDDOWN va) is_write is_exec ≠ Cause.invalid)
    (hw : walk pt (PGROUNDDOWN va) = some e) (hv : e &&& PTE_V ≠ 0) :
    ∃ o pt1 e1, demand_page_fault MAXVA MAX_SWAP_PAGES k p va is_write is_exec = some o ∧
      o.ret = va ∧ (o.exit = Exit.dirty ∨ o.exit = Exit.already_mapped) ∧
      o.k = k ∧ o.k.kalloc_calls = k.kalloc_calls ∧ o.k.freelist = k.freelist ∧
      o.p.num_resident = p.num_resident ∧ o.p.num_swapped = p.num_swapped ∧
      o.p = { p with pagetable := some pt1 } ∧
      (∀ va2, va2 / PGSIZE ≠ va / PGSIZE → walk pt1 va2 = walk pt va2) ∧
      walk pt1 (PGROUNDDOWN va) = some e1 ∧
      e1 = (if is_write = true ∧ e &&& PTE_W = 0 then e ||| PTE_W else e) ∧
      PTE2PA e1 = PTE2PA e ∧
      (∀ i, i ≠ 2 → e1.testBit i = e.testBit i) ∧
      (e1 &&& PTE_W ≠ 0 ↔ (e &&& PTE_W ≠ 0 ∨ is_write = true)) ∧
      (e1 ≠ e ↔ (is_write = true ∧ e &&& PTE_W = 0)) := by
  have hidx : PGROUNDDOWN va / PGSIZE = va / PGSIZE := by
    unfold PGROUNDDOWN PGSIZE
    omega
  by_cases hd : is_write = true ∧ e &&& PTE_W = 0
  · have hrun : demand_page_fault MAXVA MAX_SWAP_PAGES k p va is_write is_exec =
        some { ret := va, exit := Exit.dirty,
               p := { p with
                        pagetable := some (Function.update pt (PGROUNDDOWN va / PGSIZE)
                          (some (e ||| PTE_W))) },
               k := k } := by
      unfold demand_page_fault
      rw [hpt]
      simp only [if_neg hc, hw, if_pos hv, if_pos hd]
    have hne : e ||| PTE_W ≠ e := by
      intro heq
      have := and_W_or_W e
      rw [heq] at this
      exact this hd.2
    refine ⟨_, _, e ||| PTE_W, hrun, rfl, Or.inl rfl, rfl, rfl, rfl, rfl, rfl, rfl, ?_, ?_, ?_,
      PTE2PA_or_W e, fun i hi => testBit_or_W e i hi, ?_, ?_⟩
    · intro va2 hne2
      unfold walk
      exact Function.update_noteq (by rw [hidx]; exact hne2) _ _
    · unfold walk
      exact Function.update_same _ _ _
    · rw [if_pos hd]
    · exact iff_of_true (and_W_or_W e) (Or.inr hd.1)
    · exact iff_of_true hne hd
  · have hrun : demand_page_fault MAXVA MAX_SWAP_PAGES k p va is_write is_exec =
        some { ret := va, exit := Exit.already_mapped, p := p, k := k } := by
      unfold demand_page_fault
      rw [hpt]
      simp only [if_neg hc, hw, if_pos hv, if_neg hd]
    refine ⟨_, pt, e, hrun, rfl, Or.inr rfl, rfl, rfl, rfl, rfl, rfl, ?_, fun _ _ => rfl, hw,
      ?_, rfl, fun _ _ => rfl, ?_, ?_⟩
    · rw [← hpt]
    · rw [if_neg hd]
    · constructor
      · intro h1
        exact Or.inl h1
      · intro h1
        rcases h1 with h1 | h1
        · exact h1
        · intro h0
          exact hd ⟨h1, h0⟩
    · exact iff_of_false (fun h => h rfl) hd

/-- Claim C8 at a write to the resident read-only page `0x3000`, which is
upgraded in place. -/
theorem C8_fault_on_resident_page_witness :
    ∃ o pt1 e1, demand_page_fault MAXVA_sv39 8 k_two p_mapped 0x3050 true false = some o ∧
      o.ret = 0x3050 ∧ (o.exit = Exit.dirty ∨ o.exit = Exit.already_mapped) ∧
      o.k = k_two ∧ o.k.kalloc_calls = k_two.kalloc_calls ∧ o.k.freelist = k_two.freelist ∧
      o.p.num_resident = p_mapped.num_resident ∧ o.p.num_swapped = p_mapped.num_swapped ∧
      o.p = { p_mapped with pagetable := some pt1 } ∧
      (∀ va2, va2 / PGSIZE ≠ 0x3050 / PGSIZE →
        walk pt1 va2 = walk (Function.update pt_empty 3 (some (PA2PTE 0x80003000 ||| 0x13))) va2) ∧
      walk pt1 (PGROUNDDOWN 0x3050) = some e1 ∧
      e1 = (if true = true ∧ (PA2PTE 0x80003000 ||| 0x13) &&& PTE_W = 0
              then (PA2PTE 0x80003000 ||| 0x13) ||| PTE_W else PA2PTE 0x80003000 ||| 0x13) ∧
      PTE2PA e1 = PTE2PA (PA2PTE 0x80003000 ||| 0x13) ∧
      (∀ i, i ≠ 2 → e1.testBit i = (PA2PTE 0x80003000 ||| 0x13).testBit i) ∧
      (e1 &&& PTE_W ≠ 0 ↔ ((PA2PTE 0x80003000 ||| 0x13) &&& PTE_W ≠ 0 ∨ true = true)) ∧
      (e1 ≠ PA2PTE 0x80003000 ||| 0x13 ↔
        (true = true ∧ (PA2PTE 0x80003000 ||| 0x13) &&& PTE_W = 0)) :=
  C8_fault_on_resident_page MAXVA_sv39 8 k_two p_mapped
    (Function.update pt_empty 3 (some (PA2PTE 0x80003000 ||| 0x13))) 0x3050 true false
    (PA2PTE 0x80003000 ||| 0x13) rfl (by decide) (by decide) (by decide)

/-! ## `load_segment_page` -/

theorem sub64_of_le (a b : Nat) (ha : a < 2 ^ 64) (hb : b ≤ a) : sub64 a b = a - b := by
  unfold sub64
  omega

theorem load_segment_page_read (k : Kernel) (p : Proc) (va mem : Nat) (seg : Segment)
    (ip : Inode) (hip : p.exec_inode = some ip) (hmem : mem ≠ 0)
    (hin : in_segment seg va) (hva : va < 2 ^ 64)
    (hlt : va - seg.va_start < seg.file_size)
    (himg : seg.file_offset + (va - seg.va_start) +
      min (seg.file_size - (va - seg.va_start)) PGSIZE ≤ ip.size)
    (hsize : ip.size < 2 ^ 64) :
    load_segment_page k p va mem (some seg) =
      (0, { k with mem := fun a =>
              if mem ≤ a ∧ a < mem + min (seg.file_size - (va - seg.va_start)) PGSIZE then
                ip.data (seg.file_offset + (va - seg.va_start) + (a - mem))
              else memset k.mem mem 0 PGSIZE a }) := by
  have hso : sub64 va seg.va_start = va - seg.va_start := sub64_of_le va _ hva hin.1
  have hfo : add64 seg.file_offset (va - seg.va_start) =
      seg.file_offset + (va - seg.va_start) := by
    unfold add64
    omega
  have hb : (if seg.file_size - (va - seg.va_start) > PGSIZE then PGSIZE
      else seg.file_size - (va - seg.va_start)) =
      min (seg.file_size - (va - seg.va_start)) PGSIZE := by
    split <;> omega
  have hcnt : min (min (seg.file_size - (va - seg.va_start)) PGSIZE)
      (ip.size - (seg.file_offset + (va - seg.va_start))) =
      min (seg.file_size - (va - seg.va_start)) PGSIZE := by
    omega
  unfold load_segment_page
  rw [hip]
  simp only [if_neg hmem, hso, hfo, if_pos hlt, hb, readi, hcnt, ne_eq, not_true_eq_false,
    if_false]

theorem load_segment_page_beyond (k : Kernel) (p : Proc) (va mem : Nat) (seg : Segment)
    (ip : Inode) (hip : p.exec_inode = some ip) (hmem : mem ≠ 0)
    (hin : in_segment seg va) (hva : va < 2 ^ 64)
    (hge : seg.file_size ≤ va - seg.va_start) :
    load_segment_page k p va mem (some seg) =
      (0, { k with mem := memset k.mem mem 0 PGSIZE }) := by
  have hso : sub64 va seg.va_start = va - seg.va_start := sub64_of_le va _ hva hin.1
  unfold load_segment_page
  rw [hip]
  simp only [if_neg hmem, hso, if_neg (Nat.not_lt.mpr hge)]

/-- Claim C7.  For a segment and a page-aligned `va` inside it, with the
executable handle present, a non-null frame `mem` and an image that holds the
file range of the page, `load_segment_page` returns 0 and leaves the frame
holding exactly `min(file_size - (va - va_start), PGSIZE)` bytes of the
executable image, taken from file offset `file_offset + (va - va_start)` on,
followed by zeros up to `PGSIZE`; memory outside the frame is unchanged; when
`va - va_start >= file_size` the memory is just the zeroed frame, nothing of
the image being read. -/
theorem C7_load_segment_page_content (k : Kernel) (p : Proc) (va mem : Nat) (seg : Segment)
    (ip : Inode) (hip : p.exec_inode = some ip) (hmem : mem ≠ 0)
    (hin : in_segment seg va) (_hal : va % PGSIZE = 0) (hva : va < 2 ^ 64)
    (himg : va - seg.va_start < seg.file_size →
      seg.file_offset + (va - seg.va_start) +
        min (seg.file_size - (va - seg.va_start)) PGSIZE ≤ ip.size)
    (hsize : ip.size < 2 ^ 64) :
    (load_segment_page k p va mem (some seg)).1 = 0 ∧
    (∀ i, i < min (seg.file_size - (va - seg.va_start)) PGSIZE →
      (load_segment_page k p va mem (some seg)).2.mem (mem + i) =
        ip.data (seg.file_offset + (va - seg.va_start) + i)) ∧
    (∀ i, min (seg.file_size - (va - seg.va_start)) PGSIZE ≤ i → i < PGSIZE →
      (load_segment_page k p va mem (some seg)).2.mem (mem + i) = 0) ∧
    (∀ a, ¬ (mem ≤ a ∧ a < mem + PGSIZE) →
      (load_segment_page k p va mem (some seg)).2.mem a = k.mem a) ∧
    (seg.file_size ≤ va - seg.va_start →
      (load_segment_page k p va mem (some seg)).2.mem = memset k.mem mem 0 PGSIZE) := by
  by_cases hlt : va - seg.va_start < seg.file_size
  · rw [load_segment_page_read k p va mem seg ip hip hmem hin hva hlt (himg hlt) hsize]
    refine ⟨rfl, ?_, ?_, ?_, ?_⟩
    · intro i hi
      simp only []
      rw [if_pos ⟨Nat.le_add_right mem i, Nat.add_lt_add_left hi mem⟩, Nat.add_sub_cancel_left]
    · intro i hi1 hi2
      simp only [memset]
      rw [if_neg (by omega), if_pos ⟨Nat.le_add_right mem i, Nat.add_lt_add_left hi2 mem⟩]
    · intro a ha
      have hmin : min (seg.file_size - (va - seg.va_start)) PGSIZE ≤ PGSIZE :=
        Nat.min_le_right _ _
      simp only [memset]
      rw [if_neg (by omega), if_neg ha]
    · intro hge
      omega
  · have hge : seg.file_size ≤ va - seg.va_start := Nat.le_of_not_lt hlt
    rw [load_segment_page_beyond k p va mem seg ip hip hmem hin hva hge]
    refine ⟨rfl, ?_, ?_, ?_, fun _ => rfl⟩
    · intro i hi
      omega
    · intro i _ hi2
      simp only [memset]
      rw [if_pos ⟨Nat.le_add_right mem i, Nat.add_lt_add_left hi2 mem⟩]
    · intro a ha
      simp only [memset]
      rw [if_neg ha]

/-- Claim C7 at the scenario of the spec: the text segment `[0, 0x1000)` with
`file_size` 0x200, faulted at `0x50`, yields a page whose first 0x200 bytes
equal the file content (from file offset 0x100 on) and whose remaining bytes
are zero. -/
theorem C7_load_segment_page_content_witness :
    (load_segment_page k_two p_two (PGROUNDDOWN 0x50) 0x80001000 (some seg_text)).1 = 0 ∧
    (∀ i, i < 0x200 →
      (load_segment_page k_two p_two (PGROUNDDOWN 0x50) 0x80001000 (some seg_text)).2.mem
          (0x80001000 + i) = image.data (0x100 + i)) ∧
    (∀ i, 0x200 ≤ i → i < 0x1000 →
      (load_segment_page k_two p_two (PGROUNDDOWN 0x50) 0x80001000 (some seg_text)).2.mem
          (0x80001000 + i) = 0) ∧
    (∀ a, ¬ (0x80001000 ≤ a ∧ a < 0x80001000 + PGSIZE) →
      (load_segment_page k_two p_two (PGROUNDDOWN 0x50) 0x80001000 (some seg_text)).2.mem a
        = k_two.mem a) ∧
    (seg_text.file_size ≤ PGROUNDDOWN 0x50 - seg_text.va_start →
      (load_segment_page k_two p_two (PGROUNDDOWN 0x50) 0x80001000 (some seg_text)).2.mem
        = memset k_two.mem 0x80001000 0 PGSIZE) :=
  C7_load_segment_page_content k_two p_two (PGROUNDDOWN 0x50) 0x80001000 seg_text image rfl
    (by decide) (by decide) (by decide) (by decide) (fun _ => by decide) (by decide)


/-! ## Eviction: `find_victim_page` and the kill paths -/

/-- Claim C11, evaluated on the code.  In the state after the pages at
addresses 0 and `0x1000` were touched, both pages are resident and the page at
address 0 has the lowest proxy sequence number, yet `find_victim_page` returns
the value 0, the very value it returns for a process without any resident
page; `demand_page_fault` reads that value as "no victim". -/
theorem C11_find_victim_page_zero_means_none :
    pte_valid (touch_01.p.pagetable.bind (fun pt => walk pt 0)) = true ∧
    pte_valid (touch_01.p.pagetable.bind (fun pt => walk pt 0x1000)) = true ∧
    get_page_seq touch_01.p 0 = 0 ∧ get_page_seq touch_01.p 0x1000 = 1 ∧
    find_victim_page touch_01.p = some 0 ∧
    (∀ n, n < 5 → pte_valid (p_two.pagetable.bind (fun pt => walk pt (n * PGSIZE))) = false) ∧
    find_victim_page p_two = some 0 ∧
    (demand_page_fault_alloc 8 touch_01.k touch_01.p Cause.stack 0x2000 0x2000).map
      (fun o => o.exit) = some Exit.no_victim := by
  decide

/-- Claim C12, evaluated on the code at its own scenario.  With the two free
frames of `k_two` and the pages at addresses 0, `0x1000`, `0x2000` touched in
this order, no frame is free at the third touch, two pages are resident and
every swap slot is free; the third touch evicts nothing: it returns 0 through
the "no victim" exit, the page at address 0 stays mapped, the page at `0x2000`
stays unmapped, no slot is allocated and `num_swapped` stays 0. -/
theorem C12_third_touch_evicts_nothing :
    touch_0.exit = Exit.resident ∧ touch_01.exit = Exit.resident ∧
    touch_01.k.freelist = [] ∧
    pte_valid (touch_01.p.pagetable.bind (fun pt => walk pt 0)) = true ∧
    (∀ i, i < 8 → touch_01.p.swap_slots i = 0) ∧
    get_fault_cause MAXVA_sv39 touch_01.p 0x2000 true false = Cause.stack ∧
    pte_valid (touch_01.p.pagetable.bind (fun pt => walk pt 0x2000)) = false ∧
    (demand_page_fault MAXVA_sv39 8 touch_01.k touch_01.p 0x2000 true false).map
        (fun o => (o.ret, o.exit, o.p.num_swapped, o.p.swap_file, o.p.swap_slots 0)) =
      some (0, Exit.no_victim, 0, false, 0) ∧
    (demand_page_fault MAXVA_sv39 8 touch_01.k touch_01.p 0x2000 true false).map
        (fun o => (pte_valid (o.p.pagetable.bind (fun pt => walk pt 0)),
          pte_valid (o.p.pagetable.bind (fun pt => walk pt 0x1000)),
          pte_valid (o.p.pagetable.bind (fun pt => walk pt 0x2000)))) =
      some (true, true, false) := by
  decide

/-- Claim C13, evaluated on the code.  The page `0x3000` was evicted by
`demand_page_fault` (it went to swap slot 0 and was unmapped, `num_swapped`
became 1).  A later read fault on `0x3000` with a free frame available
succeeds and leaves the page resident again, but `num_swapped` is still 1 and
swap slot 0 is still marked used: the handler fills the page as a fresh
zero-fill page and never calls `swap_in_page`. -/
theorem C13_fault_on_evicted_page_keeps_slot :
    heap_342.exit = Exit.resident ∧
    pte_valid (heap_34.p.pagetable.bind (fun pt => walk pt 0x3000)) = true ∧
    pte_valid (heap_342.p.pagetable.bind (fun pt => walk pt 0x3000)) = false ∧
    heap_34.p.num_swapped = 0 ∧ heap_342.p.num_swapped = 1 ∧
    heap_34.p.swap_slots 0 = 0 ∧ heap_342.p.swap_slots 0 = 1 ∧
    k_freed.freelist = [0x80005000] ∧
    (demand_page_fault MAXVA_sv39 8 k_freed heap_342.p 0x3000 false false).map
        (fun o => (o.ret, o.exit,
          pte_valid (o.p.pagetable.bind (fun pt => walk pt 0x3000)),
          o.p.num_swapped, o.p.swap_slots 0)) =
      some (0x3000, Exit.resident, true, 1, 1) := by
  decide

/-- Claim C14, evaluated on the code.  When no frame is free and
`find_victim_page` reports no victim, and likewise when `swap_out_page`
reports the swap pool exhausted (here a pool of capacity 0), the handler
returns its failure value 0 with the killed flag of the process still
clear. -/
theorem C14_failed_eviction_does_not_kill :
    touch_01.k.freelist = [] ∧ touch_01.p.killed = false ∧
    (demand_page_fault MAXVA_sv39 8 touch_01.k touch_01.p 0x2000 true false).map
        (fun o => (o.ret, o.exit, o.p.killed)) = some (0, Exit.no_victim, false) ∧
    heap_34.k.freelist = [] ∧ heap_34.p.killed = false ∧
    (demand_page_fault MAXVA_sv39 0 heap_34.k heap_34.p 0x2000 true false).map
        (fun o => (o.ret, o.exit, o.p.killed)) = some (0, Exit.swapout_failed, false) := by
  decide

/-! ## The swap pool (`swap.c`) -/

theorem swap_slot_is_used_of_lt (M : Nat) (p : Proc) (slot : Nat) (h : slot < M) :
    swap_slot_is_used M p (slot : Int) = p.swap_slots slot := by
  unfold swap_slot_is_used
  rw [if_neg (by omega)]
  simp

theorem swap_slot_set_used_of_lt (M : Nat) (p : Proc) (slot : Nat) (h : slot < M) :
    swap_slot_set_used M p (slot : Int) =
      { p with swap_slots := Function.update p.swap_slots slot 1 } := by
  unfold swap_slot_set_used
  rw [if_pos (by omega)]
  simp

theorem swap_alloc_slot_loop_spec (M : Nat) (p : Proc) :
    ∀ fuel slot, slot + fuel = M →
      (∃ i, slot ≤ i ∧ i < M ∧ p.swap_slots i = 0 ∧
          (∀ j, slot ≤ j → j < i → p.swap_slots j ≠ 0) ∧
          swap_alloc_slot_loop M p fuel slot =
            ((i : Int), { p with swap_slots := Function.update p.swap_slots i 1 })) ∨
      ((∀ j, slot ≤ j → j < M → p.swap_slots j ≠ 0) ∧
          swap_alloc_slot_loop M p fuel slot = (-1, p)) := by
  intro fuel
  induction fuel with
  | zero =>
    intro slot h
    exact Or.inr ⟨fun j h1 h2 => by omega, rfl⟩
  | succ n ih =>
    intro slot h
    have hlt : slot < M := by omega
    simp only [swap_alloc_slot_loop]
    rw [swap_slot_is_used_of_lt M p slot hlt]
    by_cases h0 : p.swap_slots slot = 0
    · rw [if_pos h0, swap_slot_set_used_of_lt M p slot hlt]
      exact Or.inl ⟨slot, le_refl _, hlt, h0, fun j h1 h2 => by omega, rfl⟩
    · rw [if_neg h0]
      rcases ih (slot + 1) (by omega) with ⟨i, h1, h2, h3, h4, h5⟩ | ⟨h1, h2⟩
      · refine Or.inl ⟨i, by omega, h2, h3, fun j hj1 hj2 => ?_, h5⟩
        by_cases hj : j = slot
        · rw [hj]; exact h0
        · exact h4 j (by omega) hj2
      · refine Or.inr ⟨fun j hj1 hj2 => ?_, h2⟩
        by_cases hj : j = slot
        · rw [hj]; exact h0
        · exact h1 j (by omega) hj2

theorem swap_alloc_slot_spec (M : Nat) (p : Proc) :
    (∃ i, i < M ∧ p.swap_slots i = 0 ∧ (∀ j, j < i → p.swap_slots j ≠ 0) ∧
        swap_alloc_slot M p =
          ((i : Int), { p with swap_slots := Function.update p.swap_slots i 1 })) ∨
    ((∀ j, j < M → p.swap_slots j ≠ 0) ∧ swap_alloc_slot M p = (-1, p)) := by
  unfold swap_alloc_slot
  rcases swap_alloc_slot_loop_spec M p M 0 (by omega) with ⟨i, _, h2, h3, h4, h5⟩ | ⟨h1, h2⟩
  · exact Or.inl ⟨i, h2, h3, fun j hj => h4 j (Nat.zero_le j) hj, h5⟩
  · exact Or.inr ⟨fun j hj => h1 j (Nat.zero_le j) hj, h2⟩

/-- Claim C15.  For every slot bitmap, `swap_alloc_slot` either returns the
smallest index `i` in `[0, MAX_SWAP_PAGES)` whose slot is free, marks exactly
that slot used and leaves every other slot (and every other field of the
process) unchanged, or, all `MAX_SWAP_PAGES` slots being in use, returns -1
with the process unchanged; it returns -1 if and only if all slots are in
use. -/
theorem C15_swap_alloc_slot_first_free (MAX_SWAP_PAGES : Nat) (p : Proc) :
    ((∃ i, i < MAX_SWAP_PAGES ∧ p.swap_slots i = 0 ∧ (∀ j, j < i → p.swap_slots j ≠ 0) ∧
        swap_alloc_slot MAX_SWAP_PAGES p =
          ((i : Int), { p with swap_slots := Function.update p.swap_slots i 1 }) ∧
        (swap_alloc_slot MAX_SWAP_PAGES p).2.swap_slots i = 1 ∧
        (∀ j, j ≠ i → (swap_alloc_slot MAX_SWAP_PAGES p).2.swap_slots j = p.swap_slots j)) ∨
     ((∀ j, j < MAX_SWAP_PAGES → p.swap_slots j ≠ 0) ∧
        swap_alloc_slot MAX_SWAP_PAGES p = (-1, p))) ∧
    ((swap_alloc_slot MAX_SWAP_PAGES p).1 = -1 ↔
      ∀ j, j < MAX_SWAP_PAGES → p.swap_slots j ≠ 0) := by
  rcases swap_alloc_slot_spec MAX_SWAP_PAGES p with ⟨i, h1, h2, h3, h4⟩ | ⟨h1, h2⟩
  · refine ⟨Or.inl ⟨i, h1, h2, h3, h4, ?_, ?_⟩, ?_⟩
    · rw [h4]
      exact Function.update_same _ _ _
    · intro j hj
      rw [h4]
      exact Function.update_noteq hj _ _
    · rw [h4]
      constructor
      · intro hneg
        have : (i : Int) = -1 := hneg
        omega
      · intro hall
        exact absurd h2 (hall i h1)
  · refine ⟨Or.inr ⟨h1, h2⟩, ?_⟩
    rw [h2]
    exact iff_of_true rfl h1

/-- The process on which `swap_out_page` allocates: `p` itself when the pool
is initialized, otherwise `p` as `swap_init` leaves it. -/
theorem swap_out_page_eq (M : Nat) (p : Proc) (va pa : Nat) :
    swap_out_page M p va pa =
      if (swap_alloc_slot M (if p.swap_file = true then p else (swap_init M p).2)).1 < 0 then
        (-1, (swap_alloc_slot M (if p.swap_file = true then p else (swap_init M p).2)).2)
      else
        ((swap_alloc_slot M (if p.swap_file = true then p else (swap_init M p).2)).1,
          { (swap_alloc_slot M (if p.swap_file = true then p else (swap_init M p).2)).2 with
              num_swapped :=
                (swap_alloc_slot M
                  (if p.swap_file = true then p else (swap_init M p).2)).2.num_swapped + 1 }) := by
  have h0 : (swap_init M p).1 = 0 := by
    unfold swap_init
    split <;> rfl
  unfold swap_out_page
  by_cases hf : p.swap_file = true
  · rw [if_pos hf, if_pos hf]
    exact if_neg (show ¬ ((0 : Int) < 0) by decide)
  · rw [if_neg hf, if_neg hf]
    simp only []
    rw [h0]
    exact if_neg (show ¬ ((0 : Int) < 0) by decide)

/-- Claim C16, as the code has it.  `swap_out_page` initializes the pool if it
was not initialized, which clears the bitmap and sets `num_swapped` to 0, and
then either returns the first slot index that is free in the pool as
initialized (free before the call when the pool was initialized already) and
marks it used, with `num_swapped` one greater than in the pool as initialized,
or, when every slot is in use, returns -1 and leaves the bitmap and
`num_swapped` as they were after the initialization. -/
theorem C16_swap_out_page_allocates_after_init (MAX_SWAP_PAGES : Nat) (p : Proc)
    (va pa : Nat) :
    ∃ p1, p1 = (if p.swap_file = true then p else (swap_init MAX_SWAP_PAGES p).2) ∧
      p1.swap_file = true ∧ (p.swap_file = true → p1 = p) ∧
      (p.swap_file = false →
        p1.num_swapped = 0 ∧ ∀ i, i < MAX_SWAP_PAGES → p1.swap_slots i = 0) ∧
      ((∃ i, i < MAX_SWAP_PAGES ∧ p1.swap_slots i = 0 ∧ (∀ j, j < i → p1.swap_slots j ≠ 0) ∧
          swap_out_page MAX_SWAP_PAGES p va pa =
            ((i : Int), { p1 with
                            swap_slots := Function.update p1.swap_slots i 1
                            num_swapped := p1.num_swapped + 1 })) ∨
       ((∀ j, j < MAX_SWAP_PAGES → p1.swap_slots j ≠ 0) ∧
          swap_out_page MAX_SWAP_PAGES p va pa = (-1, p1))) := by
  refine ⟨_, rfl, ?_, ?_, ?_, ?_⟩
  · by_cases hf : p.swap_file = true
    · rw [if_pos hf]; exact hf
    · rw [if_neg hf]
      unfold swap_init
      rw [if_neg hf]
  · intro hf
    rw [if_pos hf]
  · intro hf
    have hf2 : ¬ p.swap_file = true := by rw [hf]; decide
    have hinit : (swap_init MAX_SWAP_PAGES p).2 =
        { p with
            num_swapped := 0
            swap_slots := fun i => if i < MAX_SWAP_PAGES then 0 else p.swap_slots i
            swap_file := true } := by
      unfold swap_init
      rw [if_neg hf2]
    rw [if_neg hf2, hinit]
    exact ⟨rfl, fun i hi => if_pos hi⟩
  · rw [swap_out_page_eq]
    rcases swap_alloc_slot_spec MAX_SWAP_PAGES
        (if p.swap_file = true then p else (swap_init MAX_SWAP_PAGES p).2) with
      ⟨i, h1, h2, h3, h4⟩ | ⟨h1, h2⟩
    · refine Or.inl ⟨i, h1, h2, h3, ?_⟩
      rw [h4]
      exact if_neg (show ¬ ((i : Int) < 0) by omega)
    · refine Or.inr ⟨h1, ?_⟩
      rw [h2]
      exact if_pos (show ((-1 : Int) < 0) by decide)

/-- Claim C16 fails as stated.  With the pool marked uninitialized and the bit
of slot 0 still set (the state `kexec` leaves after an image that had a page
swapped out), `swap_out_page` returns slot 0, which was not free before the
call.  With the pool marked uninitialized and `num_swapped` equal to 3, it
leaves `num_swapped` equal to 1, not 4. -/
theorem C16_counterexample :
    p_stale.swap_file = false ∧ p_stale.swap_slots 0 ≠ 0 ∧
    (swap_out_page 8 p_stale 0x3000 0x80001000).1 = 0 ∧
    p_count3.swap_file = false ∧ p_count3.num_swapped = 3 ∧
    (swap_out_page 8 p_count3 0x3000 0x80001000).1 = 0 ∧
    (swap_out_page 8 p_count3 0x3000 0x80001000).2.num_swapped = 1 := by
  decide

/-- Claim C17.  `swap_in_page` succeeds (returns 0) if and only if the pool is
initialized, the slot index is in `[0, MAX_SWAP_PAGES)` and that slot is in
use.  On success the `PGSIZE` bytes of the target frame are all zero (the rest
of memory is unchanged), the slot is free, every other slot is unchanged and
`num_swapped` is one less than before.  On failure it returns -1 and changes
neither the process nor the kernel state, so neither the frame, the bitmap nor
`num_swapped`. -/
theorem C17_swap_in_page_contract (MAX_SWAP_PAGES : Nat) (k : Kernel) (p : Proc)
    (va pa : Nat) (slot : Int) :
    ((swap_in_page MAX_SWAP_PAGES k p va pa slot).1 = 0 ↔
      (p.swap_file = true ∧ 0 ≤ slot ∧ slot < (MAX_SWAP_PAGES : Int) ∧
        p.swap_slots slot.toNat ≠ 0)) ∧
    ((p.swap_file = true ∧ 0 ≤ slot ∧ slot < (MAX_SWAP_PAGES : Int) ∧
        p.swap_slots slot.toNat ≠ 0) →
      swap_in_page MAX_SWAP_PAGES k p va pa slot =
        (0, { p with
                swap_slots := Function.update p.swap_slots slot.toNat 0
                num_swapped := p.num_swapped - 1 },
            { k with mem := memset k.mem pa 0 PGSIZE }) ∧
      (∀ i, i < PGSIZE → (swap_in_page MAX_SWAP_PAGES k p va pa slot).2.2.mem (pa + i) = 0) ∧
      (∀ a, ¬ (pa ≤ a ∧ a < pa + PGSIZE) →
        (swap_in_page MAX_SWAP_PAGES k p va pa slot).2.2.mem a = k.mem a) ∧
      (swap_in_page MAX_SWAP_PAGES k p va pa slot).2.1.swap_slots slot.toNat = 0 ∧
      (∀ j, j ≠ slot.toNat →
        (swap_in_page MAX_SWAP_PAGES k p va pa slot).2.1.swap_slots j = p.swap_slots j) ∧
      (swap_in_page MAX_SWAP_PAGES k p va pa slot).2.1.num_swapped = p.num_swapped - 1) ∧
    (¬ (p.swap_file = true ∧ 0 ≤ slot ∧ slot < (MAX_SWAP_PAGES : Int) ∧
        p.swap_slots slot.toNat ≠ 0) →
      swap_in_page MAX_SWAP_PAGES k p va pa slot = (-1, p, k)) := by
  have hok : (p.swap_file = true ∧ 0 ≤ slot ∧ slot < (MAX_SWAP_PAGES : Int) ∧
        p.swap_slots slot.toNat ≠ 0) →
      swap_in_page MAX_SWAP_PAGES k p va pa slot =
        (0, { p with
                swap_slots := Function.update p.swap_slots slot.toNat 0
                num_swapped := p.num_swapped - 1 },
            { k with mem := memset k.mem pa 0 PGSIZE }) := by
    intro ⟨h1, h2, h3, h4⟩
    unfold swap_in_page swap_slot_is_used swap_slot_set_free
    have hg1 : ¬ (p.swap_file = false ∨ slot < 0 ∨ slot ≥ (MAX_SWAP_PAGES : Int)) := by
      rw [h1]
      intro hx
      rcases hx with hx | hx | hx
      · exact absurd hx (by decide)
      · omega
      · omega
    have hg2 : ¬ (slot < 0 ∨ slot ≥ (MAX_SWAP_PAGES : Int)) := by omega
    rw [if_neg hg1, if_neg hg2, if_neg h4, if_pos ⟨h2, h3⟩]
  have hfail : ¬ (p.swap_file = true ∧ 0 ≤ slot ∧ slot < (MAX_SWAP_PAGES : Int) ∧
        p.swap_slots slot.toNat ≠ 0) →
      swap_in_page MAX_SWAP_PAGES k p va pa slot = (-1, p, k) := by
    intro hn
    unfold swap_in_page swap_slot_is_used
    by_cases hg : p.swap_file = false ∨ slot < 0 ∨ slot ≥ (MAX_SWAP_PAGES : Int)
    · rw [if_pos hg]
    · rw [if_neg hg]
      have hr : ¬ (slot < 0 ∨ slot ≥ (MAX_SWAP_PAGES : Int)) := fun h => hg (Or.inr h)
      rw [if_neg hr]
      have hz : p.swap_slots slot.toNat = 0 := by
        by_contra hnz
        apply hn
        refine ⟨?_, by omega, by omega, hnz⟩
        cases hsf : p.swap_file
        · exact absurd (Or.inl hsf) hg
        · rfl
      rw [if_pos hz]
  refine ⟨?_, ?_, hfail⟩
  · constructor
    · intro h0
      by_contra hn
      rw [hfail hn] at h0
      exact absurd h0 (show ¬ ((-1 : Int) = 0) by decide)
    · intro hc
      rw [hok hc]
  · intro hc
    rw [hok hc]
    refine ⟨rfl, ?_, ?_, ?_, ?_, rfl⟩
    · intro i hi
      simp only [memset]
      rw [if_pos ⟨Nat.le_add_right pa i, Nat.add_lt_add_left hi pa⟩]
    · intro a ha
      simp only [memset]
      rw [if_neg ha]
    · exact Function.update_same _ _ _
    · intro j hj
      exact Function.update_noteq hj _ _

/-- Claim C18, as the code has it.  After `swap_cleanup`, `num_swapped` is 0
and the pool is marked uninitialized.  If the pool was initialized, every swap
slot of the process is free (the bitmap is all zero); if it was not, the
bitmap is left as it was, whatever it holds.  No other field of the process
changes. -/
theorem C18_swap_cleanup_result (MAX_SWAP_PAGES : Nat) (p : Proc) :
    (swap_cleanup MAX_SWAP_PAGES p).num_swapped = 0 ∧
    (swap_cleanup MAX_SWAP_PAGES p).swap_file = false ∧
    (p.swap_file = true →
      ∀ i, i < MAX_SWAP_PAGES → (swap_cleanup MAX_SWAP_PAGES p).swap_slots i = 0) ∧
    (p.swap_file = false → (swap_cleanup MAX_SWAP_PAGES p).swap_slots = p.swap_slots) ∧
    swap_frame p (swap_cleanup MAX_SWAP_PAGES p) := by
  unfold swap_cleanup
  by_cases hf : p.swap_file = true
  · rw [if_pos hf]
    exact ⟨rfl, rfl, fun _ i hi => if_pos hi, fun h => absurd hf (by rw [h]; decide), rfl⟩
  · rw [if_neg hf]
    have hff : p.swap_file = false := by
      cases h : p.swap_file
      · rfl
      · exact absurd h hf
    exact ⟨rfl, hff, fun h => absurd h hf, fun _ => rfl, rfl⟩

/-- Claim C18 fails as stated: with the pool marked uninitialized and the bit
of slot 0 still set (the state `kexec` leaves after an image that had a page
swapped out), `swap_cleanup` leaves the bit of slot 0 set. -/
theorem C18_counterexample :
    p_stale.swap_file = false ∧ p_stale.swap_slots 0 = 1 ∧
    (swap_cleanup 8 p_stale).swap_slots 0 = 1 ∧
    (swap_cleanup 8 p_stale).num_swapped = 0 ∧
    (swap_cleanup 8 p_stale).swap_file = false := by
  decide

/-! ## The program loader (`kexec`) -/

theorem array_set_getD (l : List Segment) (i : Nat) (s : Segment) (j : Nat) :
    (array_set l i s).getD j default = if j = i then s else l.getD j default := by
  induction l generalizing i j with
  | nil =>
    induction i generalizing j with
    | zero =>
      cases j with
      | zero => simp [array_set]
      | succ j => simp [array_set]
    | succ i ih =>
      cases j with
      | zero => simp [array_set]
      | succ j =>
        have := ih j
        simp only [array_set, List.getD_cons_succ, this]
        by_cases h : j = i
        · simp [h]
        · simp [h]
  | cons a l ih =>
    cases i with
    | zero =>
      cases j with
      | zero => simp [array_set]
      | succ j => simp [array_set]
    | succ i =>
      cases j with
      | zero => simp [array_set]
      | succ j =>
        have := ih i j
        simp only [array_set, List.getD_cons_succ, this]
        by_cases h : j = i
        · simp [h]
        · simp [h]

theorem segment_of_ok (h : ProgHdr) (hv : h.vaddr < 2 ^ 64) (hm : h.memsz < 2 ^ 64)
    (h1 : ¬ h.memsz < h.filesz) (h2 : ¬ add64 h.vaddr h.memsz < h.vaddr)
    (h3 : ¬ h.vaddr % PGSIZE ≠ 0) : seg_ok (segment_of h) := by
  unfold add64 at h2
  unfold seg_ok segment_of add64
  simp only []
  refine ⟨by omega, by omega, ?_, ?_⟩ <;> omega

theorem kexec_loop_recorded_ok (M : Nat) :
    ∀ (hs : List (Option ProgHdr)) (segs : List Segment) (n sz : Nat),
      (∀ x, x ∈ hs → hdr_typed x) →
      (∀ i, i < n → seg_ok (segs.getD i default)) →
      ∀ i, i < (kexec_loop M hs segs n sz).num_segments →
        seg_ok ((kexec_loop M hs segs n sz).segments.getD i default) := by
  intro hs
  induction hs with
  | nil =>
    intro segs n sz _ hok i hi
    exact hok i hi
  | cons x rest ih =>
    intro segs n sz hty hok
    have hty2 : ∀ y, y ∈ rest → hdr_typed y := fun y hy => hty y (List.mem_cons_of_mem x hy)
    cases x with
    | none =>
      intro i hi
      exact hok i hi
    | some ph =>
      have htp : ph.vaddr < 2 ^ 64 ∧ ph.memsz < 2 ^ 64 := hty (some ph) (List.mem_cons_self _ _)
      simp only [kexec_loop]
      by_cases ht : ph.type ≠ ELF_PROG_LOAD
      · rw [if_pos ht]
        exact ih segs n sz hty2 hok
      · rw [if_neg ht]
        by_cases h1 : ph.memsz < ph.filesz
        · rw [if_pos h1]
          exact hok
        · rw [if_neg h1]
          by_cases h2 : add64 ph.vaddr ph.memsz < ph.vaddr
          · rw [if_pos h2]
            exact hok
          · rw [if_neg h2]
            by_cases h3 : ph.vaddr % PGSIZE ≠ 0
            · rw [if_pos h3]
              exact hok
            · rw [if_neg h3]
              apply ih _ _ _ hty2
              intro i hi
              by_cases hn : n < M
              · rw [if_pos hn] at hi
                rw [if_pos hn, array_set_getD]
                by_cases hin : i = n
                · rw [if_pos hin]
                  exact segment_of_ok ph htp.1 htp.2 h1 h2 h3
                · rw [if_neg hin]
                  exact hok i (by omega)
              · rw [if_neg hn] at hi
                rw [if_neg hn]
                exact hok i hi

theorem kexec_loop_bad_of_violation (M : Nat) :
    ∀ (hs : List (Option ProgHdr)) (segs : List Segment) (n sz : Nat),
      (∀ x, x ∈ hs → hdr_typed x) →
      (∃ h, some h ∈ hs ∧ h.type = ELF_PROG_LOAD ∧ hdr_violates h) →
      (kexec_loop M hs segs n sz).bad = true := by
  intro hs
  induction hs with
  | nil =>
    intro segs n sz _ hex
    obtain ⟨h, hm, _⟩ := hex
    exact absurd hm (List.not_mem_nil _)
  | cons x rest ih =>
    intro segs n sz hty hex
    have hty2 : ∀ y, y ∈ rest → hdr_typed y := fun y hy => hty y (List.mem_cons_of_mem x hy)
    cases x with
    | none => rfl
    | some ph =>
      have htp : ph.vaddr < 2 ^ 64 ∧ ph.memsz < 2 ^ 64 := hty (some ph) (List.mem_cons_self _ _)
      obtain ⟨h, hm, hload, hviol⟩ := hex
      simp only [kexec_loop]
      by_cases ht : ph.type ≠ ELF_PROG_LOAD
      · rw [if_pos ht]
        rcases List.mem_cons.mp hm with heq | hin
        · cases heq
          exact absurd hload ht
        · exact ih segs n sz hty2 ⟨h, hin, hload, hviol⟩
      · rw [if_neg ht]
        by_cases h1 : ph.memsz < ph.filesz
        · rw [if_pos h1]
        · rw [if_neg h1]
          by_cases h2 : add64 ph.vaddr ph.memsz < ph.vaddr
          · rw [if_pos h2]
          · rw [if_neg h2]
            by_cases h3 : ph.vaddr % PGSIZE ≠ 0
            · rw [if_pos h3]
            · rw [if_neg h3]
              rcases List.mem_cons.mp hm with heq | hin
              · cases heq
                exfalso
                unfold hdr_violates at hviol
                unfold add64 at h2
                rcases hviol with hv | hv | hv
                · exact h1 hv
                · omega
                · exact h3 hv
              · exact ih _ _ _ hty2 ⟨h, hin, hload, hviol⟩

theorem kexec_run (M U : Nat) (f : ElfFile) (env : ExecEnv) (p : Proc) (elf : ElfHdr)
    (pt : PageTable) (frame argc sp : Nat) (hfe : f.elf = some elf)
    (hmag : elf.magic = ELF_MAGIC) (hpt : env.proc_pagetable = some pt)
    (hb : (kexec_loop M f.ph p.segments 0 0).bad = false)
    (hu : env.uvmalloc = some frame) (ha : env.args = some (argc, sp)) :
    kexec M U (some f) env p =
      ((argc : Int),
        { p with
            segments := (kexec_loop M f.ph p.segments 0 0).segments
            num_segments := (kexec_loop M f.ph p.segments 0 0).num_segments
            num_resident := 0
            next_seq := 0
            num_swapped := 0
            swap_file := false
            exec_inode := some f.ip
            heap_start := PGROUNDUP (kexec_loop M f.ph p.segments 0 0).sz
            pagetable := some (mappages pt (PGROUNDUP (kexec_loop M f.ph p.segments 0 0).sz)
              frame (PTE_U ||| PTE_W ||| PTE_R))
            sz := add64 (PGROUNDUP (kexec_loop M f.ph p.segments 0 0).sz)
              ((U + 1) * PGSIZE) }) := by
  unfold kexec
  simp only [hfe, hmag, hpt, hb, hu, ha, ne_eq, not_true_eq_false, if_false,
    Bool.false_eq_true]

theorem kexec_bad (M U : Nat) (f : ElfFile) (env : ExecEnv) (p : Proc)
    (hbad : (kexec_loop M f.ph p.segments 0 0).bad = true) :
    (kexec M U (some f) env p).1 = -1 := by
  cases hfe : f.elf with
  | none =>
    unfold kexec
    simp only [hfe]
  | some elf =>
    by_cases hmag : elf.magic ≠ ELF_MAGIC
    · unfold kexec
      simp only [hfe, if_pos hmag]
    · cases hpt : env.proc_pagetable with
      | none =>
        unfold kexec
        simp only [hfe, if_neg hmag, hpt]
      | some pt =>
        unfold kexec
        simp only [hfe, if_neg hmag, hpt, hbad, if_true]

theorem kexec_success (M U : Nat) (f : ElfFile) (env : ExecEnv) (p : Proc)
    (h : (kexec M U (some f) env p).1 ≠ -1) :
    (kexec M U (some f) env p).2.segments = (kexec_loop M f.ph p.segments 0 0).segments ∧
    (kexec M U (some f) env p).2.num_segments =
      (kexec_loop M f.ph p.segments 0 0).num_segments := by
  cases hfe : f.elf with
  | none =>
    exfalso; apply h
    unfold kexec
    simp only [hfe]
  | some elf =>
    by_cases hmag : elf.magic ≠ ELF_MAGIC
    · exfalso; apply h
      unfold kexec
      simp only [hfe, if_pos hmag]
    · cases hpt : env.proc_pagetable with
      | none =>
        exfalso; apply h
        unfold kexec
        simp only [hfe, if_neg hmag, hpt]
      | some pt =>
        cases hb : (kexec_loop M f.ph p.segments 0 0).bad with
        | true => exact absurd (kexec_bad M U f env p hb) h
        | false =>
          cases hu : env.uvmalloc with
          | none =>
            exfalso; apply h
            unfold kexec
            simp only [hfe, if_neg hmag, hpt, hb, hu, Bool.false_eq_true, if_false]
          | some frame =>
            cases ha : env.args with
            | none =>
              exfalso; apply h
              unfold kexec
              simp only [hfe, if_neg hmag, hpt, hb, hu, ha, Bool.false_eq_true, if_false]
            | some a =>
              obtain ⟨argc, sp⟩ := a
              rw [kexec_run M U f env p elf pt frame argc sp hfe (not_not.mp hmag) hpt hb hu ha]
              exact ⟨rfl, rfl⟩

/-- Claim C19.  For an executable image whose program headers hold `uint64`
values, every Segment recorded by the header loop of `kexec` satisfies
`file_size <= mem_size`, `va_start` is a multiple of `PGSIZE`, and
`va_end = va_start + mem_size` without 64-bit wrap-around
(`va_start <= va_end`); the same holds for the segments of the process after a
successful `kexec`; and any loadable header that violates one of the three
checks makes `kexec` return -1. -/
theorem C19_recorded_segments_pass_checks (MAX_SEGMENTS USERSTACK : Nat) (f : ElfFile)
    (env : ExecEnv) (p : Proc) (hty : ∀ x, x ∈ f.ph → hdr_typed x) :
    (∀ i, i < (kexec_loop MAX_SEGMENTS f.ph p.segments 0 0).num_segments →
      seg_ok ((kexec_loop MAX_SEGMENTS f.ph p.segments 0 0).segments.getD i default)) ∧
    ((kexec MAX_SEGMENTS USERSTACK (some f) env p).1 ≠ -1 →
      ∀ i, i < (kexec MAX_SEGMENTS USERSTACK (some f) env p).2.num_segments →
        seg_ok (seg_at (kexec MAX_SEGMENTS USERSTACK (some f) env p).2 i)) ∧
    (∀ h, some h ∈ f.ph → h.type = ELF_PROG_LOAD → hdr_violates h →
      (kexec MAX_SEGMENTS USERSTACK (some f) env p).1 = -1) := by
  have hrec := kexec_loop_recorded_ok MAX_SEGMENTS f.ph p.segments 0 0 hty
    (fun i hi => absurd hi (Nat.not_lt_zero i))
  refine ⟨hrec, ?_, ?_⟩
  · intro hs i hi
    have hk := kexec_success MAX_SEGMENTS USERSTACK f env p hs
    unfold seg_at
    rw [hk.1]
    rw [hk.2] at hi
    exact hrec i hi
  · intro h hm hl hv
    exact kexec_bad MAX_SEGMENTS USERSTACK f env p
      (kexec_loop_bad_of_violation MAX_SEGMENTS f.ph p.segments 0 0 hty ⟨h, hm, hl, hv⟩)

/-- Claim C19 at an executable with two loadable headers, loaded with a
segment table of capacity 4. -/
theorem C19_recorded_segments_pass_checks_witness :
    (∀ i, i < (kexec_loop 4 elf_two.ph p_noseg.segments 0 0).num_segments →
      seg_ok ((kexec_loop 4 elf_two.ph p_noseg.segments 0 0).segments.getD i default)) ∧
    ((kexec 4 1 (some elf_two) env_ok p_noseg).1 ≠ -1 →
      ∀ i, i < (kexec 4 1 (some elf_two) env_ok p_noseg).2.num_segments →
        seg_ok (seg_at (kexec 4 1 (some elf_two) env_ok p_noseg).2 i)) ∧
    (∀ h, some h ∈ elf_two.ph → h.type = ELF_PROG_LOAD → hdr_violates h →
      (kexec 4 1 (some elf_two) env_ok p_noseg).1 = -1) :=
  C19_recorded_segments_pass_checks 4 1 elf_two env_ok p_noseg (by decide)

theorem kexec_loop_truncates (M : Nat) :
    ∀ (hs : List (Option ProgHdr)) (segs : List Segment) (n sz : Nat),
      (∀ x, x ∈ hs → hdr_valid x) → n ≤ M →
      (kexec_loop M hs segs n sz).bad = false ∧
      (kexec_loop M hs segs n sz).num_segments = min (n + (loadable hs).length) M ∧
      (∀ i, i < n → (kexec_loop M hs segs n sz).segments.getD i default =
        segs.getD i default) ∧
      (∀ j h, (loadable hs)[j]? = some h → n + j < M →
        (kexec_loop M hs segs n sz).segments.getD (n + j) default = segment_of h) := by
  intro hs
  induction hs with
  | nil =>
    intro segs n sz _ hn
    refine ⟨rfl, ?_, fun _ _ => rfl, ?_⟩
    · simp only [kexec_loop, loadable, List.length_nil]
      omega
    · intro j h hj
      simp [loadable] at hj
  | cons x rest ih =>
    intro segs n sz hval hn
    have hval2 : ∀ y, y ∈ rest → hdr_valid y :=
      fun y hy => hval y (List.mem_cons_of_mem x hy)
    cases x with
    | none => exact absurd (hval none (List.mem_cons_self _ _)) (fun h => h)
    | some ph =>
      have hv : ph.type = ELF_PROG_LOAD →
          ¬ ph.memsz < ph.filesz ∧ ¬ add64 ph.vaddr ph.memsz < ph.vaddr ∧
            ph.vaddr % PGSIZE = 0 := hval (some ph) (List.mem_cons_self _ _)
      by_cases ht : ph.type = ELF_PROG_LOAD
      · obtain ⟨h1, h2, h3⟩ := hv ht
        have hstep : kexec_loop M (some ph :: rest) segs n sz =
            kexec_loop M rest
              (if n < M then array_set segs n (segment_of ph) else segs)
              (if n < M then n + 1 else n)
              (if add64 ph.vaddr ph.memsz > sz then add64 ph.vaddr ph.memsz else sz) := by
          simp only [kexec_loop]
          rw [if_neg (not_not.mpr ht), if_neg h1, if_neg h2, if_neg (not_not.mpr h3)]
        have hload : loadable (some ph :: rest) = ph :: loadable rest := by
          simp only [loadable]
          rw [if_pos ht]
        rw [hstep, hload]
        by_cases hlt : n < M
        · simp only [if_pos hlt]
          obtain ⟨i1, i2, i3, i4⟩ := ih (array_set segs n (segment_of ph)) (n + 1)
            (if add64 ph.vaddr ph.memsz > sz then add64 ph.vaddr ph.memsz else sz) hval2
            (by omega)
          refine ⟨i1, ?_, ?_, ?_⟩
          · rw [i2, List.length_cons]
            omega
          · intro i hi
            rw [i3 i (by omega), array_set_getD, if_neg (by omega)]
          · intro j h hj hjm
            cases j with
            | zero =>
              simp only [List.getElem?_cons_zero, Option.some.injEq] at hj
              subst hj
              have e := i3 n (by omega)
              rw [array_set_getD, if_pos rfl] at e
              exact e
            | succ j =>
              simp only [List.getElem?_cons_succ] at hj
              have := i4 j h hj (by omega)
              rw [show n + (j + 1) = n + 1 + j by omega]
              exact this
        · simp only [if_neg hlt]
          obtain ⟨i1, i2, i3, _⟩ := ih segs n
            (if add64 ph.vaddr ph.memsz > sz then add64 ph.vaddr ph.memsz else sz) hval2 hn
          refine ⟨i1, ?_, i3, ?_⟩
          · rw [i2, List.length_cons]
            omega
          · intro j h _ hjm
            omega
      · have hstep : kexec_loop M (some ph :: rest) segs n sz = kexec_loop M rest segs n sz := by
          simp only [kexec_loop]
          rw [if_pos ht]
        have hload : loadable (some ph :: rest) = loadable rest := by
          simp only [loadable]
          rw [if_neg ht]
        rw [hstep, hload]
        exact ih segs n sz hval2 hn

/-- Claim C20, as the code has it.  For an executable image whose program
headers are all read and whose loadable headers all pass the three checks,
`kexec` does not fail on account of the number of loadable headers: when the
remaining steps succeed it returns `argc` (not -1), having recorded the first
`MAX_SEGMENTS` loadable headers, in file order, and no more; with more
loadable headers than `MAX_SEGMENTS` the process is left with exactly
`MAX_SEGMENTS` segments. -/
theorem C20_kexec_truncates_segment_table (MAX_SEGMENTS USERSTACK : Nat) (f : ElfFile)
    (env : ExecEnv) (p : Proc) (elf : ElfHdr) (pt : PageTable) (frame argc sp : Nat)
    (hfe : f.elf = some elf) (hmag : elf.magic = ELF_MAGIC)
    (hval : ∀ x, x ∈ f.ph → hdr_valid x)
    (hpt : env.proc_pagetable = some pt) (hu : env.uvmalloc = some frame)
    (ha : env.args = some (argc, sp)) :
    (kexec MAX_SEGMENTS USERSTACK (some f) env p).1 = (argc : Int) ∧
    (kexec MAX_SEGMENTS USERSTACK (some f) env p).1 ≠ -1 ∧
    (kexec MAX_SEGMENTS USERSTACK (some f) env p).2.num_segments =
      min (loadable f.ph).length MAX_SEGMENTS ∧
    (∀ j h, (loadable f.ph)[j]? = some h → j < MAX_SEGMENTS →
      seg_at (kexec MAX_SEGMENTS USERSTACK (some f) env p).2 j = segment_of h) ∧
    (MAX_SEGMENTS < (loadable f.ph).length →
      (kexec MAX_SEGMENTS USERSTACK (some f) env p).2.num_segments = MAX_SEGMENTS) := by
  obtain ⟨l1, l2, _, l4⟩ :=
    kexec_loop_truncates MAX_SEGMENTS f.ph p.segments 0 0 hval (Nat.zero_le _)
  rw [kexec_run MAX_SEGMENTS USERSTACK f env p elf pt frame argc sp hfe hmag hpt l1 hu ha]
  refine ⟨rfl, ?_, ?_, ?_, ?_⟩
  · show (argc : Int) ≠ -1
    omega
  · show (kexec_loop MAX_SEGMENTS f.ph p.segments 0 0).num_segments = _
    rw [l2, Nat.zero_add]
  · intro j h hj hjm
    have := l4 j h hj (by omega)
    rw [Nat.zero_add] at this
    exact this
  · intro hmore
    show (kexec_loop MAX_SEGMENTS f.ph p.segments 0 0).num_segments = _
    rw [l2, Nat.zero_add]
    omega

/-- The amended claim C20 at an executable with three loadable headers and a
segment table of capacity 2. -/
theorem C20_kexec_truncates_segment_table_witness :
    (kexec 2 1 (some elf_three) env_ok p_noseg).1 = ((1 : Nat) : Int) ∧
    (kexec 2 1 (some elf_three) env_ok p_noseg).1 ≠ -1 ∧
    (kexec 2 1 (some elf_three) env_ok p_noseg).2.num_segments =
      min (loadable elf_three.ph).length 2 ∧
    (∀ j h, (loadable elf_three.ph)[j]? = some h → j < 2 →
      seg_at (kexec 2 1 (some elf_three) env_ok p_noseg).2 j = segment_of h) ∧
    (2 < (loadable elf_three.ph).length →
      (kexec 2 1 (some elf_three) env_ok p_noseg).2.num_segments = 2) :=
  C20_kexec_truncates_segment_table 2 1 elf_three env_ok p_noseg
    { magic := ELF_MAGIC, entry := 0 } pt_empty 0x80009000 1 0x3FF0 rfl rfl (by decide)
    rfl rfl rfl

/-- Claim C20 fails as stated: an image with three loadable headers, all
well-formed, loaded into a segment table of capacity 2, makes `kexec` return
`argc = 1` and not -1; the process is left with the first two segments
recorded. -/
theorem C20_counterexample :
    (loadable elf_three.ph).length = 3 ∧
    (kexec 2 1 (some elf_three) env_ok p_noseg).1 = 1 ∧
    (kexec 2 1 (some elf_three) env_ok p_noseg).1 ≠ -1 ∧
    (kexec 2 1 (some elf_three) env_ok p_noseg).2.num_segments = 2 ∧
    (kexec 2 1 (some elf_three) env_ok p_noseg).2.segments =
      [⟨0, 0x1000, 0x100, 0x200, 0x1000, 5⟩, ⟨0x1000, 0x2000, 0x1000, 0x1000, 0x1000, 6⟩] := by
  decide

/-! ## `demand_page_fault_with_pagetable` -/

theorem PGROUNDDOWN_zero : PGROUNDDOWN 0 = 0 := by decide

theorem PGROUNDDOWN_idem (a : Nat) : PGROUNDDOWN (PGROUNDDOWN a) = PGROUNDDOWN a := by
  unfold PGROUNDDOWN PGSIZE
  omega

theorem round_ret_fill (k : Kernel) (p : Proc) (cause : Cause) (ova va mem : Nat) :
    round_ret (demand_page_fault_fill k p cause ova va mem) =
      demand_page_fault_fill k p cause (PGROUNDDOWN ova) va mem := by
  unfold demand_page_fault_fill round_ret
  simp only []
  split
  · rename_i o heq
    split at heq
    · split at heq
      · split at heq
        · cases heq; simp only [PGROUNDDOWN_zero]
        · cases heq
      · cases heq; simp only [PGROUNDDOWN_zero]
    · split at heq
      · cases heq
      · cases heq; simp only [PGROUNDDOWN_zero]
  · split
    · simp only [PGROUNDDOWN_zero]
    · rfl

theorem with_pagetable_fill_self (k : Kernel) (p : Proc) (cause : Cause) (va mem : Nat) :
    demand_page_fault_with_pagetable_fill k p TableRef.proc_table cause va mem =
      (demand_page_fault_fill k p cause va va mem, TableRef.proc_table) := by
  unfold demand_page_fault_with_pagetable_fill demand_page_fault_fill table_update
  simp only []
  split
  · rfl
  · split
    · rfl
    · rfl

theorem with_pagetable_alloc_self (M : Nat) (k : Kernel) (p : Proc) (cause : Cause)
    (va : Nat) :
    demand_page_fault_with_pagetable_alloc M k p TableRef.proc_table cause va =
      (demand_page_fault_alloc M k p cause va va).map (fun o => (o, TableRef.proc_table)) := by
  unfold demand_page_fault_with_pagetable_alloc demand_page_fault_alloc
  simp only [with_pagetable_fill_self]
  split
  · rfl
  · split
    · rfl
    · split
      · rfl
      · split
        · rfl
        · split
          · rfl
          · split
            · rfl
            · rfl

theorem round_ret_alloc (M : Nat) (k : Kernel) (p : Proc) (cause : Cause) (ova va : Nat) :
    (demand_page_fault_alloc M k p cause ova va).map round_ret =
      demand_page_fault_alloc M k p cause (PGROUNDDOWN ova) va := by
  unfold demand_page_fault_alloc
  simp only []
  split
  · simp only [Option.map_some', round_ret_fill]
  · split
    · rfl
    · split
      · simp only [Option.map_some', round_ret, PGROUNDDOWN_zero]
      · split
        · simp only [Option.map_some', round_ret, PGROUNDDOWN_zero]
        · split
          · simp only [Option.map_some', round_ret, PGROUNDDOWN_zero]
          · split
            · simp only [Option.map_some', round_ret, PGROUNDDOWN_zero]
            · simp only [Option.map_some', round_ret_fill]

/-- Claim C29.  For every process `p` and every fault, the call of
`demand_page_fault_with_pagetable` with `pagetable = p->pagetable` returns
exactly when `demand_page_fault` does, through the same exit and with the same
final process and kernel state (page table, frames, swap bitmap, counters,
killed flag); its return value is the return value of `demand_page_fault`
rounded down to a page boundary, and the argument still is `p->pagetable`. -/
theorem C29_with_pagetable_refines (MAXVA MAX_SWAP_PAGES : Nat) (k : Kernel) (p : Proc)
    (va : Nat) (is_write is_exec : Bool) :
    demand_page_fault_with_pagetable MAXVA MAX_SWAP_PAGES k p TableRef.proc_table va
        is_write is_exec =
      (demand_page_fault MAXVA MAX_SWAP_PAGES k p va is_write is_exec).map
        (fun o => ({ o with ret := PGROUNDDOWN o.ret }, TableRef.proc_table)) := by
  have hmap : ∀ r : Option Outcome,
      r.map (fun o => (({ o with ret := PGROUNDDOWN o.ret } : Outcome), TableRef.proc_table)) =
        (r.map round_ret).map (fun o => (o, TableRef.proc_table)) := by
    intro r
    cases r <;> rfl
  rw [hmap]
  unfold demand_page_fault_with_pagetable demand_page_fault table_get
  simp only []
  cases hpt : p.pagetable with
  | none => simp only [Option.map_some', round_ret, PGROUNDDOWN_zero]
  | some pt =>
    simp only []
    split
    · simp only [Option.map_some', round_ret, PGROUNDDOWN_zero]
    · split
      · split
        · split
          · simp only [Option.map_some', round_ret, table_update, hpt]
          · simp only [Option.map_some', round_ret]
        · rw [with_pagetable_alloc_self, round_ret_alloc]
      · rw [with_pagetable_alloc_self, round_ret_alloc]

/-! ## Return value and frames of `demand_page_fault` -/

theorem demand_page_fault_alloc_ret (M : Nat) (k : Kernel) (p : Proc) (cause : Cause)
    (ova va : Nat) (o : Outcome)
    (h : demand_page_fault_alloc M k p cause ova va = some o) :
    (o.exit = Exit.resident ∧ o.ret = ova) ∨ (¬ resolved o ∧ o.ret = 0) := by
  unfold resolved
  rcases demand_page_fault_alloc_inv M k p cause ova va o h with
    ⟨hr, hx⟩ | ⟨mem, _, rfl⟩ | ⟨vv, vp, _, _, rfl⟩
  · refine Or.inr ⟨?_, hr⟩
    rcases hx with hx | hx | hx <;> rw [hx] <;> decide
  · rcases demand_page_fault_fill_exit (kalloc k).2 p cause ova va mem with
      ⟨h1, h2, _⟩ | ⟨h1, _, hx⟩
    · exact Or.inl ⟨h1, h2⟩
    · refine Or.inr ⟨?_, h1⟩
      rcases hx with hx | hx | hx | hx <;> rw [hx] <;> decide
  · rcases demand_page_fault_fill_exit (kalloc k).2 _ cause ova va (PTE2PA vp) with
      ⟨h1, h2, _⟩ | ⟨h1, _, hx⟩
    · exact Or.inl ⟨h1, h2⟩
    · refine Or.inr ⟨?_, h1⟩
      rcases hx with hx | hx | hx | hx <;> rw [hx] <;> decide

theorem demand_page_fault_ret (MAXVA M : Nat) (k : Kernel) (p : Proc) (va : Nat)
    (is_write is_exec : Bool) (o : Outcome)
    (h : demand_page_fault MAXVA M k p va is_write is_exec = some o) :
    (resolved o ∧ o.ret = va) ∨ (¬ resolved o ∧ o.ret = 0) := by
  rcases demand_page_fault_inv MAXVA M k p va is_write is_exec o h with
    ⟨hr, _, hx⟩ | ⟨hr, hx⟩ | ⟨hr, hx⟩ | ⟨hr, _, hx⟩ | ⟨pt, _, ha⟩
  · refine Or.inr ⟨?_, hr⟩
    unfold resolved
    rw [hx]; decide
  · refine Or.inr ⟨?_, hr⟩
    unfold resolved
    rw [hx]; decide
  · exact Or.inl ⟨Or.inr (Or.inl hx), hr⟩
  · exact Or.inl ⟨Or.inr (Or.inr hx), hr⟩
  · rcases demand_page_fault_alloc_ret M k p _ va _ o ha with ⟨h1, h2⟩ | h2
    · exact Or.inl ⟨Or.inl h1, h2⟩
    · exact Or.inr h2

/-- Claim C30.  For a faulting address other than 0, `demand_page_fault`
returns 0 if and only if the fault was not resolved (kill or failure path) and
a non-zero value if and only if it was resolved; a resolved fault returns the
faulting address, so for the faulting address 0 a resolved fault returns 0 as
well, the value of every failure path. -/
theorem C30_zero_return_is_ambiguous_at_zero (MAXVA MAX_SWAP_PAGES : Nat) (k : Kernel)
    (p : Proc) (va : Nat) (is_write is_exec : Bool) (o : Outcome)
    (h : demand_page_fault MAXVA MAX_SWAP_PAGES k p va is_write is_exec = some o) :
    (va ≠ 0 → ((o.ret = 0 ↔ ¬ resolved o) ∧ (o.ret ≠ 0 ↔ resolved o))) ∧
    (resolved o → o.ret = va) ∧ (¬ resolved o → o.ret = 0) ∧
    (va = 0 → o.ret = 0) := by
  rcases demand_page_fault_ret MAXVA MAX_SWAP_PAGES k p va is_write is_exec o h with
    ⟨h1, h2⟩ | ⟨h1, h2⟩
  · refine ⟨fun hva => ⟨?_, ?_⟩, fun _ => h2, fun hn => absurd h1 hn, fun h0 => by rw [h2, h0]⟩
    · exact iff_of_false (by rw [h2]; exact hva) (fun hn => hn h1)
    · exact iff_of_true (by rw [h2]; exact hva) h1
  · refine ⟨fun _ => ⟨?_, ?_⟩, fun hr => absurd hr h1, fun _ => h2, fun _ => h2⟩
    · exact iff_of_true h2 h1
    · exact iff_of_false (fun hn => hn h2) h1

/-- Claim C30 at the first instruction fetch of the text segment that starts
at address 0: the fault is resolved and the handler returns 0. -/
theorem C30_zero_return_is_ambiguous_at_zero_witness :
    (0 ≠ 0 → (((returned (demand_page_fault MAXVA_sv39 8 k_two p_two 0 false true)
        (by decide)).ret = 0 ↔
          ¬ resolved (returned (demand_page_fault MAXVA_sv39 8 k_two p_two 0 false true)
            (by decide))) ∧
      ((returned (demand_page_fault MAXVA_sv39 8 k_two p_two 0 false true)
        (by decide)).ret ≠ 0 ↔
          resolved (returned (demand_page_fault MAXVA_sv39 8 k_two p_two 0 false true)
            (by decide))))) ∧
    (resolved (returned (demand_page_fault MAXVA_sv39 8 k_two p_two 0 false true)
        (by decide)) →
      (returned (demand_page_fault MAXVA_sv39 8 k_two p_two 0 false true)
        (by decide)).ret = 0) ∧
    (¬ resolved (returned (demand_page_fault MAXVA_sv39 8 k_two p_two 0 false true)
        (by decide)) →
      (returned (demand_page_fault MAXVA_sv39 8 k_two p_two 0 false true)
        (by decide)).ret = 0) ∧
    (0 = 0 → (returned (demand_page_fault MAXVA_sv39 8 k_two p_two 0 false true)
        (by decide)).ret = 0) :=
  C30_zero_return_is_ambiguous_at_zero MAXVA_sv39 8 k_two p_two 0 false true _
    (Option.some_get _).symm

theorem load_segment_page_freelist (k : Kernel) (p : Proc) (va mem : Nat)
    (seg : Option Segment) :
    (load_segment_page k p va mem seg).2.freelist = k.freelist ∧
    (load_segment_page k p va mem seg).2.kalloc_calls = k.kalloc_calls := by
  unfold load_segment_page
  split
  · simp only []
    split_ifs <;> exact ⟨rfl, rfl⟩
  · exact ⟨rfl, rfl⟩

theorem demand_page_fault_fill_frees (k : Kernel) (p : Proc) (cause : Cause)
    (ova va mem : Nat)
    (h : (demand_page_fault_fill k p cause ova va mem).exit ≠ Exit.resident) :
    (demand_page_fault_fill k p cause ova va mem).k.freelist = mem :: k.freelist ∧
    (demand_page_fault_fill k p cause ova va mem).k.kalloc_calls = k.kalloc_calls := by
  unfold demand_page_fault_fill at h ⊢
  simp only [] at h ⊢
  split at h
  · rename_i o heq
    split at heq
    · split at heq
      · split at heq
        · cases heq
          simp only [kfree]
          exact ⟨congrArg (fun l => mem :: l) (load_segment_page_freelist k p va mem _).1,
            (load_segment_page_freelist k p va mem _).2⟩
        · cases heq
      · cases heq
        exact ⟨rfl, rfl⟩
    · split at heq
      · cases heq
      · cases heq
        exact ⟨rfl, rfl⟩
  · rename_i perm k1 heq
    by_cases hm : k1.mappages_ok = false
    · rw [if_pos hm]
      have hk : k1.freelist = k.freelist ∧ k1.kalloc_calls = k.kalloc_calls := by
        split at heq
        · split at heq
          · split at heq
            · cases heq
            · cases heq
              exact load_segment_page_freelist k p va mem _
          · cases heq
        · split at heq
          · cases heq
            exact ⟨rfl, rfl⟩
          · cases heq
      simp only [kfree]
      exact ⟨congrArg (fun l => mem :: l) hk.1, hk.2⟩
    · rw [if_neg hm] at h
      exact absurd rfl h

theorem kalloc_some (k : Kernel) (mem : Nat) (h : (kalloc k).1 = some mem) :
    k.freelist = mem :: (kalloc k).2.freelist := by
  unfold kalloc at h ⊢
  cases hf : k.freelist with
  | nil => rw [hf] at h; cases h
  | cons f fs =>
    rw [hf] at h
    cases h
    rfl

theorem kalloc_none (k : Kernel) (h : (kalloc k).1 = none) :
    k.freelist = [] ∧ (kalloc k).2.freelist = [] := by
  unfold kalloc at h ⊢
  cases hf : k.freelist with
  | nil => exact ⟨rfl, rfl⟩
  | cons f fs => rw [hf] at h; cases h

/-- The ways `demand_page_fault_alloc` returns, with the frame it holds. -/
theorem demand_page_fault_alloc_frames (MAX_SWAP_PAGES : Nat) (k : Kernel) (p : Proc)
    (cause : Cause) (ova va : Nat) (o : Outcome)
    (h : demand_page_fault_alloc MAX_SWAP_PAGES k p cause ova va = some o) :
    ((kalloc k).1 = none ∧ o.k = (kalloc k).2 ∧ (o.exit = Exit.no_victim ∨
        o.exit = Exit.invalid_victim ∨ o.exit = Exit.swapout_failed)) ∨
    (∃ mem, (kalloc k).1 = some mem ∧
        o = demand_page_fault_fill (kalloc k).2 p cause ova va mem) ∨
    (∃ victim_va victim_pte, (kalloc k).1 = none ∧ find_victim_page p = some victim_va ∧
        victim_va ≠ 0 ∧ p.pagetable.bind (fun pt => walk pt victim_va) = some victim_pte ∧
        victim_pte &&& PTE_V ≠ 0 ∧
        o = demand_page_fault_fill (kalloc k).2
          { (swap_out_page MAX_SWAP_PAGES p victim_va (PTE2PA victim_pte)).2 with
              pagetable :=
                (swap_out_page MAX_SWAP_PAGES p victim_va (PTE2PA victim_pte)).2.pagetable.map
                  (fun pt => uvmunmap pt victim_va) }
          cause ova va (PTE2PA victim_pte)) := by
  unfold demand_page_fault_alloc at h
  simp only [] at h
  split at h
  · rename_i mem hk
    cases h
    exact Or.inr (Or.inl ⟨mem, hk, rfl⟩)
  · rename_i hk
    split at h
    · cases h
    · rename_i victim_va hv
      split at h
      · cases h
        exact Or.inl ⟨hk, rfl, Or.inl rfl⟩
      · rename_i hv0
        split at h
        · cases h
          exact Or.inl ⟨hk, rfl, Or.inr (Or.inl rfl)⟩
        · rename_i victim_pte hw
          split at h
          · cases h
            exact Or.inl ⟨hk, rfl, Or.inr (Or.inl rfl)⟩
          · rename_i hvalid
            split at h
            · cases h
              exact Or.inl ⟨hk, rfl, Or.inr (Or.inr rfl)⟩
            · cases h
              exact Or.inr (Or.inr ⟨victim_va, victim_pte, hk, hv, hv0, hw, hvalid, rfl⟩)

/-- The paths of `demand_page_fault` that request no frame leave the
allocator alone. -/
theorem demand_page_fault_frames (MAXVA MAX_SWAP_PAGES : Nat) (k : Kernel) (p : Proc)
    (va : Nat) (is_write is_exec : Bool) (o : Outcome)
    (h : demand_page_fault MAXVA MAX_SWAP_PAGES k p va is_write is_exec = some o) :
    (o.k = k ∧ (o.exit = Exit.null_guard ∨ o.exit = Exit.kill_invalid ∨
        o.exit = Exit.dirty ∨ o.exit = Exit.already_mapped)) ∨
    (∃ pt, p.pagetable = some pt ∧
      demand_page_fault_alloc MAX_SWAP_PAGES k p
        (get_fault_cause MAXVA p (PGROUNDDOWN va) is_write is_exec) va (PGROUNDDOWN va)
        = some o) := by
  unfold demand_page_fault at h
  split at h
  · cases h; simp
  · rename_i pt hpt
    simp only [] at h
    split at h
    · cases h; simp
    · split at h
      · split at h
        · split at h
          · cases h; simp
          · cases h; simp
        · exact Or.inr ⟨pt, hpt, h⟩
      · exact Or.inr ⟨pt, hpt, h⟩

/-- Claim C26.  When `demand_page_fault` fails on a path after a physical
frame was obtained (no segment or no executable handle, content load failure,
unknown cause, mapping failure), the frame it held, the one the allocator
handed out or the one of the evicted valid victim page, is put back on the
free list, on top of what the allocator had left; and after any fault that is
not resolved every frame that was free before the fault is free again. -/
theorem C26_failure_after_frame_releases_it (MAXVA MAX_SWAP_PAGES : Nat) (k : Kernel)
    (p : Proc) (va : Nat) (is_write is_exec : Bool) (o : Outcome)
    (h : demand_page_fault MAXVA MAX_SWAP_PAGES k p va is_write is_exec = some o) :
    (failed_with_frame o →
      ∃ mem,
        ((kalloc k).1 = some mem ∨
          ((kalloc k).1 = none ∧ ∃ victim_va victim_pte,
            find_victim_page p = some victim_va ∧
            p.pagetable.bind (fun pt => walk pt victim_va) = some victim_pte ∧
            victim_pte &&& PTE_V ≠ 0 ∧ mem = PTE2PA victim_pte)) ∧
        o.k.freelist = mem :: (kalloc k).2.freelist) ∧
    (¬ resolved o → ∀ f, f ∈ k.freelist → f ∈ o.k.freelist) := by
  rcases demand_page_fault_frames MAXVA MAX_SWAP_PAGES k p va is_write is_exec o h with
    ⟨hk, hx⟩ | ⟨pt, _, ha⟩
  · refine ⟨fun hf => ?_, fun _ f hf => by rw [hk]; exact hf⟩
    unfold failed_with_frame at hf
    rcases hx with hx | hx | hx | hx <;> rw [hx] at hf <;>
      rcases hf with hf | hf | hf | hf <;> cases hf
  · rcases demand_page_fault_alloc_frames MAX_SWAP_PAGES k p _ va _ o ha with
      ⟨hn, hk, hx⟩ | ⟨mem, hm, rfl⟩ | ⟨vv, vp, hn, hv, _, hw, hvalid, rfl⟩
    · refine ⟨fun hf => ?_, fun _ f hf => ?_⟩
      · unfold failed_with_frame at hf
        rcases hx with hx | hx | hx <;> rw [hx] at hf <;>
          rcases hf with hf | hf | hf | hf <;> cases hf
      · rw [(kalloc_none k hn).1] at hf
        cases hf
    · have hne : ∀ e : Exit, ¬ (e = Exit.resident ∨ e = Exit.dirty ∨ e = Exit.already_mapped) →
          e ≠ Exit.resident := fun e he hr => he (Or.inl hr)
      refine ⟨fun hf => ⟨mem, Or.inl hm, ?_⟩, fun hu f hf => ?_⟩
      · refine (demand_page_fault_fill_frees _ p _ va _ mem ?_).1
        unfold failed_with_frame at hf
        rcases hf with hf | hf | hf | hf <;> rw [hf] <;> decide
      · rw [(demand_page_fault_fill_frees _ p _ va _ mem (hne _ hu)).1, ← kalloc_some k mem hm]
        exact hf
    · have hne : ∀ e : Exit, ¬ (e = Exit.resident ∨ e = Exit.dirty ∨ e = Exit.already_mapped) →
          e ≠ Exit.resident := fun e he hr => he (Or.inl hr)
      refine ⟨fun hf => ⟨PTE2PA vp, Or.inr ⟨hn, vv, vp, hv, hw, hvalid, rfl⟩, ?_⟩,
        fun _ f hf => ?_⟩
      · refine (demand_page_fault_fill_frees _ _ _ va _ (PTE2PA vp) ?_).1
        unfold failed_with_frame at hf
        rcases hf with hf | hf | hf | hf <;> rw [hf] <;> decide
      · rw [(kalloc_none k hn).1] at hf
        cases hf

/-- Claim C26 at a heap fault of `p_two` for which `mappages` fails: the
fault fails with "mapping failure" after the frame `0x80001000` was taken and
filled, and the frame is back on the free list. -/
theorem C26_failure_after_frame_releases_it_witness :
    (failed_with_frame fault_nomap →
      ∃ mem,
        ((kalloc { k_two with mappages_ok := false }).1 = some mem ∨
          ((kalloc { k_two with mappages_ok := false }).1 = none ∧ ∃ victim_va victim_pte,
            find_victim_page p_two = some victim_va ∧
            p_two.pagetable.bind (fun pt => walk pt victim_va) = some victim_pte ∧
            victim_pte &&& PTE_V ≠ 0 ∧ mem = PTE2PA victim_pte)) ∧
        fault_nomap.k.freelist =
          mem :: (kalloc { k_two with mappages_ok := false }).2.freelist) ∧
    (¬ resolved fault_nomap →
      ∀ f, f ∈ ({ k_two with mappages_ok := false } : Kernel).freelist →
        f ∈ fault_nomap.k.freelist) :=
  C26_failure_after_frame_releases_it MAXVA_sv39 8 { k_two with mappages_ok := false } p_two
    0x3000 true false fault_nomap
    (by unfold fault_nomap returned; exact (Option.some_get _).symm)

/-- The fault `fault_nomap` fails with "mapping failure" and leaves both
frames free. -/
theorem fault_nomap_exit :
    fault_nomap.exit = Exit.mapping_failed ∧ fault_nomap.ret = 0 ∧
    fault_nomap.k.freelist = [0x80001000, 0x80002000] ∧ fault_nomap.k.kalloc_calls = 1 := by
  decide

/-! ## `find_victim_page` -/

theorem find_victim_loop_spec (p : Proc) (pt : PageTable) :
    ∀ (fuel va victim : Nat) (min_seq : Int) (v : Nat),
      va % PGSIZE = 0 →
      (victim = 0 ∨ (victim % PGSIZE = 0 ∧ victim < p.sz ∧ pte_valid (walk pt victim) = true)) →
      find_victim_loop p pt fuel va victim min_seq = some v →
      (v = 0 ∨ (v % PGSIZE = 0 ∧ v < p.sz ∧ pte_valid (walk pt v) = true)) := by
  intro fuel
  induction fuel with
  | zero =>
    intro va victim min_seq v _ _ h
    unfold find_victim_loop at h
    cases h
  | succ n ih =>
    intro va victim min_seq v hva hvic h
    unfold find_victim_loop at h
    have hnext : add64 va PGSIZE % PGSIZE = 0 := by
      unfold add64 PGSIZE at *
      omega
    by_cases hlt : va < p.sz
    · rw [if_pos hlt] at h
      by_cases hc : pte_valid (walk pt va) = true ∧ get_page_seq p va < min_seq
      · rw [if_pos hc] at h
        exact ih _ _ _ v hnext (Or.inr ⟨hva, hlt, hc.1⟩) h
      · rw [if_neg hc] at h
        exact ih _ _ _ v hnext hvic h
    · rw [if_neg hlt] at h
      cases h
      exact hvic

theorem find_victim_loop_returns (p : Proc) (pt : PageTable) (hsz : p.sz + PGSIZE ≤ 2 ^ 64) :
    ∀ (fuel va victim : Nat) (min_seq : Int),
      1 ≤ fuel → p.sz ≤ (fuel - 1) * PGSIZE + va →
      ∃ v, find_victim_loop p pt fuel va victim min_seq = some v := by
  intro fuel
  induction fuel with
  | zero =>
    intro va victim min_seq h1 _
    omega
  | succ n ih =>
    intro va victim min_seq _ hb
    unfold find_victim_loop
    by_cases hlt : va < p.sz
    · rw [if_pos hlt]
      have hadd : add64 va PGSIZE = va + PGSIZE := by
        unfold add64 PGSIZE at *
        omega
      have h1 : 1 ≤ n := by
        unfold PGSIZE at *
        rcases Nat.eq_zero_or_pos n with h0 | h0
        · subst h0
          omega
        · exact h0
      have h2 : p.sz ≤ (n - 1) * PGSIZE + (va + PGSIZE) := by
        unfold PGSIZE at *
        omega
      rw [hadd]
      split
      · exact ih _ _ _ h1 h2
      · exact ih _ _ _ h1 h2
    · rw [if_neg hlt]
      exact ⟨victim, rfl⟩

theorem find_victim_page_spec (p : Proc) (v : Nat) (h : find_victim_page p = some v)
    (hv : v ≠ 0) :
    v % PGSIZE = 0 ∧ v < p.sz ∧
      ∃ pte, p.pagetable.bind (fun pt => walk pt v) = some pte ∧ pte &&& PTE_V ≠ 0 := by
  unfold find_victim_page at h
  cases hpt : p.pagetable with
  | none => rw [hpt] at h; cases h
  | some pt =>
    rw [hpt] at h
    simp only [] at h
    rcases find_victim_loop_spec p pt _ 0 0 999999 v (by decide) (Or.inl rfl) h with h0 | ⟨h1, h2, h3⟩
    · exact absurd h0 hv
    · refine ⟨h1, h2, ?_⟩
      simp only [Option.bind]
      unfold pte_valid at h3
      cases hw : walk pt v with
      | none => rw [hw] at h3; cases h3
      | some e =>
        rw [hw] at h3
        simp only [bne_iff_ne, ne_eq] at h3
        exact ⟨e, rfl, h3⟩

theorem demand_page_fault_alloc_victim (MAX_SWAP_PAGES : Nat) (k : Kernel) (p : Proc)
    (cause : Cause) (ova va : Nat) (o : Outcome)
    (h : demand_page_fault_alloc MAX_SWAP_PAGES k p cause ova va = some o) :
    o.exit ≠ Exit.invalid_victim := by
  have hfill : ∀ k1 p1 mem,
      (demand_page_fault_fill k1 p1 cause ova va mem).exit ≠ Exit.invalid_victim := by
    intro k1 p1 mem
    rcases demand_page_fault_fill_exit k1 p1 cause ova va mem with ⟨hx, _⟩ | ⟨_, _, hx⟩
    · rw [hx]; decide
    · rcases hx with hx | hx | hx | hx <;> rw [hx] <;> decide
  unfold demand_page_fault_alloc at h
  simp only [] at h
  split at h
  · cases h
    exact hfill _ _ _
  · split at h
    · cases h
    · rename_i victim_va hv
      split at h
      · cases h
        simp
      · rename_i hv0
        rcases find_victim_page_spec p victim_va hv hv0 with ⟨_, _, pte, hw, hvalid⟩
        rw [hw] at h
        simp only [] at h
        rw [if_neg hvalid] at h
        split at h
        · cases h
          simp
        · cases h
          exact hfill _ _ _

/-- Claim C28.  A non-zero result of `find_victim_page` is page-aligned, lies
below the process size and names a page whose page-table entry exists and is
valid, so no call of `demand_page_fault` leaves through the "invalid victim"
exit; and with a page table and a size that leaves a page of headroom below
`2 ^ 64` the scan returns. -/
theorem C28_victim_is_valid (p : Proc) :
    (∀ v, find_victim_page p = some v → v ≠ 0 →
      v % PGSIZE = 0 ∧ v < p.sz ∧
        ∃ pte, p.pagetable.bind (fun pt => walk pt v) = some pte ∧ pte &&& PTE_V ≠ 0) ∧
    (∀ (MAXVA MAX_SWAP_PAGES : Nat) (k : Kernel) (va : Nat) (is_write is_exec : Bool)
        (o : Outcome),
      demand_page_fault MAXVA MAX_SWAP_PAGES k p va is_write is_exec = some o →
        o.exit ≠ Exit.invalid_victim) ∧
    (p.pagetable ≠ none → p.sz + PGSIZE ≤ 2 ^ 64 → ∃ v, find_victim_page p = some v) := by
  refine ⟨fun v h hv => find_victim_page_spec p v h hv, ?_, ?_⟩
  · intro MAXVA M k va w x o h
    rcases demand_page_fault_frames MAXVA M k p va w x o h with ⟨_, hx⟩ | ⟨pt, _, ha⟩
    · rcases hx with hx | hx | hx | hx <;> rw [hx] <;> decide
    · exact demand_page_fault_alloc_victim M k p _ va _ o ha
  · intro hpt hsz
    unfold find_victim_page
    cases hp : p.pagetable with
    | none => exact absurd hp hpt
    | some pt =>
      simp only []
      refine find_victim_loop_returns p pt hsz _ 0 0 999999 (by unfold PGSIZE; omega) ?_
      unfold PGSIZE at *
      omega

/-! ## Swap accounting -/

theorem count_used_le (f : Nat → Nat) : ∀ n, count_used f n ≤ n := by
  intro n
  induction n with
  | zero => exact Nat.le_refl 0
  | succ n ih =>
    unfold count_used
    split <;> omega

theorem count_used_congr (f g : Nat → Nat) :
    ∀ n, (∀ i, i < n → f i = g i) → count_used f n = count_used g n := by
  intro n
  induction n with
  | zero => intro _; rfl
  | succ n ih =>
    intro h
    unfold count_used
    rw [ih (fun i hi => h i (Nat.lt_succ_of_lt hi)), h n (Nat.lt_succ_self n)]

theorem count_used_zero (f : Nat → Nat) :
    ∀ n, (∀ i, i < n → f i = 0) → count_used f n = 0 := by
  intro n
  induction n with
  | zero => intro _; rfl
  | succ n ih =>
    intro h
    unfold count_used
    rw [ih (fun i hi => h i (Nat.lt_succ_of_lt hi)), h n (Nat.lt_succ_self n)]
    rfl

theorem count_used_update_used (f : Nat → Nat) (i : Nat) (hf : f i = 0) :
    ∀ n, i < n → count_used (Function.update f i 1) n = count_used f n + 1 := by
  intro n
  induction n with
  | zero => intro h; omega
  | succ n ih =>
    intro h
    unfold count_used
    by_cases hi : i = n
    · subst hi
      rw [count_used_congr (Function.update f i 1) f i
        (fun j hj => Function.update_noteq (Nat.ne_of_lt hj) 1 f),
        Function.update_same, hf]
      rfl
    · rw [ih (by omega), Function.update_noteq (fun e => hi e.symm) 1 f]
      omega

theorem count_used_update_free (f : Nat → Nat) (i : Nat) (hf : f i ≠ 0) :
    ∀ n, i < n → count_used (Function.update f i 0) n + 1 = count_used f n := by
  intro n
  induction n with
  | zero => intro h; omega
  | succ n ih =>
    intro h
    unfold count_used
    by_cases hi : i = n
    · subst hi
      rw [count_used_congr (Function.update f i 0) f i
        (fun j hj => Function.update_noteq (Nat.ne_of_lt hj) 0 f),
        Function.update_same, if_pos hf]
      rfl
    · have := ih (by omega)
      rw [Function.update_noteq (fun e => hi e.symm) 0 f]
      omega

theorem swap_init_accounting (M : Nat) (p : Proc) (h : p.swap_file = false) :
    swap_accounting M (swap_init M p).2 ∧ (swap_init M p).2.swap_file = true := by
  unfold swap_init
  rw [h]
  refine ⟨⟨fun _ => ?_, Int.le_refl 0⟩, rfl⟩
  show (0 : Int) = (count_used (fun i => if i < M then 0 else p.swap_slots i) M : Int)
  rw [count_used_zero _ M (fun i hi => if_pos hi)]
  rfl

theorem swap_init_preserves (M : Nat) (p : Proc) (h : swap_accounting M p) :
    swap_accounting M (swap_init M p).2 := by
  cases hf : p.swap_file with
  | false => exact (swap_init_accounting M p hf).1
  | true =>
    unfold swap_init
    rw [hf]
    exact h

theorem swap_out_page_preserves (M : Nat) (p : Proc) (va pa : Nat)
    (h : swap_accounting M p) : swap_accounting M (swap_out_page M p va pa).2 := by
  rw [swap_out_page_eq]
  have hq : swap_accounting M (if p.swap_file = true then p else (swap_init M p).2) ∧
      (if p.swap_file = true then p else (swap_init M p).2).swap_file = true := by
    cases hf : p.swap_file with
    | false => exact swap_init_accounting M p hf
    | true => exact ⟨h, hf⟩
  generalize (if p.swap_file = true then p else (swap_init M p).2) = q at hq ⊢
  rcases swap_alloc_slot_spec M q with ⟨i, hi, h0, _, he⟩ | ⟨_, he⟩
  · rw [he]
    rw [if_neg (by simp)]
    refine ⟨fun _ => ?_, ?_⟩
    · simp only []
      rw [count_used_update_used q.swap_slots i h0 M hi, hq.1.1 hq.2]
      rfl
    · simp only []
      have := hq.1.2
      omega
  · rw [he]
    rw [if_pos (show ((-1 : Int), q).1 < 0 by simp)]
    exact hq.1

theorem swap_in_page_preserves (M : Nat) (k : Kernel) (p : Proc) (va pa : Nat) (slot : Int)
    (h : swap_accounting M p) : swap_accounting M (swap_in_page M k p va pa slot).2.1 := by
  unfold swap_in_page
  by_cases hc : p.swap_file = false ∨ slot < 0 ∨ slot ≥ (M : Int)
  · rw [if_pos hc]
    exact h
  · rw [if_neg hc]
    by_cases hu : swap_slot_is_used M p slot = 0
    · rw [if_pos hu]
      exact h
    · rw [if_neg hu]
      have hfile : p.swap_file = true := by
        cases hf : p.swap_file with
        | false => exact absurd (Or.inl hf) hc
        | true => rfl
      have h0 : 0 ≤ slot := by
        rcases Int.lt_or_le slot 0 with hlt | hle
        · exact absurd (Or.inr (Or.inl hlt)) hc
        · exact hle
      have hM : slot < (M : Int) := by
        rcases Int.lt_or_le slot (M : Int) with hlt | hle
        · exact hlt
        · exact absurd (Or.inr (Or.inr hle)) hc
      have hlt : slot.toNat < M := by omega
      have hused : p.swap_slots slot.toNat ≠ 0 := by
        unfold swap_slot_is_used at hu
        rw [if_neg (by omega)] at hu
        exact hu
      have hfree : swap_slot_set_free M p slot =
          { p with swap_slots := Function.update p.swap_slots slot.toNat 0 } := by
        unfold swap_slot_set_free
        rw [if_pos ⟨h0, hM⟩]
      simp only []
      rw [hfree]
      have hcount := count_used_update_free p.swap_slots slot.toNat hused M hlt
      have hnum := h.1 hfile
      refine ⟨fun _ => ?_, ?_⟩
      · simp only []
        omega
      · simp only []
        omega

theorem swap_cleanup_preserves (M : Nat) (p : Proc) :
    swap_accounting M (swap_cleanup M p) ∧ (swap_cleanup M p).swap_file = false ∧
      (swap_cleanup M p).num_swapped = 0 := by
  have hfile : (swap_cleanup M p).swap_file = false := by
    unfold swap_cleanup
    cases hf : p.swap_file with
    | false => simp [hf]
    | true => simp
  refine ⟨⟨fun ht => ?_, ?_⟩, hfile, rfl⟩
  · rw [hfile] at ht
    cases ht
  · exact Int.le_refl 0

/-- Claim C27.  The swap accounting invariant "while the pool is initialized,
`num_swapped` is the number of slots marked used; `num_swapped` is never
negative": `swap_init` establishes it from any uninitialized state and
preserves it otherwise, and `swap_out_page`, `swap_in_page` (whatever they
return) and `swap_cleanup` preserve it; under it the count of an initialized
pool is at most `MAX_SWAP_PAGES`. -/
theorem C27_swap_accounting (MAX_SWAP_PAGES : Nat) (p : Proc) :
    (p.swap_file = false →
      swap_accounting MAX_SWAP_PAGES (swap_init MAX_SWAP_PAGES p).2 ∧
      (swap_init MAX_SWAP_PAGES p).2.swap_file = true) ∧
    (swap_accounting MAX_SWAP_PAGES p →
      swap_accounting MAX_SWAP_PAGES (swap_init MAX_SWAP_PAGES p).2 ∧
      (∀ va pa, swap_accounting MAX_SWAP_PAGES (swap_out_page MAX_SWAP_PAGES p va pa).2) ∧
      (∀ k va pa slot,
        swap_accounting MAX_SWAP_PAGES (swap_in_page MAX_SWAP_PAGES k p va pa slot).2.1) ∧
      swap_accounting MAX_SWAP_PAGES (swap_cleanup MAX_SWAP_PAGES p)) ∧
    (swap_accounting MAX_SWAP_PAGES p →
      0 ≤ p.num_swapped ∧
      (p.swap_file = true →
        p.num_swapped = (count_used p.swap_slots MAX_SWAP_PAGES : Int) ∧
        p.num_swapped ≤ (MAX_SWAP_PAGES : Int))) := by
  refine ⟨swap_init_accounting MAX_SWAP_PAGES p, fun h => ⟨swap_init_preserves _ p h,
    fun va pa => swap_out_page_preserves _ p va pa h,
    fun k va pa slot => swap_in_page_preserves _ k p va pa slot h,
    (swap_cleanup_preserves _ p).1⟩, fun h => ⟨h.2, fun hf => ⟨h.1 hf, ?_⟩⟩⟩
  rw [h.1 hf]
  exact Int.ofNat_le.mpr (count_used_le p.swap_slots MAX_SWAP_PAGES)

/-! ## `sys_sbrk` and `sys_memstat` -/

/-- Claim C24.  A lazy heap-growth request (`t` not `SBRK_EAGER`) with a
delta `0 ≤ n` returns the old size and sets `sz` to the old size plus `n`,
leaving every other field of the process (the page table among them) and the
whole kernel state (the free frames among them) as they were; when the old
size plus `n` does not fit 64 bits it returns -1 (`2 ^ 64 - 1` as `uint64`)
and changes nothing. -/
theorem C24_lazy_sbrk (SBRK_EAGER : Int)
    (growproc : Kernel → Proc → Int → Int × Proc × Kernel) (k : Kernel) (p : Proc) (n t : Int)
    (ht : t ≠ SBRK_EAGER) (hn : 0 ≤ n) (hint : n < 2 ^ 31) (hsz : p.sz < 2 ^ 64) :
    (p.sz + n.toNat < 2 ^ 64 →
      sys_sbrk SBRK_EAGER growproc k p n t = (p.sz, { p with sz := p.sz + n.toNat }, k)) ∧
    (2 ^ 64 ≤ p.sz + n.toNat →
      sys_sbrk SBRK_EAGER growproc k p n t = (2 ^ 64 - 1, p, k)) := by
  have hconv : (n % 2 ^ 64).toNat = n.toNat := by omega
  unfold sys_sbrk
  simp only []
  rw [if_neg (by omega), hconv]
  unfold add64
  constructor
  · intro h
    rw [Nat.mod_eq_of_lt h, if_neg (by omega)]
  · intro h
    rw [if_pos (by omega)]

/-- Claim C24 at the image `p_two`, grown lazily by one page. -/
theorem C24_lazy_sbrk_witness :
    (p_two.sz + (4096 : Int).toNat < 2 ^ 64 →
      sys_sbrk 1 (fun k p _ => (0, p, k)) k_two p_two 4096 2 =
        (p_two.sz, { p_two with sz := p_two.sz + (4096 : Int).toNat }, k_two)) ∧
    (2 ^ 64 ≤ p_two.sz + (4096 : Int).toNat →
      sys_sbrk 1 (fun k p _ => (0, p, k)) k_two p_two 4096 2 = (2 ^ 64 - 1, p_two, k_two)) :=
  C24_lazy_sbrk 1 (fun k p _ => (0, p, k)) k_two p_two 4096 2 (by decide) (by decide)
    (by decide) (by decide)

theorem PGROUNDDOWN_mul (i : Nat) : PGROUNDDOWN (i * PGSIZE) = i * PGSIZE := by
  unfold PGROUNDDOWN PGSIZE
  omega

theorem sys_memstat_loop_entry (p : Proc) (end_addr : Nat) (hend : end_addr < 2 ^ 64) :
    ∀ (fuel va i : Nat), i < fuel → va + i * PGSIZE < end_addr →
      (sys_memstat_loop p end_addr fuel va)[i]? =
        some { va := va + i * PGSIZE
               state := get_page_state p (va + i * PGSIZE)
               is_dirty := 0
               seq := -1
               swap_slot := -1 } := by
  intro fuel
  induction fuel with
  | zero => intro va i h _; omega
  | succ n ih =>
    intro va i hi hlt
    unfold sys_memstat_loop
    have hva : va < end_addr := by
      unfold PGSIZE at hlt
      omega
    rw [if_pos hva]
    cases i with
    | zero =>
      simp only [List.getElem?_cons_zero, Nat.zero_mul, Nat.add_zero]
      rfl
    | succ j =>
      have hadd : add64 va PGSIZE = va + PGSIZE := by
        unfold add64 PGSIZE at *
        omega
      rw [List.getElem?_cons_succ, hadd, ih (va + PGSIZE) j (by omega)
        (by unfold PGSIZE at *; omega)]
      have he : va + PGSIZE + j * PGSIZE = va + (j + 1) * PGSIZE := by
        unfold PGSIZE
        omega
      rw [he]

/-- Claim C25.  The snapshot built by `sys_memstat` has
`num_pages_total = min (sz / PGSIZE) MAX_PAGES_INFO`; for every `i` below it,
entry `i` has `va = i * PGSIZE`, state `RESIDENT` exactly when the page-table
entry of that address is valid and `UNMAPPED` otherwise, `is_dirty = 0`,
`seq = -1` and `swap_slot = -1`; and the process is returned as it was,
whether or not the copy to user space succeeds. -/
theorem C25_memstat_snapshot (MAX_PAGES_INFO : Nat) (copyout_ok : Bool) (p : Proc)
    (hsz : p.sz < 2 ^ 64) :
    (sys_memstat MAX_PAGES_INFO copyout_ok p).2.1 = p ∧
    (sys_memstat MAX_PAGES_INFO copyout_ok p).2.2.num_pages_total =
      min (p.sz / PGSIZE) MAX_PAGES_INFO ∧
    ∀ i, i < (sys_memstat MAX_PAGES_INFO copyout_ok p).2.2.num_pages_total →
      ∃ e, (sys_memstat MAX_PAGES_INFO copyout_ok p).2.2.pages[i]? = some e ∧
        e.va = i * PGSIZE ∧
        (e.state = PageState.RESIDENT ↔
          pte_valid (p.pagetable.bind (fun pt => walk pt (i * PGSIZE))) = true) ∧
        (e.state = PageState.UNMAPPED ↔
          pte_valid (p.pagetable.bind (fun pt => walk pt (i * PGSIZE))) = false) ∧
        e.is_dirty = 0 ∧ e.seq = -1 ∧ e.swap_slot = -1 := by
  have hstat : ∀ c, (sys_memstat MAX_PAGES_INFO c p).2 =
      (p, { num_resident_pages := p.num_resident
            num_swapped_pages := p.num_swapped
            next_fifo_seq := p.next_seq
            num_pages_total :=
              if (p.sz - 0) / PGSIZE > MAX_PAGES_INFO then MAX_PAGES_INFO
              else (p.sz - 0) / PGSIZE
            pages := sys_memstat_loop p p.sz MAX_PAGES_INFO 0 }) := by
    intro c
    unfold sys_memstat
    simp only []
    split <;> rfl
  have htotal : (if (p.sz - 0) / PGSIZE > MAX_PAGES_INFO then MAX_PAGES_INFO
      else (p.sz - 0) / PGSIZE) = min (p.sz / PGSIZE) MAX_PAGES_INFO := by
    rw [Nat.sub_zero]
    split <;> omega
  rw [hstat copyout_ok]
  simp only []
  rw [htotal]
  refine ⟨trivial, rfl, fun i hi => ?_⟩
  have hlt : 0 + i * PGSIZE < p.sz := by
    unfold PGSIZE at *
    omega
  have hentry := sys_memstat_loop_entry p p.sz hsz MAX_PAGES_INFO 0 i (by omega) hlt
  rw [Nat.zero_add] at hentry
  refine ⟨_, hentry, rfl, ?_, ?_, rfl, rfl, rfl⟩
  · simp only []
    unfold get_page_state
    simp only [PGROUNDDOWN_mul]
    cases pte_valid (p.pagetable.bind (fun pt => walk pt (i * PGSIZE))) <;> simp
  · simp only []
    unfold get_page_state
    simp only [PGROUNDDOWN_mul]
    cases pte_valid (p.pagetable.bind (fun pt => walk pt (i * PGSIZE))) <;> simp

/-- Claim C25 at the image `p_mapped` (five pages, the one at `0x3000`
resident) with a reporting limit of 4. -/
theorem C25_memstat_snapshot_witness :
    (sys_memstat 4 true p_mapped).2.1 = p_mapped ∧
    (sys_memstat 4 true p_mapped).2.2.num_pages_total = min (p_mapped.sz / PGSIZE) 4 ∧
    ∀ i, i < (sys_memstat 4 true p_mapped).2.2.num_pages_total →
      ∃ e, (sys_memstat 4 true p_mapped).2.2.pages[i]? = some e ∧
        e.va = i * PGSIZE ∧
        (e.state = PageState.RESIDENT ↔
          pte_valid (p_mapped.pagetable.bind (fun pt => walk pt (i * PGSIZE))) = true) ∧
        (e.state = PageState.UNMAPPED ↔
          pte_valid (p_mapped.pagetable.bind (fun pt => walk pt (i * PGSIZE))) = false) ∧
        e.is_dirty = 0 ∧ e.seq = -1 ∧ e.swap_slot = -1 :=
  C25_memstat_snapshot 4 true p_mapped (by decide)

/-- The snapshot of `p_mapped` with a reporting limit of 4: four entries, the
fourth one resident. -/
theorem sys_memstat_p_mapped :
    (sys_memstat 4 true p_mapped).2.2.num_pages_total = 4 ∧
    (sys_memstat 4 true p_mapped).2.2.pages =
      [⟨0, PageState.UNMAPPED, 0, -1, -1⟩, ⟨0x1000, PageState.UNMAPPED, 0, -1, -1⟩,
       ⟨0x2000, PageState.UNMAPPED, 0, -1, -1⟩, ⟨0x3000, PageState.RESIDENT, 0, -1, -1⟩] := by
  decide

/-! ## `kexec`: failure and `heap_start` -/

/-- Claim C21, failing inputs.  The process `heap_342.p` (two recorded
segments, a page in swap slot 0, `next_seq = 3`) calls `kexec`.  With the image
`elf_bad`, whose second loadable header is malformed, the call returns -1 and
entry 0 of the segment table has been overwritten.  With the well-formed image
`elf_next` and a failing argument copy, the call returns -1 and the segment
table, `num_segments`, `heap_start`, `sz`, `num_swapped`, `next_seq`, the swap
state and the executable handle are those of the new image. -/
theorem C21_kexec_failure_changes_descriptor :
    ((kexec 4 1 (some elf_bad) env_ok heap_342.p).1 = -1 ∧
      seg_at heap_342.p 0 = ⟨0, 0x1000, 0x100, 0x200, 0x1000, 5⟩ ∧
      seg_at (kexec 4 1 (some elf_bad) env_ok heap_342.p).2 0 =
        ⟨0, 0x2000, 0x100, 0x300, 0x2000, 5⟩) ∧
    ((kexec 4 1 (some elf_next) { env_ok with args := none } heap_342.p).1 = -1 ∧
      (heap_342.p.num_segments = 2 ∧ heap_342.p.heap_start = 0x2000 ∧
        heap_342.p.sz = 0x5000 ∧ heap_342.p.num_swapped = 1 ∧ heap_342.p.next_seq = 3) ∧
      (heap_342.p.swap_file = true ∧ heap_342.p.exec_inode.map Inode.size = some 0x3000 ∧
        heap_342.p.segments =
          [⟨0, 0x1000, 0x100, 0x200, 0x1000, 5⟩, ⟨0x1000, 0x2000, 0x1000, 0x1000, 0x1000, 6⟩]) ∧
      ((kexec 4 1 (some elf_next) { env_ok with args := none } heap_342.p).2.num_segments = 3 ∧
        (kexec 4 1 (some elf_next) { env_ok with args := none } heap_342.p).2.heap_start
          = 0x4000 ∧
        (kexec 4 1 (some elf_next) { env_ok with args := none } heap_342.p).2.sz = 0x6000 ∧
        (kexec 4 1 (some elf_next) { env_ok with args := none } heap_342.p).2.num_swapped = 0 ∧
        (kexec 4 1 (some elf_next) { env_ok with args := none } heap_342.p).2.next_seq = 0) ∧
      ((kexec 4 1 (some elf_next) { env_ok with args := none } heap_342.p).2.swap_file = false ∧
        (kexec 4 1 (some elf_next) { env_ok with args := none } heap_342.p).2.exec_inode.map
          Inode.size = some 0x4000 ∧
        (kexec 4 1 (some elf_next) { env_ok with args := none } heap_342.p).2.segments =
          [⟨0, 0x2000, 0x100, 0x300, 0x2000, 5⟩, ⟨0x2000, 0x3000, 0x2000, 0x1000, 0x1000, 6⟩,
           ⟨0x3000, 0x4000, 0x3000, 0x800, 0x1000, 6⟩])) := by
  refine ⟨⟨?_, ?_, ?_⟩, ?_, ⟨?_, ?_, ?_, ?_, ?_⟩, ⟨?_, ?_, ?_⟩, ⟨?_, ?_, ?_, ?_, ?_⟩, ?_, ?_, ?_⟩ <;>
    decide

/-- Claim C22, failing input.  The image `elf_high` has one loadable header,
for the byte at `2 ^ 64 - 4096`, which passes the three header checks; `kexec`
succeeds, records the segment with `va_end = 2 ^ 64 - 4095`, and sets
`heap_start` to 0, because rounding the end up to a page boundary wraps
around.  No page-aligned 64-bit value is at or above that `va_end`. -/
theorem C22_heap_start_wraps :
    (kexec 4 1 (some elf_high) env_ok p_noseg).1 = 1 ∧
    (kexec 4 1 (some elf_high) env_ok p_noseg).2.num_segments = 1 ∧
    (seg_at (kexec 4 1 (some elf_high) env_ok p_noseg).2 0).va_end = 0xFFFFFFFFFFFFF001 ∧
    (kexec 4 1 (some elf_high) env_ok p_noseg).2.heap_start = 0 ∧
    (kexec 4 1 (some elf_high) env_ok p_noseg).2.heap_start <
      (seg_at (kexec 4 1 (some elf_high) env_ok p_noseg).2 0).va_end ∧
    (∀ a, a < 2 ^ 64 → a % PGSIZE = 0 →
      a < (seg_at (kexec 4 1 (some elf_high) env_ok p_noseg).2 0).va_end) := by
  have hend : (seg_at (kexec 4 1 (some elf_high) env_ok p_noseg).2 0).va_end =
      0xFFFFFFFFFFFFF001 := by decide
  refine ⟨?_, ?_, hend, ?_, ?_, ?_⟩
  · decide
  · decide
  · decide
  · decide
  · intro a h1 h2
    rw [hend]
    unfold PGSIZE at h2
    omega

theorem add64_le (a b : Nat) : add64 a b ≤ a + b := by
  unfold add64
  exact Nat.mod_le _ _

/-- The local `sz` of the header loop is at or above the end of every
recorded segment. -/
theorem kexec_loop_sz_covers (M : Nat) :
    ∀ (hs : List (Option ProgHdr)) (segs : List Segment) (n sz : Nat),
      (∀ i, i < n → (segs.getD i default).va_end ≤ sz) →
      ∀ i, i < (kexec_loop M hs segs n sz).num_segments →
        ((kexec_loop M hs segs n sz).segments.getD i default).va_end ≤
          (kexec_loop M hs segs n sz).sz := by
  intro hs
  induction hs with
  | nil =>
    intro segs n sz hok i hi
    exact hok i hi
  | cons x rest ih =>
    intro segs n sz hok
    cases x with
    | none =>
      intro i hi
      exact hok i hi
    | some ph =>
      simp only [kexec_loop]
      by_cases ht : ph.type ≠ ELF_PROG_LOAD
      · rw [if_pos ht]
        exact ih segs n sz hok
      · rw [if_neg ht]
        by_cases h1 : ph.memsz < ph.filesz
        · rw [if_pos h1]
          exact hok
        · rw [if_neg h1]
          by_cases h2 : add64 ph.vaddr ph.memsz < ph.vaddr
          · rw [if_pos h2]
            exact hok
          · rw [if_neg h2]
            by_cases h3 : ph.vaddr % PGSIZE ≠ 0
            · rw [if_pos h3]
              exact hok
            · rw [if_neg h3]
              apply ih
              intro i hi
              have hsz : sz ≤ (if add64 ph.vaddr ph.memsz > sz then add64 ph.vaddr ph.memsz
                  else sz) := by
                split <;> omega
              have hend : add64 ph.vaddr ph.memsz ≤
                  (if add64 ph.vaddr ph.memsz > sz then add64 ph.vaddr ph.memsz else sz) := by
                split <;> omega
              by_cases hn : n < M
              · rw [if_pos hn] at hi
                rw [if_pos hn, array_set_getD]
                by_cases hin : i = n
                · rw [if_pos hin]
                  exact hend
                · rw [if_neg hin]
                  exact Nat.le_trans (hok i (by omega)) hsz
              · rw [if_neg hn] at hi
                rw [if_neg hn]
                exact Nat.le_trans (hok i hi) hsz

/-- The local `sz` of the header loop stays below a bound that holds for the
end of every loadable header. -/
theorem kexec_loop_sz_bound (M : Nat) :
    ∀ (hs : List (Option ProgHdr)) (segs : List Segment) (n sz : Nat),
      (∀ x, x ∈ hs → hdr_fits x) → sz ≤ 2 ^ 64 - PGSIZE →
      (kexec_loop M hs segs n sz).sz ≤ 2 ^ 64 - PGSIZE := by
  intro hs
  induction hs with
  | nil =>
    intro segs n sz _ hsz
    exact hsz
  | cons x rest ih =>
    intro segs n sz hfit hsz
    have hfit2 : ∀ y, y ∈ rest → hdr_fits y := fun y hy => hfit y (List.mem_cons_of_mem x hy)
    cases x with
    | none => exact hsz
    | some ph =>
      have hph : ph.type = ELF_PROG_LOAD → ph.vaddr + ph.memsz ≤ 2 ^ 64 - PGSIZE :=
        hfit (some ph) (List.mem_cons_self _ _)
      simp only [kexec_loop]
      by_cases ht : ph.type ≠ ELF_PROG_LOAD
      · rw [if_pos ht]
        exact ih segs n sz hfit2 hsz
      · rw [if_neg ht]
        by_cases h1 : ph.memsz < ph.filesz
        · rw [if_pos h1]
          exact hsz
        · rw [if_neg h1]
          by_cases h2 : add64 ph.vaddr ph.memsz < ph.vaddr
          · rw [if_pos h2]
            exact hsz
          · rw [if_neg h2]
            by_cases h3 : ph.vaddr % PGSIZE ≠ 0
            · rw [if_pos h3]
              exact hsz
            · rw [if_neg h3]
              apply ih _ _ _ hfit2
              have hend := Nat.le_trans (add64_le ph.vaddr ph.memsz) (hph (not_not.mp ht))
              split
              · exact hend
              · exact hsz

/-- When no loadable header is dropped, the local `sz` of the header loop is
0 or the end of a recorded segment. -/
theorem kexec_loop_sz_attained (M : Nat) :
    ∀ (hs : List (Option ProgHdr)) (segs : List Segment) (n sz : Nat),
      n + (loadable hs).length ≤ M →
      (sz = 0 ∨ ∃ i, i < n ∧ (segs.getD i default).va_end = sz) →
      ((kexec_loop M hs segs n sz).sz = 0 ∨
        ∃ i, i < (kexec_loop M hs segs n sz).num_segments ∧
          ((kexec_loop M hs segs n sz).segments.getD i default).va_end =
            (kexec_loop M hs segs n sz).sz) := by
  intro hs
  induction hs with
  | nil =>
    intro segs n sz _ h
    exact h
  | cons x rest ih =>
    intro segs n sz hlen h
    cases x with
    | none => exact h
    | some ph =>
      simp only [kexec_loop]
      by_cases ht : ph.type ≠ ELF_PROG_LOAD
      · rw [if_pos ht]
        refine ih segs n sz ?_ h
        simp only [loadable, if_neg ht] at hlen
        exact hlen
      · rw [if_neg ht]
        by_cases h1 : ph.memsz < ph.filesz
        · rw [if_pos h1]
          exact h
        · rw [if_neg h1]
          by_cases h2 : add64 ph.vaddr ph.memsz < ph.vaddr
          · rw [if_pos h2]
            exact h
          · rw [if_neg h2]
            by_cases h3 : ph.vaddr % PGSIZE ≠ 0
            · rw [if_pos h3]
              exact h
            · rw [if_neg h3]
              simp only [loadable, if_pos (not_not.mp ht), List.length_cons] at hlen
              have hn : n < M := by omega
              rw [if_pos hn, if_pos hn]
              apply ih
              · omega
              · by_cases hgt : add64 ph.vaddr ph.memsz > sz
                · rw [if_pos hgt]
                  refine Or.inr ⟨n, Nat.lt_succ_self n, ?_⟩
                  rw [array_set_getD, if_pos rfl]
                  rfl
                · rw [if_neg hgt]
                  rcases h with h0 | ⟨i, hi, he⟩
                  · exact Or.inl h0
                  · refine Or.inr ⟨i, Nat.lt_succ_of_lt hi, ?_⟩
                    rw [array_set_getD, if_neg (Nat.ne_of_lt hi)]
                    exact he

theorem PGROUNDUP_spec (sz : Nat) (h : sz ≤ 2 ^ 64 - PGSIZE) :
    PGROUNDUP sz % PGSIZE = 0 ∧ sz ≤ PGROUNDUP sz ∧ PGROUNDUP sz < sz + PGSIZE ∧
    ∀ a, a % PGSIZE = 0 → sz ≤ a → PGROUNDUP sz ≤ a := by
  unfold PGROUNDUP add64 PGSIZE at *
  have hm : (sz + (4096 - 1)) % 2 ^ 64 = sz + 4095 := by omega
  rw [hm]
  refine ⟨by omega, by omega, by omega, fun a h1 h2 => by omega⟩

theorem kexec_success_heap_start (M U : Nat) (f : ElfFile) (env : ExecEnv) (p : Proc)
    (h : (kexec M U (some f) env p).1 ≠ -1) :
    (kexec M U (some f) env p).2.heap_start =
      PGROUNDUP (kexec_loop M f.ph p.segments 0 0).sz := by
  cases hfe : f.elf with
  | none =>
    exfalso; apply h
    unfold kexec
    simp only [hfe]
  | some elf =>
    by_cases hmag : elf.magic ≠ ELF_MAGIC
    · exfalso; apply h
      unfold kexec
      simp only [hfe, if_pos hmag]
    · cases hpt : env.proc_pagetable with
      | none =>
        exfalso; apply h
        unfold kexec
        simp only [hfe, if_neg hmag, hpt]
      | some pt =>
        cases hb : (kexec_loop M f.ph p.segments 0 0).bad with
        | true => exact absurd (kexec_bad M U f env p hb) h
        | false =>
          cases hu : env.uvmalloc with
          | none =>
            exfalso; apply h
            unfold kexec
            simp only [hfe, if_neg hmag, hpt, hb, hu, Bool.false_eq_true, if_false]
          | some frame =>
            cases ha : env.args with
            | none =>
              exfalso; apply h
              unfold kexec
              simp only [hfe, if_neg hmag, hpt, hb, hu, ha, Bool.false_eq_true, if_false]
            | some a =>
              obtain ⟨argc, sp⟩ := a
              rw [kexec_run M U f env p elf pt frame argc sp hfe (not_not.mp hmag) hpt hb hu ha]

/-- Claim C23, as the code has it.  For every image that `kexec` loads
successfully and in which the end `vaddr + memsz` of every loadable header
leaves a page of headroom below `2 ^ 64`: `heap_start` is page-aligned, it is
at or above the end of every recorded segment, so no address from
`heap_start` on lies inside a recorded segment, and, when no loadable header
was dropped for lack of room in the segment table, it is the smallest
page-aligned address at or above the end of every recorded segment.  (The
recorded ranges may overlap and may leave page-aligned addresses below
`heap_start` uncovered.) -/
theorem C23_heap_start_above_segments (MAX_SEGMENTS USERSTACK : Nat) (f : ElfFile)
    (env : ExecEnv) (p : Proc) (hfit : ∀ x, x ∈ f.ph → hdr_fits x)
    (hs : (kexec MAX_SEGMENTS USERSTACK (some f) env p).1 ≠ -1) :
    (kexec MAX_SEGMENTS USERSTACK (some f) env p).2.heap_start % PGSIZE = 0 ∧
    (∀ i, i < (kexec MAX_SEGMENTS USERSTACK (some f) env p).2.num_segments →
      (seg_at (kexec MAX_SEGMENTS USERSTACK (some f) env p).2 i).va_end ≤
        (kexec MAX_SEGMENTS USERSTACK (some f) env p).2.heap_start) ∧
    (∀ i va, i < (kexec MAX_SEGMENTS USERSTACK (some f) env p).2.num_segments →
      (kexec MAX_SEGMENTS USERSTACK (some f) env p).2.heap_start ≤ va →
        ¬ in_segment (seg_at (kexec MAX_SEGMENTS USERSTACK (some f) env p).2 i) va) ∧
    ((loadable f.ph).length ≤ MAX_SEGMENTS →
      ∀ a, a % PGSIZE = 0 →
        (∀ i, i < (kexec MAX_SEGMENTS USERSTACK (some f) env p).2.num_segments →
          (seg_at (kexec MAX_SEGMENTS USERSTACK (some f) env p).2 i).va_end ≤ a) →
        (kexec MAX_SEGMENTS USERSTACK (some f) env p).2.heap_start ≤ a) := by
  have hk := kexec_success MAX_SEGMENTS USERSTACK f env p hs
  have hh := kexec_success_heap_start MAX_SEGMENTS USERSTACK f env p hs
  have hb := kexec_loop_sz_bound MAX_SEGMENTS f.ph p.segments 0 0 hfit (Nat.zero_le _)
  have hc := kexec_loop_sz_covers MAX_SEGMENTS f.ph p.segments 0 0
    (fun i hi => absurd hi (Nat.not_lt_zero i))
  have hr := PGROUNDUP_spec _ hb
  have hends : ∀ i, i < (kexec MAX_SEGMENTS USERSTACK (some f) env p).2.num_segments →
      (seg_at (kexec MAX_SEGMENTS USERSTACK (some f) env p).2 i).va_end ≤
        (kexec MAX_SEGMENTS USERSTACK (some f) env p).2.heap_start := by
    intro i hi
    unfold seg_at
    rw [hk.1, hh]
    rw [hk.2] at hi
    exact Nat.le_trans (hc i hi) hr.2.1
  refine ⟨?_, hends, ?_, ?_⟩
  · rw [hh]
    exact hr.1
  · intro i va hi hva hin
    have h1 := hends i hi
    unfold in_segment at hin
    omega
  · intro hlen a ha hall
    rw [hh]
    refine hr.2.2.2 a ha ?_
    rcases kexec_loop_sz_attained MAX_SEGMENTS f.ph p.segments 0 0 (by omega) (Or.inl rfl) with
      h0 | ⟨i, hi, he⟩
    · rw [h0]
      exact Nat.zero_le a
    · have h2 := hall i (by rw [hk.2]; exact hi)
      unfold seg_at at h2
      rw [hk.1, he] at h2
      exact h2

/-- Claim C23 at the image `elf_two`, loaded into a table of 4 segments. -/
theorem C23_heap_start_above_segments_witness :
    (kexec 4 1 (some elf_two) env_ok p_noseg).2.heap_start % PGSIZE = 0 ∧
    (∀ i, i < (kexec 4 1 (some elf_two) env_ok p_noseg).2.num_segments →
      (seg_at (kexec 4 1 (some elf_two) env_ok p_noseg).2 i).va_end ≤
        (kexec 4 1 (some elf_two) env_ok p_noseg).2.heap_start) ∧
    (∀ i va, i < (kexec 4 1 (some elf_two) env_ok p_noseg).2.num_segments →
      (kexec 4 1 (some elf_two) env_ok p_noseg).2.heap_start ≤ va →
        ¬ in_segment (seg_at (kexec 4 1 (some elf_two) env_ok p_noseg).2 i) va) ∧
    ((loadable elf_two.ph).length ≤ 4 →
      ∀ a, a % PGSIZE = 0 →
        (∀ i, i < (kexec 4 1 (some elf_two) env_ok p_noseg).2.num_segments →
          (seg_at (kexec 4 1 (some elf_two) env_ok p_noseg).2 i).va_end ≤ a) →
        (kexec 4 1 (some elf_two) env_ok p_noseg).2.heap_start ≤ a) :=
  C23_heap_start_above_segments 4 1 elf_two env_ok p_noseg (by decide) (by decide)

/-- Claim C23, counterexample.  `kexec` loads the image `elf_overlap`
successfully; the two recorded segments `[0x1000, 0x3000)` and
`[0x2000, 0x3000)` both hold the address `0x2000`, and the page-aligned
address 0 lies in neither of them although `heap_start` is `0x3000`. -/
theorem C23_counterexample :
    (kexec 4 1 (some elf_overlap) env_ok p_noseg).1 = 1 ∧
    (kexec 4 1 (some elf_overlap) env_ok p_noseg).2.num_segments = 2 ∧
    (in_segment (seg_at (kexec 4 1 (some elf_overlap) env_ok p_noseg).2 0) 0x2000 ∧
      in_segment (seg_at (kexec 4 1 (some elf_overlap) env_ok p_noseg).2 1) 0x2000) ∧
    (kexec 4 1 (some elf_overlap) env_ok p_noseg).2.heap_start = 0x3000 ∧
    (0 % PGSIZE = 0 ∧
      ¬ in_segment (seg_at (kexec 4 1 (some elf_overlap) env_ok p_noseg).2 0) 0 ∧
      ¬ in_segment (seg_at (kexec 4 1 (some elf_overlap) env_ok p_noseg).2 1) 0) := by
  refine ⟨?_, ?_, ⟨?_, ?_⟩, ?_, ?_, ?_, ?_⟩ <;> decide

end Paging
